import Mathlib

/-!
A verification development for the HTTP client of eepp.

The definitions below embed `src/eepp/network/http.cpp`: the request value
object, the response parser and the streaming receive loop of
`Http::downloadRequest`.  Byte strings (`std::string`, `char` buffers) are lists
of natural numbers; string constants of the source are written with `str`.
-/

namespace EE.Network

/-- A byte string: the contents of a `std::string` or of a `char` range. -/
abbrev Bytes := List Nat

/-- The bytes of a string constant of the source. -/
def str (s : String) : Bytes := s.toList.map Char.toNat

/-- The macro `PACKET_BUFFER_SIZE` of http.cpp. -/
def PACKET_BUFFER_SIZE : Nat := 16384

/-- Modelled from the spec: `String::toLower` is declared outside the given
sources; header names are "lower-cased", which is taken as mapping the ASCII
letters `A..Z` to `a..z` and leaving every other byte alone. -/
def toLowerByte (c : Nat) : Nat := if 65 ≤ c ∧ c ≤ 90 then c + 32 else c

/-- Modelled from the spec: `String::toLower` applied to a whole string. -/
def toLower (s : Bytes) : Bytes := s.map toLowerByte

/-- The output of `ostream << n` for an unsigned number: its decimal digits. -/
def decimal (n : Nat) : Bytes := (Nat.toDigits 10 n).map Char.toNat

/-- The order of `std::string::operator<`: lexicographic on the bytes. -/
def strLt : Bytes → Bytes → Bool
  | [], [] => false
  | [], _ :: _ => true
  | _ :: _, [] => false
  | a :: as, b :: bs => if a < b then true else if b < a then false else strLt as bs

/-- The type `FieldTable` (a `std::map<std::string, std::string>`): the entries
in the order the map iterates them, that is by increasing key. -/
abbrev FieldTable := List (Bytes × Bytes)

/-- The assignment `table[key] = value` of `std::map`. -/
def FieldTable.assign : FieldTable → Bytes → Bytes → FieldTable
  | [], k, v => [(k, v)]
  | (k', v') :: rest, k, v =>
    if k = k' then (k, v) :: rest
    else if strLt k k' then (k, v) :: (k', v') :: rest
    else (k', v') :: FieldTable.assign rest k v

/-- The lookup `table.find(key)` of `std::map`; `none` stands for `end()`. -/
def FieldTable.find : FieldTable → Bytes → Option Bytes
  | [], _ => none
  | (k', v') :: rest, k => if k = k' then some v' else FieldTable.find rest k

/-- The enumeration `Http::Request::Method`. -/
inductive Method where
  | Get | Head | Post | Put | Delete | Options | Patch | Connect
  deriving DecidableEq, Repr

/-- `Http::Request::methodToString`. -/
def methodToString : Method → Bytes
  | .Get => str "GET"
  | .Head => str "HEAD"
  | .Post => str "POST"
  | .Put => str "PUT"
  | .Delete => str "DELETE"
  | .Options => str "OPTIONS"
  | .Patch => str "PATCH"
  | .Connect => str "CONNECT"

/-- `Http::Request::methodFromString`. -/
def methodFromString (methodString : Bytes) : Method :=
  let m := toLower methodString
  if str "get" = m then .Get
  else if str "head" = m then .Head
  else if str "post" = m then .Post
  else if str "put" = m then .Put
  else if str "delete" = m then .Delete
  else if str "options" = m then .Options
  else if str "patch" = m then .Patch
  else if str "connect" = m then .Connect
  else .Get

/-- Modelled from the spec: the class `URI` is declared outside the given
sources.  Only its components are kept; `toString` writes the absolute form
`<scheme>://<host>:<port><path>` the spec gives for proxied requests. -/
structure URI where
  scheme : Bytes
  host : Bytes
  port : Nat
  pathEtc : Bytes
  deriving DecidableEq, Repr

/-- Modelled from the spec: the default-constructed `URI()`. -/
def URI.none : URI := ⟨[], [], 0, []⟩

/-- Modelled from the spec: `URI::empty`, true of the default-constructed URI
("optional proxy URI"). -/
def URI.empty (u : URI) : Bool :=
  u.scheme.isEmpty && u.host.isEmpty && u.port == 0 && u.pathEtc.isEmpty

/-- Modelled from the spec: `URI::toString`, the absolute form of the URI. -/
def URI.toString (u : URI) : Bytes :=
  u.scheme ++ str "://" ++ u.host ++ str ":" ++ decimal u.port ++ u.pathEtc

/-- The type `Http::Request::ProgressCallback`.  The callback is called with
the expected total and the bytes received so far; a `std::function` may keep
state, so the model hands it the arguments of all its invocations, the current
one first. -/
abbrev ProgressCallback := List (Nat × Nat) → Bool

/-- The class `Http::Request`. -/
structure Request where
  mFields : FieldTable
  mMethod : Method
  mUri : Bytes
  mMajorVersion : Nat
  mMinorVersion : Nat
  mBody : Bytes
  mValidateCertificate : Bool
  mValidateHostname : Bool
  mFollowRedirect : Bool
  mCompressedResponse : Bool
  mCancel : Bool
  mMaxRedirections : Nat
  mRedirectionCount : Nat
  mProgressCallback : Option ProgressCallback

/-- `Http::Request::setField`. -/
def Request.setField (r : Request) (field value : Bytes) : Request :=
  { r with mFields := r.mFields.assign (toLower field) value }

/-- `Http::Request::setMethod`. -/
def Request.setMethod (r : Request) (method : Method) : Request :=
  { r with mMethod := method }

/-- `Http::Request::setUri`. -/
def Request.setUri (r : Request) (uri : Bytes) : Request :=
  { r with mUri := if uri.isEmpty || uri.head? != some 47 then 47 :: uri else uri }

/-- `Http::Request::setHttpVersion`; the arguments are `unsigned int`. -/
def Request.setHttpVersion (r : Request) (major minor : Nat) : Request :=
  { r with mMajorVersion := major % 2 ^ 32, mMinorVersion := minor % 2 ^ 32 }

/-- `Http::Request::setBody`. -/
def Request.setBody (r : Request) (body : Bytes) : Request :=
  { r with mBody := body }

/-- The constructor `Http::Request::Request`. -/
def Request.new (uri : Bytes) (method : Method) (body : Bytes)
    (validateCertificate validateHostname followRedirect compressedResponse : Bool) :
    Request :=
  let r : Request :=
    { mFields := [], mMethod := .Get, mUri := [], mMajorVersion := 0, mMinorVersion := 0,
      mBody := [], mValidateCertificate := validateCertificate,
      mValidateHostname := validateHostname, mFollowRedirect := followRedirect,
      mCompressedResponse := compressedResponse, mCancel := false,
      mMaxRedirections := 10, mRedirectionCount := 0, mProgressCallback := none }
  (((r.setMethod method).setUri uri).setHttpVersion 1 1).setBody body

/-- `Http::Request::hasField`. -/
def Request.hasField (r : Request) (field : Bytes) : Bool :=
  (r.mFields.find (toLower field)).isSome

/-- `Http::Request::getField`. -/
def Request.getField (r : Request) (field : Bytes) : Bytes :=
  match r.mFields.find (toLower field) with
  | some v => v
  | none => []

/-- `Http::Request::cancel`. -/
def Request.cancel (r : Request) : Request := { r with mCancel := true }

/-- The values of `Socket::Status` the client distinguishes. -/
inductive SocketStatus where
  | Done | NotReady | Disconnected | Error
  deriving DecidableEq, Repr

/-- Modelled from the spec: the transport socket is an external collaborator
("connect, send, receive, disconnect").  A peer is the scripted behaviour of the
machine a socket gets connected to: whether each call succeeds, the reply to a
tunnel request, and the successive results of `receive` (each entry is the data
of one call returning `Done`; after the last one `receive` returns `final`). -/
structure Peer where
  connectOk : Bool
  tunnelSendOk : Bool
  tunnelReply : Option Bytes
  sslConnectOk : Bool
  sendOk : Bool
  reads : List Bytes
  final : SocketStatus

/-- Modelled from the spec: a `TcpSocket` (or `SSLSocket`): whether it was made
as a TLS socket, the peer it is connected to, and the requests sent over it. -/
structure TcpSocket where
  ssl : Bool
  peer : Option Peer
  sent : List Bytes

/-- The class `Http::HttpConnection`. -/
structure HttpConnection where
  mSocket : Option TcpSocket
  mIsConnected : Bool
  mIsTunneled : Bool
  mIsSSL : Bool
  mIsKeepAlive : Bool

/-- The constructor `HttpConnection::HttpConnection()`. -/
def HttpConnection.new : HttpConnection :=
  { mSocket := none, mIsConnected := false, mIsTunneled := false, mIsSSL := false,
    mIsKeepAlive := false }

/-- `HttpConnection::disconnect`: the socket is disconnected from its peer. -/
def HttpConnection.disconnect (c : HttpConnection) : HttpConnection :=
  { c with mSocket := c.mSocket.map (fun s => { s with peer := none }),
           mIsConnected := false }

/-- The class `Http`.  `mHost` is an `IpAddress` in the source; the model keeps
the name it was resolved from. -/
structure Http where
  mConnection : Option HttpConnection
  mHost : Bytes
  mHostName : Bytes
  mPort : Nat
  mIsSSL : Bool
  mProxy : URI

/-- `Http::setHost`.  `sslSupport` is the compile-time switch `EE_SSL_SUPPORT`. -/
def Http.setHost (sslSupport : Bool) (h : Http) (host : Bytes) (port : Nat) (useSSL : Bool)
    (proxy : URI) : Http :=
  let sameHost : Bool := host == h.mHostName && port == h.mPort && useSSL == h.mIsSSL
  let r : Bytes × Nat × Bool :=
    if toLower (host.take 7) = str "http://" then
      (host.drop 7, if port ≠ 0 then port else 80, h.mIsSSL)
    else if toLower (host.take 8) = str "https://" then
      if sslSupport then (host.drop 8, if port ≠ 0 then port else 443, true)
      else ([], 0, h.mIsSSL)
    else
      let p := if port ≠ 0 then port else 80
      if sslSupport then
        let p2 := if useSSL then (if port ≠ 0 then port else 443) else p
        (host, p2, useSSL || p2 == 443)
      else (host, p, h.mIsSSL)
  let hostName := if !r.1.isEmpty && r.1.getLast? == some 47 then r.1.dropLast else r.1
  let sameHost2 : Bool := if !proxy.empty then false else sameHost
  { mConnection := if !sameHost2 then none else h.mConnection,
    mHost := if !proxy.empty then proxy.host else hostName,
    mHostName := hostName,
    mPort := r.2.1,
    mIsSSL := r.2.2,
    mProxy := proxy }

/-- The constructor `Http::Http(host, port, useSSL, proxy)`. -/
def Http.new (sslSupport : Bool) (host : Bytes) (port : Nat) (useSSL : Bool) (proxy : URI) :
    Http :=
  Http.setHost sslSupport
    { mConnection := none, mHost := [], mHostName := host, mPort := port, mIsSSL := useSSL,
      mProxy := proxy }
    host port useSSL proxy

/-- `Http::getProxy`. -/
def Http.getProxy (h : Http) : URI := h.mProxy

/-- `Http::isProxied`. -/
def Http.isProxied (h : Http) : Bool := !h.mProxy.empty

/-- Modelled from the spec: `Http::getURI` builds a `URI` from the text
`<scheme>://<host>:<port>`; the `URI` class being absent, the components are
filled in directly. -/
def Http.getURI (h : Http) : URI :=
  { scheme := if h.mIsSSL then str "https" else str "http", host := h.mHostName,
    port := h.mPort, pathEtc := [] }

/-- The loop of `prepare` and `prepareTunnel` that writes one line per field. -/
def writeFields (out : Bytes) (fields : FieldTable) : Bytes :=
  fields.foldl (fun o f => o ++ f.1 ++ str ": " ++ f.2 ++ str "\r\n") out

/-- `Http::Request::prepare`. -/
def Request.prepare (r : Request) (http : Http) : Bytes :=
  let method := methodToString r.mMethod
  let out : Bytes :=
    if http.getProxy.empty then
      method ++ str " " ++ r.mUri ++ str " "
    else
      let uri : URI := { http.getURI with pathEtc := r.mUri }
      method ++ str " " ++ uri.toString ++ str " "
  let out := out ++ str "HTTP/" ++ decimal r.mMajorVersion ++ str "." ++
    decimal r.mMinorVersion ++ str "\r\n"
  let out := writeFields out r.mFields
  let out := out ++ str "\r\n"
  out ++ r.mBody

/-- `Http::Request::prepareTunnel`; the request is modified, so it is returned
with the text. -/
def Request.prepareTunnel (r : Request) (http : Http) : Bytes × Request :=
  let r := r.setMethod .Connect
  let method := methodToString r.mMethod
  let out := method ++ str " " ++ http.mHostName ++ str ":" ++ decimal http.mPort ++ str " "
  let out := out ++ str "HTTP/" ++ decimal r.mMajorVersion ++ str "." ++
    decimal r.mMinorVersion ++ str "\r\n"
  let r := r.setField (str "Host") (http.mHostName ++ str ":" ++ decimal http.mPort)
  let r := r.setField (str "Proxy-Connection") (str "Keep-Alive")
  let r := r.setField (str "User-Agent") (str "eepp-network")
  let out := writeFields out r.mFields
  (out ++ str "\r\n", r)

/-- `Http::prepareFields`. -/
def Http.prepareFields (h : Http) (request : Request) : Request :=
  let toSend := request
  let toSend := if !toSend.hasField (str "User-Agent") then
    toSend.setField (str "User-Agent") (str "eepp-network") else toSend
  let toSend := if !toSend.hasField (str "Host") then
    toSend.setField (str "Host") h.mHostName else toSend
  let toSend := if !toSend.hasField (str "Content-Length") then
    toSend.setField (str "Content-Length") (decimal toSend.mBody.length) else toSend
  let toSend := if toSend.mMethod = .Post && !toSend.hasField (str "Content-Type") then
    toSend.setField (str "Content-Type") (str "application/x-www-form-urlencoded") else toSend
  let toSend :=
    if (toSend.mMajorVersion * 10 + toSend.mMinorVersion) % 2 ^ 32 ≥ 11
        && !toSend.hasField (str "Connection") then
      toSend.setField (str "Connection") (str "close") else toSend
  let toSend := if !h.mProxy.empty then
    let t := toSend.setField (str "Accept") (str "*/*")
    if h.mIsSSL then t.setField (str "Proxy-connection") (str "keep-alive")
    else t.setField (str "Proxy-connection") (str "close")
    else toSend
  let toSend := if request.mCompressedResponse then
    toSend.setField (str "Accept-Encoding") (str "gzip, deflate") else toSend
  toSend

/-- The enumeration `Http::Response::Status`, as the number of each value: an
`int` read from the status line is cast to it. -/
abbrev Status := Int

/-- Modelled from the spec: the header that declares `Status` is outside the
given sources; `Ok` is the status "`Ok` (200)". -/
def Status.Ok : Status := 200

/-- Modelled from the spec: `MovedPermanently` is the status 301 of "the status
is 301/302". -/
def Status.MovedPermanently : Status := 301

/-- Modelled from the spec: `MovedTemporarily` is the status 302 of "the status
is 301/302". -/
def Status.MovedTemporarily : Status := 302

/-- Modelled from the spec: `InvalidResponse` is one of the "two synthetic
values"; `statusToString` lists it first under "10xx: Custom codes", which is
taken as the number 1000. -/
def Status.InvalidResponse : Status := 1000

/-- Modelled from the spec: `ConnectionFailed` is the other synthetic value,
listed second under "10xx: Custom codes", which is taken as the number 1001. -/
def Status.ConnectionFailed : Status := 1001

/-- The class `Http::Response`. -/
structure Response where
  mFields : FieldTable
  mStatus : Status
  mMajorVersion : Nat
  mMinorVersion : Nat
  mBody : Bytes
  deriving DecidableEq, Repr

/-- The constructor `Http::Response::Response`. -/
def Response.new : Response :=
  { mFields := [], mStatus := Status.ConnectionFailed, mMajorVersion := 0, mMinorVersion := 0,
    mBody := [] }

/-- `Http::Response::getField`. -/
def Response.getField (r : Response) (field : Bytes) : Bytes :=
  match r.mFields.find (toLower field) with
  | some v => v
  | none => []

/-- `Http::Response::getStatus`. -/
def Response.getStatus (r : Response) : Status := r.mStatus

/-- `std::isspace` in the classic locale: space, `\t`, `\n`, `\v`, `\f`, `\r`. -/
def isSpace (c : Nat) : Bool := c == 32 || (9 ≤ c && c ≤ 13)

/-- `std::isdigit`: the characters `0` to `9`. -/
def isDigit (c : Nat) : Bool := 48 ≤ c && c ≤ 57

/-- A `std::istringstream`: the characters not yet read and the fail state. -/
structure IStream where
  rest : Bytes
  failed : Bool
  deriving DecidableEq, Repr

/-- The extraction `in >> word` into a `std::string`: leading white space is
skipped, then the characters up to the next white space are taken; it fails
when no character is left. -/
def IStream.readWord (s : IStream) : Option Bytes × IStream :=
  if s.failed then (none, s)
  else
    let t := s.rest.dropWhile isSpace
    if t.isEmpty then (none, { rest := t, failed := true })
    else (some (t.takeWhile (fun c => !isSpace c)),
          { rest := t.dropWhile (fun c => !isSpace c), failed := false })

/-- The number written by a string of decimal digits. -/
def digitsValue (ds : Bytes) : Nat := ds.foldl (fun a d => 10 * a + (d - 48)) 0

/-- The extraction `in >> n` into an `int` (32 bits): leading white space is
skipped, an optional sign and the longest run of decimal digits are read; it
fails when there is no digit or when the number does not fit an `int`. -/
def IStream.readInt (s : IStream) : Option Int × IStream :=
  if s.failed then (none, s)
  else
    let t := s.rest.dropWhile isSpace
    let sg : Bool × Bytes :=
      match t with
      | 45 :: u => (true, u)
      | 43 :: u => (false, u)
      | _ => (false, t)
    let ds := sg.2.takeWhile isDigit
    let rest := sg.2.dropWhile isDigit
    if ds.isEmpty then (none, { rest := rest, failed := true })
    else
      let v : Int := if sg.1 then - (digitsValue ds : Int) else (digitsValue ds : Int)
      if v < -(2 : Int) ^ 31 ∨ (2 : Int) ^ 31 - 1 < v then (none, { rest := rest, failed := true })
      else (some v, { rest := rest, failed := false })

/-- The call `in.ignore(max, '\n')`: the rest of the line and its `\n` are
discarded. -/
def IStream.ignoreLine (s : IStream) : IStream :=
  if s.failed then s
  else { s with rest := (s.rest.dropWhile (fun c => c != 10)).drop 1 }

/-- The lines successive calls of `std::getline` return on the given input:
each ends before a `\n`; a last line without `\n` is returned when it is not
empty. -/
def getlines : Bytes → List Bytes
  | [] => []
  | c :: cs =>
    if c = 10 then [] :: getlines cs
    else
      match getlines cs with
      | [] => [[c]]
      | l :: ls => (c :: l) :: ls

/-- The position `std::string::find(pat)` returns; `none` stands for `npos`. -/
def findSub (pat : Bytes) : Bytes → Option Nat
  | [] => if pat.isEmpty then some 0 else none
  | c :: cs => if pat.isPrefixOf (c :: cs) then some 0 else (findSub pat cs).map (· + 1)

/-- The body of the loop of `Http::Response::parseFields` for one line. -/
def parseFieldLine (fields : FieldTable) (line : Bytes) : FieldTable :=
  match findSub (str ": ") line with
  | some pos =>
    let field := line.take pos
    let value := line.drop (pos + 2)
    let value := if !value.isEmpty && value.getLast? == some 13 then value.dropLast else value
    fields.assign (toLower field) value
  | none => fields

/-- The loop of `Http::Response::parseFields` over the lines `std::getline`
returns: it goes on while the line is longer than 2 characters. -/
def parseFieldLines : FieldTable → List Bytes → FieldTable
  | t, [] => t
  | t, line :: rest => if line.length > 2 then parseFieldLines (parseFieldLine t line) rest else t

/-- `Http::Response::parseFields`. -/
def Response.parseFields (r : Response) (inp : IStream) : Response :=
  if inp.failed then r else { r with mFields := parseFieldLines r.mFields (getlines inp.rest) }

/-- The test `Http::Response::parse` makes on the first word of the data. -/
def versionOk (version : Bytes) : Bool :=
  version.length ≥ 8 && version.getD 6 0 == 46 && toLower (version.take 5) == str "http/" &&
    isDigit (version.getD 5 0) && isDigit (version.getD 7 0)

/-- `Http::Response::parse`.  The cast of the number read to `Status` keeps the
number. -/
def Response.parse (r : Response) (data : Bytes) : Response :=
  let in0 : IStream := { rest := data, failed := false }
  let w := in0.readWord
  let r1 : Option Response :=
    match w.1 with
    | some version =>
      if versionOk version then
        some { r with mMajorVersion := version.getD 5 0 - 48, mMinorVersion := version.getD 7 0 - 48 }
      else none
    | none => some r
  match r1 with
  | none => { r with mStatus := Status.InvalidResponse }
  | some r =>
    let n := w.2.readInt
    match n.1 with
    | none => { r with mStatus := Status.InvalidResponse }
    | some status =>
      let r := { r with mStatus := status }
      let in3 := n.2.ignoreLine
      let r := r.parseFields in3
      { r with mBody := [] }

/-- The value of a hexadecimal digit, if the byte is one. -/
def hexDigit (c : Nat) : Option Nat :=
  if 48 ≤ c ∧ c ≤ 57 then some (c - 48)
  else if 97 ≤ c ∧ c ≤ 102 then some (c - 87)
  else if 65 ≤ c ∧ c ≤ 70 then some (c - 55)
  else none

/-- The value of a digit in the given base (10 or 16), if the byte is one. -/
def baseDigit (base : Nat) (c : Nat) : Option Nat :=
  if base = 16 then hexDigit c else if isDigit c then some (c - 48) else none

/-- The number written by a string of digits in the given base. -/
def baseValue (base : Nat) (ds : Bytes) : Nat :=
  ds.foldl (fun a d => base * a + (baseDigit base d).getD 0) 0

/-- Modelled from the spec: `String::fromString` for an unsigned 64-bit number
is declared outside the given sources; the chunk length is "a hex length", the
content length a decimal one.  It is taken as the stream extraction
`in >> base >> n`: white space is skipped, then an optional sign, for base 16
an optional `0x`, and the longest run of digits are read; the result is `none`
(the call returns false) without a digit or when the number exceeds 64 bits; a
number with a minus sign is negated modulo `2 ^ 64`. -/
def fromStringUnsigned (base : Nat) (s : Bytes) : Option Nat :=
  let t := s.dropWhile isSpace
  let sg : Bool × Bytes :=
    match t with
    | 45 :: u => (true, u)
    | 43 :: u => (false, u)
    | _ => (false, t)
  let u : Bytes :=
    match sg.2 with
    | 48 :: x :: d :: rest =>
      if base = 16 ∧ (x = 120 ∨ x = 88) ∧ (hexDigit d).isSome then d :: rest else sg.2
    | _ => sg.2
  let ds := u.takeWhile (fun c => (baseDigit base c).isSome)
  if ds.isEmpty then none
  else
    let v := baseValue base ds
    if v ≥ 2 ^ 64 then none
    else some (if sg.1 then (2 ^ 64 - v) % 2 ^ 64 else v)

/-- The position `std::string::find_first_of("\r\n")` returns: the first
character that is a `\r` or a `\n`. -/
def findFirstOfCrLf : Bytes → Option Nat
  | [] => none
  | c :: cs => if c = 13 ∨ c = 10 then some 0 else (findFirstOfCrLf cs).map (· + 1)

/-- What the client does not own: the build, the resolver, the network, the
classes declared outside the given sources, and the stack.
* `sslSupport` is the switch `EE_SSL_SUPPORT`, `sslSocketSupported` the result
  of `SSLSocket::isSupported()`;
* `resolves name` tells whether `IpAddress(name).toInteger()` is not zero;
* `server name port` is the peer a socket reaches at that address and port;
* `parseURI` is the constructor `URI(text)`;
* `chunkSize gzip` is `Compression::getModeDefaultChunkSize` of the mode;
* `inflate gzip fed input` is what an `IOStreamInflate` of that mode that was
  already fed `fed` writes to its sink when it is fed `input`;
* `stack` is the content of the array `buffer` before the first `receive`,
  `stackStatus` the value of `status` before it is assigned. -/
structure Env where
  sslSupport : Bool
  sslSocketSupported : Bool
  resolves : Bytes → Bool
  server : Bytes → Nat → Peer
  parseURI : Bytes → URI
  chunkSize : Bool → Nat
  inflate : Bool → Bytes → Bytes → Bytes
  stack : Nat → Nat
  stackStatus : SocketStatus

/-- One invocation of the progress callback, as observed from outside: its
arguments, its answer, the content of the sink and the number of calls of
`receive` made at that moment, and whether the body of the response goes
through a decompressor. -/
structure CallEvent where
  total : Nat
  current : Nat
  answer : Bool
  sinkBefore : Bytes
  receivesBefore : Nat
  compressed : Bool
  deriving DecidableEq, Repr

/-- What an observer of a transfer records: the number of calls of `receive`,
the invocations of the progress callback (the latest first) and the value of
the redirection counter after each redirect followed (the latest first). -/
structure Trace where
  receives : Nat
  calls : List CallEvent
  redirects : List Nat
  deriving DecidableEq, Repr

/-- The trace before anything happened. -/
def Trace.start : Trace := { receives := 0, calls := [], redirects := [] }

/-- The array `buffer` after `receive` stored the bytes `d` at its start. -/
def bufWrite (buf : Nat → Nat) (d : Bytes) : Nat → Nat :=
  fun i => if i < d.length then d.getD i 0 else buf i

/-- The array `buffer` after the assignment `buffer[i] = v`. -/
def bufSet (buf : Nat → Nat) (i v : Nat) : Nat → Nat :=
  fun j => if j = i then v else buf j

/-- The bytes `buffer[start .. start + n)`. -/
def bufRange (buf : Nat → Nat) (start n : Nat) : Bytes :=
  (List.range n).map (fun i => buf (start + i))

/-- The call `strchr(buffer + i, '\n')`: the first `\n` at or after `i` that
comes before a NUL; the fuel is the room up to the end of the array. -/
def strchrNl (buf : Nat → Nat) : Nat → Nat → Option Nat
  | 0, _ => none
  | fuel + 1, i =>
    if buf i = 10 then some i
    else if buf i = 0 then none
    else strchrNl buf fuel (i + 1)

/-- The loop `while (!isnheader && (eol = strchr(bol, '\n')) != NULL)` up to the
point where the end of the headers is found: the result tells whether it was
found and gives `bol` at that point (before `bol` is moved past the break). -/
def headerLoop (buf : Nat → Nat) : Nat → Nat → Bool × Nat
  | 0, bol => (false, bol)
  | fuel + 1, bol =>
    match strchrNl buf (PACKET_BUFFER_SIZE + 1 - bol) bol with
    | none => (false, bol)
    | some eol =>
      let bol := eol + 1
      if (buf bol = 13 ∧ buf (bol + 1) = 10) ∨ buf bol = 10 then (true, bol)
      else headerLoop buf fuel bol

/-- Modelled from the spec: the byte streams (`IOStreamString`, `IOStream`) are
declared outside the given sources.  A sink is "an abstract append-only byte
destination": a stream is the bytes written to it so far, and `write` appends. -/
abbrev streamWrite (stream data : Bytes) : Bytes := stream ++ data

/-- Modelled from the spec: the type `ios_size` of the test
`fileBuffer.getSize() - inflateChunkSize >= 0` is declared outside the given
sources; the decompressor is fed "once the staging buffer reaches the
compressor's preferred chunk size". -/
abbrev stagedEnough (size chunkSize : Nat) : Prop := size ≥ chunkSize

/-- The local variables of the receive loop of `Http::downloadRequest`, and the
objects the loop changes: the response `received`, the connection, the mutable
members `mCancel` and `mRedirectionCount` of the request and the sink
`writeTo`.  The streams `fileBuffer` and `writeTo` are the bytes written to
them; the `IOStreamInflate` is kept as its mode (`true` for gzip) and the bytes
fed to it. -/
structure Loop where
  currentTotalBytes : Nat
  len : Nat
  readed : Nat
  buffer : Nat → Nat
  headerBuffer : Bytes
  chunkBuffer : Bytes
  fileBuffer : Bytes
  isnheader : Bool
  chunked : Bool
  chunkNewBuffer : Bool
  chunkEnded : Bool
  compressed : Bool
  inflateStream : Option (Bool × Bytes)
  inflateChunkSize : Nat
  contentLength : Nat
  status : SocketStatus
  received : Response
  conn : HttpConnection
  cancel : Bool
  redirectionCount : Nat
  writeTo : Bytes
  trace : Trace

/-- The state of the locals when the loop is entered. -/
def Loop.start (env : Env) (request : Request) (conn : HttpConnection) (received : Response)
    (writeTo : Bytes) (trace : Trace) : Loop :=
  { currentTotalBytes := 0, len := 0, readed := 0, buffer := env.stack, headerBuffer := [],
    chunkBuffer := [], fileBuffer := [], isnheader := false, chunked := false,
    chunkNewBuffer := false, chunkEnded := false, compressed := false,
    inflateStream := none, inflateChunkSize := 0, contentLength := 0,
    status := env.stackStatus, received := received, conn := conn,
    cancel := request.mCancel, redirectionCount := request.mRedirectionCount,
    writeTo := writeTo, trace := trace }

/-- How one pass through the body of the receive loop ends: at the loop
condition again (`next`, also after `continue`), with `break` (`stop`), with
the `return` of the redirect branch (`redirect`), or in behaviour the language
leaves undefined (an access outside an array or a string). -/
inductive Step where
  | next (l : Loop)
  | stop (l : Loop)
  | redirect (l : Loop)
  | undefined

/-- The call `inflateStream->write(data)`: the decoded bytes go to the sink. -/
def Loop.inflateWrite (env : Env) (l : Loop) (data : Bytes) : Loop :=
  { l with
    writeTo :=
      match l.inflateStream with
      | some (gzip, fed) => streamWrite l.writeTo (env.inflate gzip fed data)
      | none => l.writeTo,
    inflateStream :=
      match l.inflateStream with
      | some (gzip, fed) => some (gzip, fed ++ data)
      | none => none }

/-- Lines 649 to 652: `bol` is moved past the line break that ends the
headers, `\r\n` or `\n`. -/
def skipBreak (buf : Nat → Nat) (bol : Nat) : Nat :=
  if buf bol ≠ 10 then bol + 1 + 1 else bol + 1

/-- Lines 654 to 667: with `bol` past the end of the headers, the rest of the
read, `len = readed - (bol - buffer)` bytes in `size_t` arithmetic, is appended
to the chunk buffer, and the bytes before `bol` to the header buffer.  The
result is `none` when the range appended ends outside the array. -/
def splitRead (l : Loop) (bol : Nat) : Option Loop :=
  if (l.readed + 2 ^ 64 - bol) % 2 ^ 64 > 0 ∧
      bol + (l.readed + 2 ^ 64 - bol) % 2 ^ 64 > PACKET_BUFFER_SIZE + 1 then none
  else
    some { l with
      isnheader := true,
      currentTotalBytes :=
        if (l.readed + 2 ^ 64 - bol) % 2 ^ 64 > 0 then
          l.currentTotalBytes + (l.readed + 2 ^ 64 - bol) % 2 ^ 64
        else l.currentTotalBytes,
      chunkBuffer :=
        if (l.readed + 2 ^ 64 - bol) % 2 ^ 64 > 0 then
          l.chunkBuffer ++ bufRange l.buffer bol ((l.readed + 2 ^ 64 - bol) % 2 ^ 64)
        else l.chunkBuffer,
      headerBuffer := l.headerBuffer ++ bufRange l.buffer 0 bol,
      len := 0 }

/-- Lines 670 to 699: the header block is parsed into the response and the
flags of the transfer are set from its fields. -/
def readHeader (env : Env) (l : Loop) : Loop :=
  { l with
    received := l.received.parse l.headerBuffer,
    headerBuffer := [],
    chunked := (l.received.parse l.headerBuffer).getField (str "transfer-encoding")
      == str "chunked",
    compressed :=
      (l.received.parse l.headerBuffer).getField (str "content-encoding") == str "gzip" ||
      (l.received.parse l.headerBuffer).getField (str "content-encoding") == str "deflate",
    inflateChunkSize :=
      if (l.received.parse l.headerBuffer).getField (str "content-encoding") == str "gzip" ||
          (l.received.parse l.headerBuffer).getField (str "content-encoding") == str "deflate"
      then env.chunkSize
        (str "gzip" == (l.received.parse l.headerBuffer).getField (str "content-encoding"))
      else l.inflateChunkSize,
    inflateStream :=
      if (l.received.parse l.headerBuffer).getField (str "content-encoding") == str "gzip" ||
          (l.received.parse l.headerBuffer).getField (str "content-encoding") == str "deflate"
      then some
        (str "gzip" == (l.received.parse l.headerBuffer).getField (str "content-encoding"), [])
      else l.inflateStream,
    contentLength :=
      if !((l.received.parse l.headerBuffer).getField (str "content-length")).isEmpty then
        (fromStringUnsigned 10
          ((l.received.parse l.headerBuffer).getField (str "content-length"))).getD 0
      else l.contentLength,
    conn :=
      if (l.received.parse l.headerBuffer).getField (str "connection") == str "closed" then
        { l.conn with mIsConnected := false, mIsTunneled := false }
      else l.conn }

/-- Lines 703 to 707: the test that decides whether a redirect is followed. -/
def redirectWanted (request : Request) (l : Loop) : Bool :=
  (l.received.getStatus == Status.MovedPermanently ||
      l.received.getStatus == Status.MovedTemporarily) &&
    request.mFollowRedirect && decide (l.redirectionCount < request.mMaxRedirections)

/-- Lines 714 to 718: before the request is sent again, the connection is
closed unless it is kept alive, and the redirection counter is incremented. -/
def followRedirect (l : Loop) : Loop :=
  { l with
    conn := if !l.conn.mIsKeepAlive then l.conn.disconnect else l.conn,
    redirectionCount := l.redirectionCount + 1 }

/-- Lines 724 to 731: for a body that is not chunked the bytes kept in the
chunk buffer go to the file buffer; for a chunked one `readed` is zeroed. -/
def startBody (l : Loop) : Loop :=
  { l with
    fileBuffer :=
      if !l.chunked && !l.chunkBuffer.isEmpty then streamWrite l.fileBuffer l.chunkBuffer
      else l.fileBuffer,
    chunkBuffer := if !l.chunked && !l.chunkBuffer.isEmpty then [] else l.chunkBuffer,
    readed := if l.chunked then 0 else l.readed }

/-- The block run when the end of the headers is found at `bol` (lines 645 to
732). -/
def headerFound (env : Env) (request : Request) (l : Loop) (bol : Nat) : Step :=
  match splitRead l (skipBreak l.buffer bol) with
  | none => Step.undefined
  | some l1 =>
    if l1.headerBuffer.isEmpty then Step.next l1
    else if redirectWanted request (readHeader env l1) then
      Step.redirect (followRedirect (readHeader env l1))
    else Step.next (startBody (readHeader env l1))

/-- Lines 749 to 760: the read is appended to the chunk buffer, and a `\r\n`
left over from the previous chunk is removed from its start. -/
def appendChunkData (l : Loop) : Loop :=
  { l with
    chunkBuffer :=
      if l.chunkNewBuffer ∧ (l.chunkBuffer ++ bufRange l.buffer 0 l.readed).take 2 = str "\r\n"
      then (l.chunkBuffer ++ bufRange l.buffer 0 l.readed).drop 2
      else l.chunkBuffer ++ bufRange l.buffer 0 l.readed,
    chunkNewBuffer := false }

/-- Lines 777 to 790: a chunk of `length` bytes that starts at `firstCharPos`
is written to the file buffer and removed from the chunk buffer, with the
`\r\n` that follows it when it is there.  The result is `none` when the chunk
does not lie inside the chunk buffer. -/
def takeChunk (l : Loop) (firstCharPos length : Nat) : Option Loop :=
  if firstCharPos + length > l.chunkBuffer.length then none
  else
    some { l with
      fileBuffer := streamWrite l.fileBuffer ((l.chunkBuffer.drop firstCharPos).take length),
      chunkBuffer :=
        if !(l.chunkBuffer.drop (firstCharPos + length)).isEmpty &&
            (l.chunkBuffer.drop (firstCharPos + length)).take 2 = str "\r\n"
        then (l.chunkBuffer.drop (firstCharPos + length)).drop 2
        else l.chunkBuffer.drop (firstCharPos + length),
      chunkNewBuffer :=
        !(!(l.chunkBuffer.drop (firstCharPos + length)).isEmpty &&
            (l.chunkBuffer.drop (firstCharPos + length)).take 2 = str "\r\n") }

/-- Lines 762 to 798: the length line of the next chunk is looked for; a
complete chunk is taken, a length of zero ends the chunks.  The comparison
`chunkBuffer.size() - firstCharPos >= length` is made in `size_t` arithmetic. -/
def decodeChunk (l : Loop) : Option Loop :=
  match findFirstOfCrLf l.chunkBuffer with
  | none => some l
  | some lenEnd =>
    match fromStringUnsigned 16 (l.chunkBuffer.take lenEnd) with
    | none => some l
    | some length =>
      if length > 0 then
        if (l.chunkBuffer.length + 2 ^ 64 - (lenEnd + 2)) % 2 ^ 64 ≥ length then
          takeChunk l (lenEnd + 2) length
        else some l
      else some { l with chunkEnded := true }

/-- The decoding of the chunk buffer (lines 748 to 798), run for a read of a
chunked body before the last chunk was seen. -/
def chunkStep (l : Loop) : Option Loop := decodeChunk (appendChunkData l)

/-- Lines 742 to 805: the read is counted and stored: decoded as chunks,
appended to the header buffer after the last chunk, or written to the file
buffer when the body is not chunked. -/
def storeRead (l : Loop) : Option Loop :=
  if l.chunked && l.readed != 0 then
    if !l.chunkEnded then
      chunkStep { l with currentTotalBytes := l.currentTotalBytes + l.readed }
    else
      some { l with currentTotalBytes := l.currentTotalBytes + l.readed,
                    headerBuffer := l.headerBuffer ++ bufRange l.buffer 0 l.readed }
  else
    some { l with currentTotalBytes := l.currentTotalBytes + l.readed,
                  fileBuffer := streamWrite l.fileBuffer (bufRange l.buffer 0 l.readed) }

/-- The staging of the bytes of the body (lines 807 to 826): for a compressed
body the first `inflateChunkSize` bytes staged are fed to the decompressor and
the excess is kept; otherwise the file buffer is written to the sink and
cleared. -/
def flushStep (env : Env) (l : Loop) : Loop :=
  if l.compressed then
    if stagedEnough l.fileBuffer.length l.inflateChunkSize then
      { (l.inflateWrite env (l.fileBuffer.take l.inflateChunkSize)) with
        fileBuffer := l.fileBuffer.drop l.inflateChunkSize }
    else l
  else
    { l with writeTo := streamWrite l.writeTo l.fileBuffer, fileBuffer := [] }

/-- The record of an invocation of the progress callback in the state `l`. -/
def callEvent (cb : ProgressCallback) (l : Loop) : CallEvent :=
  { total := l.contentLength, current := l.currentTotalBytes,
    answer := cb ((l.contentLength, l.currentTotalBytes) ::
      l.trace.calls.map (fun e => (e.total, e.current))),
    sinkBefore := l.writeTo, receivesBefore := l.trace.receives,
    compressed := l.compressed }

/-- The invocation of the progress callback (lines 828 to 833). -/
def callbackStep (request : Request) (l : Loop) : Step :=
  match request.mProgressCallback with
  | some cb =>
    if !(callEvent cb l).answer then
      Step.stop { l with trace := { l.trace with calls := callEvent cb l :: l.trace.calls },
                         cancel := true }
    else
      Step.next { l with trace := { l.trace with calls := callEvent cb l :: l.trace.calls } }
  | none => Step.next l

/-- The block `if ( isnheader )` of the loop (lines 741 to 834). -/
def bodyPhase (env : Env) (request : Request) (l : Loop) : Step :=
  match storeRead l with
  | none => Step.undefined
  | some l1 => callbackStep request (flushStep env l1)

/-- Lines 610 to 614: `len += readed; buffer[len] = '\0'`.  The result is
`none` when `len` is outside the array of `PACKET_BUFFER_SIZE + 1` bytes. -/
def terminateBuffer (l : Loop) : Option Loop :=
  if l.len + l.readed > PACKET_BUFFER_SIZE then none
  else some { l with len := l.len + l.readed, buffer := bufSet l.buffer (l.len + l.readed) 0 }

/-- Lines 618 to 621 and 627 to 630: when the buffer begins with a line break
of `k` bytes, `len - k` bytes from the start of the buffer are appended to the
chunk buffer. -/
def blankFirstLine (l : Loop) (k : Nat) : Loop :=
  if l.len > k then
    { l with currentTotalBytes := l.currentTotalBytes + (l.len - k),
             chunkBuffer := l.chunkBuffer ++ bufRange l.buffer 0 (l.len - k) }
  else l

/-- The block `if ( !isnheader )` of the loop (lines 609 to 739), followed by
the block `if ( isnheader )` when the end of the headers was found. -/
def headerPhase (env : Env) (request : Request) (l : Loop) : Step :=
  match terminateBuffer l with
  | none => Step.undefined
  | some l1 =>
    if l1.buffer 0 = 13 ∧ l1.buffer 1 = 10 then Step.next (blankFirstLine l1 2)
    else if l1.buffer 0 = 10 then Step.next (blankFirstLine l1 1)
    else if (headerLoop l1.buffer (PACKET_BUFFER_SIZE + 1) 0).1 then
      match headerFound env request l1 (headerLoop l1.buffer (PACKET_BUFFER_SIZE + 1) 0).2 with
      | Step.next l2 => bodyPhase env request l2
      | other => other
    else
      Step.next
        { l1 with
          headerBuffer := l1.headerBuffer ++
            bufRange l1.buffer 0 (headerLoop l1.buffer (PACKET_BUFFER_SIZE + 1) 0).2 }

/-- The body of the receive loop. -/
def iteration (env : Env) (request : Request) (l : Loop) : Step :=
  if !l.isnheader then headerPhase env request l else bodyPhase env request l

/-- The state after `receive` returned `Done` with the bytes `d`. -/
def Loop.receive (l : Loop) (d : Bytes) : Loop :=
  { l with status := SocketStatus.Done, readed := d.length, buffer := bufWrite l.buffer d,
           trace := { l.trace with receives := l.trace.receives + 1 } }

/-- The state after `receive` returned the status `final`, which is not
`Done`. -/
def Loop.receiveEnd (l : Loop) (final : SocketStatus) : Loop :=
  { l with status := final, trace := { l.trace with receives := l.trace.receives + 1 } }

/-- How the receive loop is left: through its condition or a `break` (`exit`,
with the reads the peer has not delivered yet), through the `return` of the
redirect branch, or in undefined behaviour. -/
inductive LoopEnd where
  | exit (l : Loop) (rest : List Bytes)
  | redirect (l : Loop) (rest : List Bytes)
  | undefined

/-- The receive loop `while (!request.isCancelled() && receive(...) == Done)`
run against the reads a peer delivers and the status that follows them.  A
read cannot be longer than the `PACKET_BUFFER_SIZE` bytes asked for. -/
def recvLoop (env : Env) (request : Request) (final : SocketStatus) :
    Loop → List Bytes → LoopEnd
  | l, [] => if l.cancel then LoopEnd.exit l [] else LoopEnd.exit (l.receiveEnd final) []
  | l, d :: rest =>
    if l.cancel then LoopEnd.exit l (d :: rest)
    else if d.length > PACKET_BUFFER_SIZE then LoopEnd.undefined
    else
      match iteration env request (l.receive d) with
      | Step.next l1 => recvLoop env request final l1 rest
      | Step.stop l1 => LoopEnd.exit l1 rest
      | Step.redirect l1 => LoopEnd.redirect l1 rest
      | Step.undefined => LoopEnd.undefined

/-- Lines 837 to 840: what is left in the header buffer is parsed as fields. -/
def trailingFields (l : Loop) : Loop :=
  if !l.headerBuffer.isEmpty then
    { l with received := l.received.parseFields { rest := l.headerBuffer, failed := false } }
  else l

/-- Lines 842 to 844: the bytes still staged are fed to the decompressor. -/
def finalFlush (env : Env) (l : Loop) : Loop :=
  if l.compressed && decide (l.fileBuffer.length > 0) then l.inflateWrite env l.fileBuffer else l

/-- Lines 846 to 849: a disconnected socket is recorded in the connection. -/
def noteDisconnect (l : Loop) : Loop :=
  if l.status = SocketStatus.Disconnected then
    { l with conn := { l.conn with mIsConnected := false, mIsTunneled := false } }
  else l

/-- The statements after the receive loop (lines 837 to 849). -/
def afterLoop (env : Env) (l : Loop) : Loop :=
  noteDisconnect (finalFlush env (trailingFields l))

/-- What a call of `Http::downloadRequest` leaves behind: the response it
returns, the client, the request (whose members `mCancel` and
`mRedirectionCount` the call may change), the sink, and the trace. -/
structure Result where
  response : Response
  http : Http
  request : Request
  sink : Bytes
  trace : Trace

/-- The outcome of the body of `Http::downloadRequest` up to its first
`return`: a result, or the call `http.downloadRequest(request, ...)` on the
client made for a redirect (`target`), still to be run from the state `r`, or
undefined behaviour. -/
inductive Attempt where
  | done (r : Result)
  | redirect (r : Result) (target : Http)
  | undefined

/-- Modelled from the spec: the default arguments of the constructor of
`Request` are declared outside the given sources; the tunnel request is "a
`CONNECT host:port HTTP/1.1` line", and redirects are followed by default. -/
def Request.default : Request := Request.new (str "/") .Get [] true true true false

/-- The connection `downloadRequest` creates when the client has none (lines
488 to 510). -/
def newConnection (env : Env) (http : Http) : HttpConnection :=
  if http.isProxied && http.mIsSSL && env.sslSocketSupported then
    { HttpConnection.new with mSocket := some { ssl := true, peer := none, sent := [] },
                              mIsSSL := true }
  else
    { HttpConnection.new with
      mSocket := some
        { ssl := if !http.isProxied then http.mIsSSL
            else (env.sslSocketSupported && http.mProxy.scheme == str "https"),
          peer := none, sent := [] },
      mIsSSL := if !http.isProxied then http.mIsSSL
        else (env.sslSocketSupported && http.mProxy.scheme == str "https") }

/-- The connection once its peer has only the reads `rest` left to deliver. -/
def HttpConnection.setReads (c : HttpConnection) (rest : List Bytes) : HttpConnection :=
  { c with mSocket := c.mSocket.map (fun s =>
      { s with peer := s.peer.map (fun p => { p with reads := rest }) }) }

/-- Lines 858 to 860: the connection is closed unless it is kept alive. -/
def HttpConnection.close (c : HttpConnection) : HttpConnection :=
  if !c.mIsKeepAlive then c.disconnect else c

/-- A `return` of `downloadRequest` before anything was received: the sink,
the request and the trace are as they were. -/
def earlyReturn (http : Http) (request : Request) (writeTo : Bytes) (trace : Trace)
    (conn : Option HttpConnection) (response : Response) : Attempt :=
  Attempt.done { response := response, http := { http with mConnection := conn },
                 request := request, sink := writeTo, trace := trace }

/-- The `return received` at the end of `downloadRequest`, after the loop. -/
def finalReturn (http : Http) (request : Request) (l : Loop) (rest : List Bytes) : Attempt :=
  Attempt.done
    { response := l.received,
      http := { http with mConnection := some (l.conn.setReads rest).close },
      request := { request with mCancel := l.cancel, mRedirectionCount := l.redirectionCount },
      sink := l.writeTo, trace := l.trace }

/-- Lines 708 to 710: the client `Http http( uri.getHost(), uri.getPort(), ... )`
made from the `Location` field of a response. -/
def redirectTarget (env : Env) (received : Response) : Http :=
  Http.new env.sslSupport (env.parseURI (received.getField (str "location"))).host
    (env.parseURI (received.getField (str "location"))).port
    ((env.parseURI (received.getField (str "location"))).scheme == str "https") URI.none

/-- The `return http.downloadRequest(request, writeTo, timeout)` of the
redirect branch (lines 708 to 720): the client `http` is made from the
`Location` field of the response, and the call on it is still to be run. -/
def redirectReturn (env : Env) (http : Http) (request : Request) (l : Loop)
    (rest : List Bytes) : Attempt :=
  Attempt.redirect
    { response := l.received,
      http := { http with mConnection := some (l.conn.setReads rest) },
      request := { request with mCancel := l.cancel, mRedirectionCount := l.redirectionCount },
      sink := l.writeTo,
      trace := { l.trace with redirects := l.redirectionCount :: l.trace.redirects } }
    (redirectTarget env l.received)

/-- The socket after the tunnel request was sent over it. -/
def TcpSocket.sentTunnel (sock : TcpSocket) (http : Http) : TcpSocket :=
  { sock with sent := sock.sent ++ [(Request.default.prepareTunnel http).1] }

/-- The socket after it was connected to the peer. -/
def TcpSocket.connectTo (sock : TcpSocket) (peer : Peer) : TcpSocket :=
  { sock with peer := some peer }

/-- The socket after the request text was sent over it. -/
def TcpSocket.send (sock : TcpSocket) (text : Bytes) : TcpSocket :=
  { sock with sent := sock.sent ++ [text] }

/-- The sending of the request and what follows it (lines 580 to 863), on a
connected socket. -/
def transfer (env : Env) (http : Http) (request toSend : Request) (conn : HttpConnection)
    (sock : TcpSocket) (writeTo : Bytes) (trace : Trace) : Attempt :=
  if (toSend.prepare http).isEmpty then
    earlyReturn http request writeTo trace (some conn.close) Response.new
  else
    match sock.peer with
    | none =>
      earlyReturn http request writeTo trace
        (some (HttpConnection.close { conn with mIsConnected := false, mIsTunneled := false }))
          Response.new
    | some peer =>
      if !peer.sendOk then
        earlyReturn http request writeTo trace
          (some (HttpConnection.close { conn with mIsConnected := false, mIsTunneled := false }))
          Response.new
      else
        match recvLoop env request peer.final
            (Loop.start env request { conn with mSocket := some (sock.send (toSend.prepare http)) }
              Response.new writeTo trace) peer.reads with
        | LoopEnd.undefined => Attempt.undefined
        | LoopEnd.redirect l rest => redirectReturn env http request l rest
        | LoopEnd.exit l rest => finalReturn http request (afterLoop env l) rest

/-- The tunnel bootstrap (lines 542 to 578), on a connected socket of a proxied
client with an SSL destination, followed by the transfer.  A socket that is
used as an `SSLSocket` without being one is undefined behaviour. -/
def tunnel (env : Env) (http : Http) (request toSend : Request) (conn : HttpConnection)
    (sock : TcpSocket) (writeTo : Bytes) (trace : Trace) : Attempt :=
  if !sock.ssl then Attempt.undefined
  else
    match sock.peer with
    | none => transfer env http request toSend conn sock writeTo trace
    | some p =>
      if !p.tunnelSendOk then transfer env http request toSend conn sock writeTo trace
      else
        match p.tunnelReply with
        | none =>
          earlyReturn http request writeTo trace
            (some { conn with mSocket := some (sock.sentTunnel http) }) Response.new
        | some reply =>
          if (Response.new.parse (reply.take PACKET_BUFFER_SIZE)).getStatus = Status.Ok then
            if !p.sslConnectOk then
              earlyReturn http request writeTo trace
                (some { conn with mSocket := some (sock.sentTunnel http) }) Response.new
            else
              transfer env http request toSend
                { conn with mIsTunneled := true, mIsKeepAlive := true,
                            mSocket := some (sock.sentTunnel http) }
                (sock.sentTunnel http) writeTo trace
          else
            earlyReturn http request writeTo trace
              (some { conn with mSocket := some (sock.sentTunnel http) })
              (Response.new.parse (reply.take PACKET_BUFFER_SIZE))

/-- Lines 540 to 863: on a connected socket, the tunnel is made when the client
is proxied, the destination uses SSL and the connection is not tunneled yet;
then the request is sent. -/
def connected (env : Env) (http : Http) (request toSend : Request) (conn : HttpConnection)
    (sock : TcpSocket) (writeTo : Bytes) (trace : Trace) : Attempt :=
  if http.isProxied && http.mIsSSL && !conn.mIsTunneled then
    tunnel env http request toSend conn sock writeTo trace
  else transfer env http request toSend conn sock writeTo trace

/-- The port the socket is connected to (lines 525 and 531). -/
def connectPort (env : Env) (http : Http) : Nat :=
  if http.isProxied && http.mIsSSL && env.sslSocketSupported then http.mProxy.port
  else if http.mProxy.empty then http.mPort else http.mProxy.port

/-- Lines 518 to 537, followed by the rest of the function: a connection that
is not connected is connected to the peer at the address of the client. -/
def connect (env : Env) (http : Http) (request toSend : Request) (conn : HttpConnection)
    (sock : TcpSocket) (writeTo : Bytes) (trace : Trace) : Attempt :=
  if conn.mIsConnected then connected env http request toSend conn sock writeTo trace
  else if http.isProxied && http.mIsSSL && env.sslSocketSupported && !sock.ssl then
    Attempt.undefined
  else if !(env.server http.mHost (connectPort env http)).connectOk then
    earlyReturn http request writeTo trace (some conn) Response.new
  else
    connected env http request toSend
      { conn with mIsConnected := true,
                  mSocket := some (sock.connectTo (env.server http.mHost (connectPort env http))) }
      (sock.connectTo (env.server http.mHost (connectPort env http))) writeTo trace

/-- The connection a call of `downloadRequest` works on: the one the client
has, or a new one. -/
def Http.connection (env : Env) (http : Http) : HttpConnection :=
  match http.mConnection with
  | some c => c
  | none => newConnection env http

/-- The body of `Http::downloadRequest(request, writeTo, timeout)` up to its
first `return` (lines 483 to 864). -/
def downloadAttempt (env : Env) (http : Http) (request : Request) (writeTo : Bytes)
    (trace : Trace) : Attempt :=
  if !env.resolves http.mHost then
    earlyReturn http request writeTo trace http.mConnection Response.new
  else
    match (http.connection env).mSocket with
    | none => Attempt.undefined
    | some sock =>
      connect env http request (http.prepareFields request) (http.connection env) sock writeTo
        trace

/-- `Http::downloadRequest(request, writeTo, timeout)`, with the calls it makes
on the clients of redirects.  Each such call comes after an increment of
`mRedirectionCount` below `mMaxRedirections`, so the number of nested calls is
bounded; `none` is undefined behaviour. -/
def downloadRequestFuel (env : Env) : Nat → Http → Request → Bytes → Trace → Option Result
  | 0, _, _, _, _ => none
  | fuel + 1, http, request, writeTo, trace =>
    match downloadAttempt env http request writeTo trace with
    | Attempt.done r => some r
    | Attempt.undefined => none
    | Attempt.redirect r target =>
      match downloadRequestFuel env fuel target r.request r.sink r.trace with
      | some r2 => some { r2 with http := r.http }
      | none => none

/-- `Http::downloadRequest(request, writeTo, timeout)`. -/
def Http.downloadRequest (env : Env) (http : Http) (request : Request) (writeTo : Bytes) :
    Option Result :=
  downloadRequestFuel env (request.mMaxRedirections - request.mRedirectionCount + 1) http
    request writeTo Trace.start

/-- `Http::sendRequest`: the sink is a fresh in-memory stream whose content
becomes the body of the response. -/
def Http.sendRequest (env : Env) (http : Http) (request : Request) : Option Result :=
  match http.downloadRequest env request [] with
  | some r => some { r with response := { r.response with mBody := r.sink } }
  | none => none

/-- Whether `pat` occurs in `s` as a contiguous run of bytes. -/
def containsBytes (pat : Bytes) : Bytes → Bool
  | [] => pat.isEmpty
  | c :: cs => pat.isPrefixOf (c :: cs) || containsBytes pat cs

/-- The client of the scenarios: `Http("example.com", 80)`, without proxy. -/
def exampleClient (sslSupport : Bool) : Http :=
  Http.new sslSupport (str "example.com") 80 false URI.none

/-- The request of the scenarios: `Request("/", Get)`, compression not
requested. -/
def exampleRequest : Request := Request.new (str "/") .Get [] true true true false

/-- The first word of an input: what follows the leading white space, up to
the next white space. -/
def firstWord (data : Bytes) : Bytes :=
  (data.dropWhile isSpace).takeWhile (fun c => !isSpace c)

/-- The input after its first word. -/
def afterFirstWord (data : Bytes) : Bytes :=
  (data.dropWhile isSpace).dropWhile (fun c => !isSpace c)

/-- The number a text begins with, after optional white space: an optional
sign and the longest run of decimal digits, when there is a digit and the
number fits a 32-bit `int`. -/
def leadingInt (t : Bytes) : Option Int :=
  let u := t.dropWhile isSpace
  let v := if u.head? = some 45 ∨ u.head? = some 43 then u.drop 1 else u
  let ds := v.takeWhile isDigit
  if ds = [] then none
  else
    let n : Int := if u.head? = some 45 then - (digitsValue ds : Int) else (digitsValue ds : Int)
    if -(2 : Int) ^ 31 ≤ n ∧ n ≤ (2 : Int) ^ 31 - 1 then some n else none

/-- The first line of an input: the bytes before the first `\n`. -/
def firstLine (data : Bytes) : Bytes := data.takeWhile (fun c => c != 10)

/-- The status-line grammar in the words of the specification,
`HTTP/<d>.<d> <digits>...`: the text `HTTP/`, one decimal digit, `.`, one
decimal digit, a space, and at least one decimal digit. -/
def specStatusLine (line : Bytes) : Bool :=
  match line with
  | 72 :: 84 :: 84 :: 80 :: 47 :: d1 :: 46 :: d2 :: 32 :: c :: _ =>
    isDigit d1 && isDigit d2 && isDigit c
  | _ => false

/-- A peer that accepts the connection and the request, delivers the given
reads and then reports `final`. -/
def scriptedPeer (reads : List Bytes) (final : SocketStatus) : Peer :=
  { connectOk := true, tunnelSendOk := true, tunnelReply := none, sslConnectOk := true,
    sendOk := true, reads := reads, final := final }

/-- An environment for the scenarios: every name resolves and every address
leads to the given peer; the array `buffer` starts zeroed; the decompressor
hands on the bytes it is fed (as a decoder does for stored data). -/
def scenarioEnv (peer : Peer) : Env :=
  { sslSupport := true, sslSocketSupported := true, resolves := fun _ => true,
    server := fun _ _ => peer, parseURI := fun _ => URI.none, chunkSize := fun _ => 16384,
    inflate := fun _ _ d => d, stack := fun _ => 0, stackStatus := SocketStatus.Error }

/-- A property of the state a step ends in: `P` for a step that goes on or
returns for a redirect, `Q` for a step that ends with `break`. -/
def Step.Sat (P Q : Loop → Prop) : Step → Prop
  | Step.next l => P l
  | Step.redirect l => P l
  | Step.stop l => Q l
  | Step.undefined => True

/-- Every invocation of the callback recorded so far was answered `true`. -/
def Trace.AllTrue (t : Trace) : Prop := ∀ e ∈ t.calls, e.answer = true

/-- The latest invocation of the callback was answered `false`, all earlier
ones `true`, and since that invocation the cancel flag is set and neither
`receive` was called nor the sink written to. -/
def Loop.Stopped (l : Loop) : Prop :=
  ∃ e rest, l.trace.calls = e :: rest ∧ e.answer = false ∧ (∀ x ∈ rest, x.answer = true) ∧
    l.cancel = true ∧ e.receivesBefore = l.trace.receives ∧ e.sinkBefore = l.writeTo ∧
    e.compressed = l.compressed

/-- The outcome of a cancellation as seen in a result: either no invocation of
the callback was answered `false`, or the latest one was, all earlier ones were
answered `true`, the cancel flag is set, `receive` was not called since, and
the sink is as it was unless the body goes through a decompressor. -/
def Result.CancelOk (r : Result) : Prop :=
  r.trace.AllTrue ∨
    ∃ e rest, r.trace.calls = e :: rest ∧ e.answer = false ∧ (∀ x ∈ rest, x.answer = true) ∧
      r.request.mCancel = true ∧ e.receivesBefore = r.trace.receives ∧
      (e.compressed = false → e.sinkBefore = r.sink)

/-- The request of the scenarios with a progress callback that answers `true`
at its first invocation and `false` at the second. -/
def cancelAtSecond : Request :=
  { exampleRequest with mProgressCallback := some (fun calls => decide (calls.length < 2)) }

/-- The request of the scenarios with a progress callback that always
answers `false`. -/
def cancelAlways : Request :=
  { exampleRequest with mProgressCallback := some (fun _ => false) }

/-- A transfer cancelled with compressed bytes staged: a chunked response with
`Content-Encoding: gzip` whose headers arrive in a first read and whose first
chunk, of 5 bytes, in a second one, the callback answering `false` after the
second read. -/
def gzipRun : Option Result :=
  (exampleClient true).downloadRequest
    (scenarioEnv (scriptedPeer
      [str "HTTP/1.1 200 OK\r\nTransfer-Encoding: chunked\r\nContent-Encoding: gzip\r\n\r\n",
       str "5\r\nhello\r\n"] SocketStatus.Disconnected)) cancelAtSecond []

/-- A transfer of a plain response cancelled at the first invocation of the
callback, with a second read still to come. -/
def plainRun : Option Result :=
  (exampleClient true).downloadRequest
    (scenarioEnv (scriptedPeer
      [str "HTTP/1.1 200 OK\r\n\r\nhello", str "more"] SocketStatus.Disconnected)) cancelAlways []

/-- The invocation of the callback recorded in `plainRun`. -/
def plainCancelEvent : CallEvent :=
  { total := 0, current := 29, answer := false,
    sinkBefore := str "hello" ++ str "HTTP/1.1 200 OK\r\n\r\nhello", receivesBefore := 1,
    compressed := false }

/-- The array `buffer` as the header phase sees it after a first read `d`: the
bytes of the read, a NUL after them, and behind it what the stack held. -/
def firstBuffer (env : Env) (d : Bytes) : Nat → Nat :=
  bufSet (bufWrite env.stack d) d.length 0

/-- The header block a first read `d` completes, when it completes one: the
read does not begin with a line break, and the end of the headers is found in
it. -/
def headerOfFirstRead (env : Env) (d : Bytes) : Option Bytes :=
  if d.length > PACKET_BUFFER_SIZE then none
  else if firstBuffer env d 0 = 13 ∧ firstBuffer env d 1 = 10 then none
  else if firstBuffer env d 0 = 10 then none
  else if (headerLoop (firstBuffer env d) (PACKET_BUFFER_SIZE + 1) 0).1 then
    some (bufRange (firstBuffer env d) 0
      (skipBreak (firstBuffer env d)
        (headerLoop (firstBuffer env d) (PACKET_BUFFER_SIZE + 1) 0).2))
  else none

/-- The response a server gives in a single read to a client that has no
connection yet and no proxy: the address of the client resolves, its server
accepts the connection and the request, and delivers one read that completes
the header block; the result is that block, parsed. -/
def singleReadAnswer (env : Env) (http : Http) : Option Response :=
  if http.mConnection.isNone && http.mProxy.empty && env.resolves http.mHost &&
      (env.server http.mHost http.mPort).connectOk &&
      (env.server http.mHost http.mPort).sendOk then
    match (env.server http.mHost http.mPort).reads with
    | [d] => (headerOfFirstRead env d).map Response.new.parse
    | _ => none
  else none

/-- The client reached from `http` along `n` servers that each answer with the
status 301 and a `Location` field: each answer names the next client. -/
def redirectsFrom (env : Env) : Nat → Http → Option Http
  | 0, http => some http
  | n + 1, http =>
    match singleReadAnswer env http with
    | some r =>
      if r.getStatus = Status.MovedPermanently ∧ r.getField (str "location") ≠ [] then
        redirectsFrom env n (redirectTarget env r)
      else none
    | none => none

/-- Servers that answer a chain of `n` responses with the status 301, each with
a `Location` field, followed by a response with the status 200. -/
def redirectChain (env : Env) (n : Nat) (http : Http) : Bool :=
  match redirectsFrom env n http with
  | some last =>
    match singleReadAnswer env last with
    | some r => r.getStatus == Status.Ok
    | none => false
  | none => false

/-- Three servers for a chain of redirects: `a` and `b` answer with the status
301 and the location of the next server, every other host answers 200; a
location is resolved to its host by looking at its text. -/
def chainEnv : Env :=
  { sslSupport := true, sslSocketSupported := true, resolves := fun _ => true,
    server := fun host _ =>
      if host = str "a" then
        scriptedPeer [str "HTTP/1.1 301 Moved Permanently\r\nLocation: http://b/\r\n\r\n"]
          SocketStatus.Disconnected
      else if host = str "b" then
        scriptedPeer [str "HTTP/1.1 301 Moved Permanently\r\nLocation: http://c/\r\n\r\n"]
          SocketStatus.Disconnected
      else
        scriptedPeer [str "HTTP/1.1 200 OK\r\nContent-Length: 2\r\n\r\nok"]
          SocketStatus.Disconnected,
    parseURI := fun text =>
      if text = str "http://b/" then
        { scheme := str "http", host := str "b", port := 80, pathEtc := str "/" }
      else { scheme := str "http", host := str "c", port := 80, pathEtc := str "/" },
    chunkSize := fun _ => 16384, inflate := fun _ _ d => d, stack := fun _ => 0,
    stackStatus := SocketStatus.Error }

/-- The client `Http("a", 80)`. -/
def chainClient : Http := Http.new true (str "a") 80 false URI.none

/-- The request of the scenarios with `maxRedirects` set to 1. -/
def chainRequest : Request := { exampleRequest with mMaxRedirections := 1 }

/-- The invariant of a `std::map`: the keys of the entries increase strictly in
the order of iteration. -/
def FieldTable.Sorted (t : FieldTable) : Prop :=
  t.Pairwise (fun x y => strLt x.1 y.1 = true)

/-- The number of entries of a table stored under the key `k`. -/
def FieldTable.count (t : FieldTable) (k : Bytes) : Nat :=
  t.countP (fun e => e.1 == k)

/-- The request of the version scenario: `Request("/", Get)` after
`setHttpVersion(0, 11)`; no `Connection` field is set. -/
def oldVersionRequest : Request := exampleRequest.setHttpVersion 0 11

/-- The client of the host scenario, `Http("a//", 80)`, after one request
answered by a peer that closes the connection at once. -/
def hostScenarioClient : Option Http :=
  ((Http.new true (str "a//") 80 false URI.none).downloadRequest
    (scenarioEnv (scriptedPeer [] SocketStatus.Disconnected)) exampleRequest []).map
    (fun r => r.http)

/-- The triple `(host name, port, SSL flag)` of a client. -/
def Http.triple (h : Http) : Bytes × Nat × Bool := (h.mHostName, h.mPort, h.mIsSSL)

/-- The number of entries of a table stored under a name equal to `name` when
the letter case is ignored. -/
def FieldTable.countName (t : FieldTable) (name : Bytes) : Nat :=
  t.countP (fun e => toLower e.1 == toLower name)

/-- The invariant `setField` maintains: every key of the table is in lower
case. -/
def FieldTable.LowerKeys (t : FieldTable) : Prop := ∀ e ∈ t, toLower e.1 = e.1

/-- The separator `": "` of a header line. -/
def fieldSep : Bytes := [58, 32]

/-- A text with one trailing `\r` removed, in the words of the specification. -/
def stripCr (v : Bytes) : Bytes := if v.getLast? = some 13 then v.dropLast else v

/-- A line of input as the specification of `parseFields` sees it: either a
name (free of `": "`), the separator `": "` and a value, so that the separator
is the first occurrence of `": "` in the line, or a text without `": "`. -/
inductive InputLine where
  | field (name value : Bytes)
  | other (text : Bytes)

/-- The characters of an input line. -/
def InputLine.text : InputLine → Bytes
  | .field name value => name ++ fieldSep ++ value
  | .other text => text

/-- The decomposition is the one at the first occurrence of `": "`: the name
holds no `": "`, and a line of the second kind holds none at all. -/
def InputLine.FirstSplit : InputLine → Prop
  | .field name _ => containsBytes fieldSep name = false
  | .other text => containsBytes fieldSep text = false

/-- The input made of the given lines, each followed by `\n`; the last one is
followed by `\n` only when `terminated` is set. -/
def joinLines (terminated : Bool) : List Bytes → Bytes
  | [] => []
  | l :: ls => if ls.isEmpty && !terminated then l else l ++ 10 :: joinLines terminated ls

/-- The entry the specification gives for the key `k` after the lines were
read: the value of the last line whose lower-cased name is `k`, with one
trailing `\r` removed, and the entry the table had (`init`) when there is no
such line. -/
def specLookup : List InputLine → Option Bytes → Bytes → Option Bytes
  | [], init, _ => init
  | .field name value :: rest, init, k =>
    specLookup rest (if toLower name = k then some (stripCr value) else init) k
  | .other _ :: rest, init, k => specLookup rest init k

/-- The lines of the header scenario: `Host: a: b\r`, a line without `": "`,
and `HOST: c\r`. -/
def exampleLines : List InputLine :=
  [.field (str "Host") (str "a: b\r"), .other (str "junk\r"), .field (str "HOST") (str "c\r")]

/-- The peer the socket of the connection talks to once the connect step
(lines 518 to 537) is over: the peer it was connected to already, or the one
at the address of the client. -/
def peerAfterConnect (env : Env) (http : Http) (sock : TcpSocket) : Option Peer :=
  if (http.connection env).mIsConnected then sock.peer
  else some (env.server http.mHost (connectPort env http))

/-- The socket of the connection once the connect step is over. -/
def socketAfterConnect (env : Env) (http : Http) (sock : TcpSocket) : TcpSocket :=
  if (http.connection env).mIsConnected then sock
  else sock.connectTo (env.server http.mHost (connectPort env http))

/-- The connection once the connect step is over. -/
def connectionAfterConnect (env : Env) (http : Http) (sock : TcpSocket) : HttpConnection :=
  if (http.connection env).mIsConnected then http.connection env
  else { (http.connection env) with
         mIsConnected := true, mSocket := some (socketAfterConnect env http sock) }

/-- The response parsed from the reply of the proxy to the tunnel request
(lines 558 to 563). -/
def tunnelResponse (reply : Bytes) : Response :=
  Response.new.parse (reply.take PACKET_BUFFER_SIZE)

/-- A peer for the failure scenarios: whether `connect` and `send` succeed is
given; nothing is ever received. -/
def failingPeer (connectOk sendOk : Bool) : Peer :=
  { connectOk := connectOk, tunnelSendOk := true, tunnelReply := none, sslConnectOk := true,
    sendOk := sendOk, reads := [], final := SocketStatus.Disconnected }

/-- The environment of the scenarios in which no host name resolves. -/
def unresolvedEnv : Env :=
  { scenarioEnv (failingPeer true true) with resolves := fun _ => false }

/-- The proxy of the tunnel scenarios, `http://proxy:8080`. -/
def exampleProxy : URI := { scheme := str "http", host := str "proxy", port := 8080, pathEtc := [] }

/-- The client of the tunnel scenarios: `Http("example.com", 443, true, proxy)`. -/
def tunnelClient : Http := Http.new true (str "example.com") 443 true exampleProxy

/-- A proxy that accepts everything and answers the tunnel request with
`reply`; the destination then closes the connection without an answer. -/
def tunnelPeer (reply : Bytes) : Peer :=
  { connectOk := true, tunnelSendOk := true, tunnelReply := some reply, sslConnectOk := true,
    sendOk := true, reads := [], final := SocketStatus.Disconnected }

/-- The call of `downloadRequest` of the tunnel scenarios, for a given reply of
the proxy to the tunnel request. -/
def tunnelRun (reply : Bytes) : Option Result :=
  tunnelClient.downloadRequest (scenarioEnv (tunnelPeer reply)) exampleRequest []

/-- What the tunnel scenarios observe of a result: the status of the response
returned, whether the connection is marked tunneled and keep-alive, and the
texts sent over the socket. -/
def Result.tunnelView (r : Result) : Status × Option (Bool × Bool × Option (List Bytes)) :=
  (r.response.mStatus,
   r.http.mConnection.map (fun c => (c.mIsTunneled, c.mIsKeepAlive, c.mSocket.map (fun s => s.sent))))

/-- The connection after the connect step and the sending of the tunnel
request. -/
def tunnelSentConnection (env : Env) (http : Http) (sock : TcpSocket) : HttpConnection :=
  { (connectionAfterConnect env http sock) with
    mSocket := some ((socketAfterConnect env http sock).sentTunnel http) }

/-- The connection once the tunnel is established: marked tunneled and
keep-alive (lines 576 and 577). -/
def tunneledConnection (env : Env) (http : Http) (sock : TcpSocket) : HttpConnection :=
  { (tunnelSentConnection env http sock) with mIsTunneled := true, mIsKeepAlive := true }

/-- A reply of the proxy with the status 204. -/
def noContentReply : Bytes := str "HTTP/1.1 204 No Content\r\n\r\n"

/-- A reply of the proxy with the status 200. -/
def establishedReply : Bytes := str "HTTP/1.1 200 Connection established\r\n\r\n"

/-- The last word of a line: the characters before its trailing white space,
back to the white space before them. -/
def lastWord (line : Bytes) : Bytes :=
  ((line.reverse.dropWhile isSpace).takeWhile (fun c => !isSpace c)).reverse

/-- The two numbers written in a version token `HTTP/<major>.<minor>`. -/
def versionDigits (token : Bytes) : Nat × Nat :=
  (digitsValue ((token.drop 5).takeWhile isDigit),
   digitsValue (((token.drop 5).dropWhile isDigit).drop 1))

/-- The field table `Response::parseFields` builds, in a new response, from the
lines of a text after its first line. -/
def fieldsAfterFirstLine (text : Bytes) : FieldTable :=
  (Response.new.parseFields (IStream.ignoreLine { rest := text, failed := false })).mFields

/-- The request of the line-break scenario: `Request("/a\nx: y", Get)`, with no
field set. -/
def splitPathRequest : Request := Request.new (str "/a\nx: y") .Get [] true true true false

/-- A call of `sendRequest` for `Request("/", Get)` on the client
`Http("example.com", 80)`, against a peer that delivers the given reads and
then closes the connection. -/
def answerRun (reads : List Bytes) : Option Result :=
  (exampleClient true).sendRequest (scenarioEnv (scriptedPeer reads SocketStatus.Disconnected))
    exampleRequest

/-- The request of the scenarios with a progress callback that always answers
`true`. -/
def watchedRequest : Request :=
  { exampleRequest with mProgressCallback := some (fun _ => true) }

/-- A call of `downloadRequest` for the watched request, with an empty sink,
against a peer that delivers the given reads and then closes the connection. -/
def watchedRun (reads : List Bytes) : Option Result :=
  (exampleClient true).downloadRequest
    (scenarioEnv (scriptedPeer reads SocketStatus.Disconnected)) watchedRequest []

/-- The headers of a chunked response, ending with the empty line. -/
def chunkedHeader : Bytes := str "HTTP/1.1 200 OK\r\nTransfer-Encoding: chunked\r\n\r\n"

/-- A response with `Content-Encoding: gzip` that is not chunked: the headers
and the four bytes `DATA` of the body. -/
def gzipAnswer : Bytes := str "HTTP/1.1 200 OK\r\nContent-Encoding: gzip\r\n\r\nDATA"

/-- What the scenarios observe of the response a run returns: its status and
its body. -/
def Result.answerView (r : Result) : Status × Bytes := (r.response.mStatus, r.response.mBody)

/-- The arguments of the invocations of the progress callback a run recorded,
the first invocation first: the expected total and the bytes received so far. -/
def Result.progressView (r : Result) : List (Nat × Nat) :=
  (r.trace.calls.map (fun e => (e.total, e.current))).reverse

/-- The reads of the long-header scenario: a first read that fills the
`PACKET_BUFFER_SIZE` bytes asked for with the letter `a`, without any line
break, and a second read of one more `a`. -/
def longHeaderReads : List Bytes := [List.replicate PACKET_BUFFER_SIZE 97, [97]]

/-- What a pass through the body of the receive loop does to the members
`mRedirectionCount` and `mCancel` of the request, seen from the state `l` it
starts in: they are kept when the loop goes on, and when the pass returns for a
redirect the counter is one more. -/
def Step.Keeps (l : Loop) : Step → Prop
  | Step.next l2 => l2.redirectionCount = l.redirectionCount ∧ l2.cancel = l.cancel
  | Step.redirect l2 => l2.redirectionCount = l.redirectionCount + 1 ∧ l2.cancel = l.cancel
  | Step.stop _ => True
  | Step.undefined => True

/-- What an attempt that ends with the call on the client of a redirect hands
to that client: the request it was given with the redirection counter one
more, and a client without proxy. -/
def Attempt.Forwards (request : Request) : Attempt → Prop
  | Attempt.redirect r target =>
    r.request = { request with mRedirectionCount := request.mRedirectionCount + 1 } ∧
    target.getProxy.empty = true
  | Attempt.done _ => True
  | Attempt.undefined => True

/-- The servers of the split-reply scenario: `a` delivers the given reads, `b`
answers 301 with the location of `c` in one read, every other host answers 200.
A location is resolved to its host by looking at its text, an empty location
giving an empty host name; the empty host name does not resolve. -/
def splitChainEnv (first : List Bytes) : Env :=
  { sslSupport := true, sslSocketSupported := true,
    resolves := fun host => !host.isEmpty,
    server := fun host _ =>
      if host = str "a" then scriptedPeer first SocketStatus.Disconnected
      else if host = str "b" then
        scriptedPeer [str "HTTP/1.1 301 Moved Permanently\r\nLocation: http://c/\r\n\r\n"]
          SocketStatus.Disconnected
      else
        scriptedPeer [str "HTTP/1.1 200 OK\r\nContent-Length: 2\r\n\r\nok"]
          SocketStatus.Disconnected,
    parseURI := fun text =>
      if text = str "http://b/" then
        { scheme := str "http", host := str "b", port := 80, pathEtc := str "/" }
      else if text = str "http://c/" then
        { scheme := str "http", host := str "c", port := 80, pathEtc := str "/" }
      else URI.none,
    chunkSize := fun _ => 16384, inflate := fun _ _ d => d, stack := fun _ => 0,
    stackStatus := SocketStatus.Error }

/-- What the redirect scenarios observe of a result: the status of the
response returned and the redirection counter of the request. -/
def Result.redirectView (r : Result) : Status × Nat :=
  (r.response.mStatus, r.request.mRedirectionCount)

/-- The call of `downloadRequest` of the split-reply scenario: the client
`Http("a", 80)` and the request with `maxRedirects` 1, the server `a`
delivering the given reads. -/
def splitChainRun (first : List Bytes) : Option Result :=
  chainClient.downloadRequest (splitChainEnv first) chainRequest []

/-! ## Properties -/

theorem writeFields_eq (fields : FieldTable) (out : Bytes) :
    writeFields out fields =
      out ++ (fields.map (fun f => f.1 ++ str ": " ++ f.2 ++ str "\r\n")).flatten := by
  induction fields generalizing out with
  | nil => simp [writeFields]
  | cons f fs ih =>
    have h := ih (out ++ f.1 ++ str ": " ++ f.2 ++ str "\r\n")
    simp only [writeFields, List.foldl_cons, List.map_cons, List.flatten_cons] at h ⊢
    rw [h]
    simp [List.append_assoc]

/-- C2, counterexample: the request `GET /` to `example.com:80` is not
serialized with the header lines `Host: example.com` and `Connection: close`
spelled with capitals. -/
theorem prepare_example_not_capitalized :
    ¬ ((str "GET / HTTP/1.1\r\n").isPrefixOf
          (Request.prepare ((exampleClient true).prepareFields exampleRequest)
            (exampleClient true)) = true ∧
        containsBytes (str "Host: example.com\r\n")
          (Request.prepare ((exampleClient true).prepareFields exampleRequest)
            (exampleClient true)) = true ∧
        containsBytes (str "Connection: close\r\n")
          (Request.prepare ((exampleClient true).prepareFields exampleRequest)
            (exampleClient true)) = true) := by
  decide

/-- C2, amended: for the client `Http("example.com", 80)` without proxy (with
or without SSL support compiled in) and the request `Request("/", Get)`, the
serialized request is exactly the request line `GET / HTTP/1.1` followed by the
lines `connection: close`, `content-length: 0`, `host: example.com` and
`user-agent: eepp-network` (names in lower case, in key order) and the empty
line; so it starts with the request line and contains the lines
`host: example.com` and `connection: close`. -/
theorem prepare_example_lowercase :
    ∀ ssl : Bool,
      Request.prepare ((exampleClient ssl).prepareFields exampleRequest) (exampleClient ssl) =
          str ("GET / HTTP/1.1\r\nconnection: close\r\ncontent-length: 0\r\n" ++
            "host: example.com\r\nuser-agent: eepp-network\r\n\r\n") ∧
        (str "GET / HTTP/1.1\r\n").isPrefixOf
          (Request.prepare ((exampleClient ssl).prepareFields exampleRequest)
            (exampleClient ssl)) = true ∧
        containsBytes (str "host: example.com\r\n")
          (Request.prepare ((exampleClient ssl).prepareFields exampleRequest)
            (exampleClient ssl)) = true ∧
        containsBytes (str "connection: close\r\n")
          (Request.prepare ((exampleClient ssl).prepareFields exampleRequest)
            (exampleClient ssl)) = true := by
  decide

/-- C3: on a client without proxy, `prepare` returns the request line
`<METHOD> <path> HTTP/<major>.<minor>\r\n`, one line `name: value\r\n` per entry
of the field table in the order of the table, the empty line and the body, and
nothing else. -/
theorem prepare_format (r : Request) (http : Http) (h : http.getProxy.empty = true) :
    r.prepare http =
      methodToString r.mMethod ++ str " " ++ r.mUri ++ str " HTTP/" ++
        decimal r.mMajorVersion ++ str "." ++ decimal r.mMinorVersion ++ str "\r\n" ++
        (r.mFields.map (fun f => f.1 ++ str ": " ++ f.2 ++ str "\r\n")).flatten ++
        str "\r\n" ++ r.mBody := by
  have e : str " HTTP/" = str " " ++ str "HTTP/" := by decide
  simp only [Request.prepare, h, if_true, writeFields_eq, e, List.append_assoc]

/-- C3, witness: the format at the normalized request `GET /` of the
scenarios, on the client of the scenarios. -/
theorem prepare_format_witness :
    (exampleClient true).getProxy.empty = true ∧
      ((exampleClient true).prepareFields exampleRequest).prepare (exampleClient true) =
        methodToString ((exampleClient true).prepareFields exampleRequest).mMethod ++ str " " ++
          ((exampleClient true).prepareFields exampleRequest).mUri ++ str " HTTP/" ++
          decimal ((exampleClient true).prepareFields exampleRequest).mMajorVersion ++ str "." ++
          decimal ((exampleClient true).prepareFields exampleRequest).mMinorVersion ++
          str "\r\n" ++
          (((exampleClient true).prepareFields exampleRequest).mFields.map
            (fun f => f.1 ++ str ": " ++ f.2 ++ str "\r\n")).flatten ++
          str "\r\n" ++ ((exampleClient true).prepareFields exampleRequest).mBody :=
  ⟨by decide, prepare_format _ _ (by decide)⟩

theorem readInt_fst (t : Bytes) :
    (IStream.readInt { rest := t, failed := false }).1 = leadingInt t := by
  unfold IStream.readInt leadingInt
  simp only [Bool.false_eq_true, if_false]
  rcases h : t.dropWhile isSpace with _ | ⟨c, cs⟩
  · simp
  · by_cases h1 : c = 45
    · subst h1
      simp only [List.head?_cons, true_or, if_true, List.drop_one, List.tail_cons,
        List.isEmpty_eq_true]
      split_ifs <;> simp_all
      all_goals omega
    · by_cases h2 : c = 43
      · subst h2
        simp only [List.head?_cons, Option.some.injEq, or_true, if_true, List.drop_one,
          List.tail_cons, List.isEmpty_eq_true]
        split_ifs <;> simp_all
        all_goals omega
      · have : (match c :: cs with
          | 45 :: u => (true, u)
          | 43 :: u => (false, u)
          | _ => (false, c :: cs)) = (false, c :: cs) := by
          split <;> simp_all
        rw [this]
        simp only [List.head?_cons, Option.some.injEq, h1, h2, or_self, if_false,
          List.isEmpty_eq_true]
        split_ifs <;> simp_all
        all_goals omega

theorem readWord_eq (data : Bytes) :
    IStream.readWord { rest := data, failed := false } =
      if data.dropWhile isSpace = [] then (none, { rest := [], failed := true })
      else (some (firstWord data), { rest := afterFirstWord data, failed := false }) := by
  unfold IStream.readWord firstWord afterFirstWord
  rcases h : data.dropWhile isSpace with _ | ⟨c, cs⟩ <;> simp

theorem firstWord_ne_nil (data : Bytes) (h : versionOk (firstWord data) = true) :
    data.dropWhile isSpace ≠ [] := by
  intro h0
  simp [firstWord, h0, versionOk] at h

theorem parse_rejected (r : Response) (data : Bytes)
    (h : versionOk (firstWord data) = false ∨ leadingInt (afterFirstWord data) = none) :
    (r.parse data).mStatus = Status.InvalidResponse ∧ (r.parse data).mFields = r.mFields := by
  unfold Response.parse
  simp only [readWord_eq]
  by_cases h0 : data.dropWhile isSpace = []
  · simp [h0, IStream.readInt]
  · simp only [h0, if_false]
    by_cases hv : versionOk (firstWord data) = true
    · have hl : leadingInt (afterFirstWord data) = none := by
        rcases h with h | h
        · simp [hv] at h
        · exact h
      simp [hv, readInt_fst, hl]
    · simp [hv]

theorem parse_accepted (r : Response) (data : Bytes) (n : Int)
    (hv : versionOk (firstWord data) = true) (hl : leadingInt (afterFirstWord data) = some n) :
    (r.parse data).mStatus = n := by
  unfold Response.parse
  simp only [readWord_eq, firstWord_ne_nil data hv, if_false, hv, if_true, readInt_fst, hl]
  simp [Response.parseFields]
  split_ifs <;> simp

theorem parse_version (r : Response) (data : Bytes)
    (hv : versionOk (firstWord data) = true) :
    (r.parse data).mMajorVersion = (firstWord data).getD 5 0 - 48 ∧
      (r.parse data).mMinorVersion = (firstWord data).getD 7 0 - 48 := by
  unfold Response.parse
  simp only [readWord_eq, firstWord_ne_nil data hv, if_false, hv, if_true, readInt_fst]
  rcases hl : leadingInt (afterFirstWord data) with _ | n
  · simp
  · simp [Response.parseFields]
    split_ifs <;> simp

theorem takeWhile_append_stop {p : Nat → Bool} (l : Bytes) (a : Nat) (r : Bytes)
    (hl : ∀ x ∈ l, p x = true) (ha : p a = false) : (l ++ a :: r).takeWhile p = l := by
  induction l with
  | nil => simp [List.takeWhile, ha]
  | cons x xs ih =>
    have hx : p x = true := hl x (by simp)
    simp [List.takeWhile, hx]
    exact ih (fun y hy => hl y (by simp [hy]))

theorem isDigit_not_space (c : Nat) (h : isDigit c = true) : isSpace c = false := by
  simp [isDigit, isSpace] at *
  omega

/-- C4, counterexample: the status line `HTTP/1.1 2147483648 OK` has the form
of the claim, and the status after `parse` is `InvalidResponse`, not the
number written by the digits. -/
theorem parse_status_overflow :
    (Response.new.parse (str "HTTP/" ++ [49, 46, 49, 32] ++ str "2147483648" ++
        32 :: str "OK\r\n")).mStatus = Status.InvalidResponse ∧
      (Response.new.parse (str "HTTP/" ++ [49, 46, 49, 32] ++ str "2147483648" ++
        32 :: str "OK\r\n")).mStatus ≠ (digitsValue (str "2147483648") : Int) := by
  decide

/-- C4, amended: for a header block that begins `HTTP/<d1>.<d2> <digits> `,
with `d1` and `d2` decimal digits and `<digits>` a non-empty string of decimal
digits, after `parse` the major version is `d1`, the minor version is `d2`, and
the status is the number written by `<digits>` when that number is at most
2147483647, and `InvalidResponse` when it is larger. -/
theorem parse_status_line (r : Response) (d1 d2 : Nat) (ds rest : Bytes)
    (h1 : isDigit d1 = true) (h2 : isDigit d2 = true) (hne : ds ≠ [])
    (hds : ∀ c ∈ ds, isDigit c = true) :
    (r.parse (str "HTTP/" ++ [d1, 46, d2, 32] ++ ds ++ 32 :: rest)).mMajorVersion = d1 - 48 ∧
    (r.parse (str "HTTP/" ++ [d1, 46, d2, 32] ++ ds ++ 32 :: rest)).mMinorVersion = d2 - 48 ∧
    (r.parse (str "HTTP/" ++ [d1, 46, d2, 32] ++ ds ++ 32 :: rest)).mStatus =
      if digitsValue ds ≤ 2147483647 then (digitsValue ds : Int) else Status.InvalidResponse := by
  have hs1 := isDigit_not_space d1 h1
  have hs2 := isDigit_not_space d2 h2
  have e : str "HTTP/" = [72, 84, 84, 80, 47] := by decide
  have hsp : isSpace 32 = true := by decide
  have k72 : isSpace 72 = false := by decide
  have k84 : isSpace 84 = false := by decide
  have k80 : isSpace 80 = false := by decide
  have k47 : isSpace 47 = false := by decide
  have k46 : isSpace 46 = false := by decide
  obtain ⟨c, cs, rfl⟩ : ∃ c cs, ds = c :: cs := by
    cases ds with
    | nil => exact absurd rfl hne
    | cons c cs => exact ⟨c, cs, rfl⟩
  have hc : isDigit c = true := hds c (by simp)
  have hcs : isSpace c = false := isDigit_not_space c hc
  have hc45 : c ≠ 45 := by
    intro h; subst h; simp [isDigit] at hc
  have hc43 : c ≠ 43 := by
    intro h; subst h; simp [isDigit] at hc
  have hw : firstWord (str "HTTP/" ++ [d1, 46, d2, 32] ++ (c :: cs) ++ 32 :: rest) =
      [72, 84, 84, 80, 47, d1, 46, d2] := by
    simp [firstWord, e, List.dropWhile_cons, List.takeWhile_cons, hs1, hs2, k72, k84, k80, k47,
      k46, hsp]
  have ha : afterFirstWord (str "HTTP/" ++ [d1, 46, d2, 32] ++ (c :: cs) ++ 32 :: rest) =
      32 :: ((c :: cs) ++ 32 :: rest) := by
    simp [afterFirstWord, e, List.dropWhile_cons, hs1, hs2, k72, k84, k80, k47, k46, hsp]
  have hv : versionOk [72, 84, 84, 80, 47, d1, 46, d2] = true := by
    simp [versionOk, h1, h2]
    decide
  have hl : leadingInt (32 :: ((c :: cs) ++ 32 :: rest)) =
      if digitsValue (c :: cs) ≤ 2147483647 then some (digitsValue (c :: cs) : Int) else none := by
    have hd : (32 :: ((c :: cs) ++ 32 :: rest)).dropWhile isSpace = (c :: cs) ++ 32 :: rest := by
      simp [List.dropWhile, hsp, hcs]
    have ht : ((c :: cs) ++ 32 :: rest).takeWhile isDigit = c :: cs :=
      takeWhile_append_stop (c :: cs) 32 rest hds (by decide)
    unfold leadingInt
    rw [hd]
    simp only [List.cons_append, List.head?_cons, Option.some.injEq, hc45, hc43, or_self,
      if_false]
    rw [← List.cons_append, ht]
    by_cases hmax : digitsValue (c :: cs) ≤ 2147483647
    · simp [hmax]
      omega
    · simp [hmax]
  have hver := parse_version r _ (by rw [hw]; exact hv)
  rw [hw] at hver
  simp only [List.getD_cons_succ, List.getD_cons_zero] at hver
  refine ⟨hver.1, hver.2, ?_⟩
  by_cases hmax : digitsValue (c :: cs) ≤ 2147483647
  · rw [if_pos hmax]
    exact parse_accepted r _ _ (by rw [hw]; exact hv) (by rw [ha, hl, if_pos hmax])
  · rw [if_neg hmax]
    exact (parse_rejected r _ (Or.inr (by rw [ha, hl, if_neg hmax]))).1

/-- C4, witness: the status line `HTTP/1.1 200 OK`. -/
theorem parse_status_line_witness :
    isDigit 49 = true ∧ isDigit 49 = true ∧ str "200" ≠ [] ∧
      (∀ c ∈ str "200", isDigit c = true) ∧
      ((Response.new.parse (str "HTTP/" ++ [49, 46, 49, 32] ++ str "200" ++
          32 :: str "OK\r\n")).mMajorVersion = 49 - 48 ∧
       (Response.new.parse (str "HTTP/" ++ [49, 46, 49, 32] ++ str "200" ++
          32 :: str "OK\r\n")).mMinorVersion = 49 - 48 ∧
       (Response.new.parse (str "HTTP/" ++ [49, 46, 49, 32] ++ str "200" ++
          32 :: str "OK\r\n")).mStatus =
         if digitsValue (str "200") ≤ 2147483647 then (digitsValue (str "200") : Int)
         else Status.InvalidResponse) :=
  ⟨by decide, by decide, by decide, by decide,
    parse_status_line Response.new 49 49 (str "200") (str "OK\r\n") (by decide) (by decide)
      (by decide) (by decide)⟩

/-- C5, counterexample: the first line `HTTP/1.15 200 OK` does not match the
grammar `HTTP/<d>.<d> <digits>...` (its minor version is not one digit), and
`parse` leaves the status 200, not `InvalidResponse`. -/
theorem parse_accepts_long_version :
    specStatusLine (firstLine (str "HTTP/1.15 200 OK\r\n")) = false ∧
      (Response.new.parse (str "HTTP/1.15 200 OK\r\n")).getStatus = 200 ∧
      (Response.new.parse (str "HTTP/1.15 200 OK\r\n")).getStatus ≠ Status.InvalidResponse := by
  decide

/-- C5, amended: for every input whose first word (the characters between the
leading white space and the next white space) is shorter than 8 characters, or
does not begin with `HTTP/` in either letter case, a decimal digit, `.` and a
decimal digit, or after whose first word the text does not begin, after white
space, with an optionally signed decimal number that fits a 32-bit `int`,
`parse` on a fresh `Response` leaves the status `InvalidResponse`. -/
theorem parse_invalid_status_line (data : Bytes)
    (h : (firstWord data).length < 8 ∨ toLower ((firstWord data).take 5) ≠ str "http/" ∨
      isDigit ((firstWord data).getD 5 0) = false ∨ (firstWord data).getD 6 0 ≠ 46 ∨
      isDigit ((firstWord data).getD 7 0) = false ∨
      leadingInt (afterFirstWord data) = none) :
    (Response.new.parse data).getStatus = Status.InvalidResponse := by
  refine (parse_rejected Response.new data ?_).1
  by_cases hl : leadingInt (afterFirstWord data) = none
  · exact Or.inr hl
  · left
    rw [Bool.eq_false_iff]
    intro hv
    simp only [versionOk, Bool.and_eq_true, decide_eq_true_eq, beq_iff_eq] at hv
    obtain ⟨⟨⟨⟨h8, h6⟩, h5⟩, hd5⟩, hd7⟩ := hv
    rcases h with h | h | h | h | h | h
    · omega
    · exact h h5
    · rw [h] at hd5; exact Bool.false_ne_true hd5
    · exact h h6
    · rw [h] at hd7; exact Bool.false_ne_true hd7
    · exact hl h

/-- C5, witness: the input `FTP/1.1 200 OK`, whose first word does not begin
with `HTTP/`. -/
theorem parse_invalid_status_line_witness :
    ((firstWord (str "FTP/1.1 200 OK\r\n")).length < 8 ∨
        toLower ((firstWord (str "FTP/1.1 200 OK\r\n")).take 5) ≠ str "http/" ∨
        isDigit ((firstWord (str "FTP/1.1 200 OK\r\n")).getD 5 0) = false ∨
        (firstWord (str "FTP/1.1 200 OK\r\n")).getD 6 0 ≠ 46 ∨
        isDigit ((firstWord (str "FTP/1.1 200 OK\r\n")).getD 7 0) = false ∨
        leadingInt (afterFirstWord (str "FTP/1.1 200 OK\r\n")) = none) ∧
      (Response.new.parse (str "FTP/1.1 200 OK\r\n")).getStatus = Status.InvalidResponse :=
  ⟨by decide, parse_invalid_status_line (str "FTP/1.1 200 OK\r\n") (by decide)⟩

/-- C6, counterexample: after `parse` of a well-formed block whose status line
carries the number 1000, the status is `InvalidResponse` and the field table is
not empty. -/
theorem parse_invalid_with_fields :
    (Response.new.parse (str "HTTP/1.1 1000 X\r\nFoo: bar\r\n\r\n")).getStatus =
        Status.InvalidResponse ∧
      (Response.new.parse (str "HTTP/1.1 1000 X\r\nFoo: bar\r\n\r\n")).mFields =
        [(str "foo", str "bar")] ∧
      (Response.new.parse (str "HTTP/1.1 1000 X\r\nFoo: bar\r\n\r\n")).mFields ≠ [] := by
  decide

/-- C6, amended: for every input, if the status is `InvalidResponse` after
`parse` on a fresh `Response` and the input is not a status line that passes
the version test and carries the number 1000 (the value of `InvalidResponse`
itself), then the field table of the `Response` is empty. -/
theorem parse_invalid_no_fields (data : Bytes)
    (h : (Response.new.parse data).getStatus = Status.InvalidResponse)
    (hn : ¬ (versionOk (firstWord data) = true ∧
      leadingInt (afterFirstWord data) = some 1000)) :
    (Response.new.parse data).mFields = [] := by
  by_cases hv : versionOk (firstWord data) = true
  · rcases hl : leadingInt (afterFirstWord data) with _ | n
    · exact (parse_rejected Response.new data (Or.inr hl)).2
    · have hs := parse_accepted Response.new data n hv hl
      have : n = 1000 := by
        rw [← hs]; exact h
      subst this
      exact absurd ⟨hv, hl⟩ hn
  · exact (parse_rejected Response.new data (Or.inl (by simpa using hv))).2

/-- C6, witness: the input `HTTP/x.1 200 OK` followed by a header line. -/
theorem parse_invalid_no_fields_witness :
    (Response.new.parse (str "HTTP/x.1 200 OK\r\nFoo: bar\r\n\r\n")).getStatus =
        Status.InvalidResponse ∧
      ¬ (versionOk (firstWord (str "HTTP/x.1 200 OK\r\nFoo: bar\r\n\r\n")) = true ∧
        leadingInt (afterFirstWord (str "HTTP/x.1 200 OK\r\nFoo: bar\r\n\r\n")) = some 1000) ∧
      (Response.new.parse (str "HTTP/x.1 200 OK\r\nFoo: bar\r\n\r\n")).mFields = [] :=
  ⟨by decide, by decide,
    parse_invalid_no_fields (str "HTTP/x.1 200 OK\r\nFoo: bar\r\n\r\n") (by decide) (by decide)⟩

/-- C1, the scenario evaluated: the response
`HTTP/1.1 200 OK\r\nContent-Length: 5\r\n\r\nhello` delivered in one read, then
disconnection.  `sendRequest` returns status 200 and `Content-Length` `5`, but
the body is `hello` followed by the 43 bytes of the whole read, not `hello`. -/
theorem sendRequest_example_body :
    ((exampleClient true).sendRequest
        (scenarioEnv (scriptedPeer [str "HTTP/1.1 200 OK\r\nContent-Length: 5\r\n\r\nhello"]
          SocketStatus.Disconnected)) exampleRequest).map
      (fun r => (r.response.getStatus, r.response.getField (str "Content-Length"),
        r.response.mBody)) =
      some (Status.Ok, str "5",
        str "hello" ++ str "HTTP/1.1 200 OK\r\nContent-Length: 5\r\n\r\nhello") := by
  decide

/-- C7, the failing input evaluated: the chunked stream of the single chunk
`hello`, arriving whole in one read.  Nothing is written to the sink. -/
theorem download_chunked_one_read :
    ((exampleClient true).downloadRequest
        (scenarioEnv (scriptedPeer
          [str "HTTP/1.1 200 OK\r\nTransfer-Encoding: chunked\r\n\r\n" ++
            (str "5\r\n" ++ str "hello" ++ str "\r\n") ++ str "0\r\n\r\n"]
          SocketStatus.Disconnected)) exampleRequest []).map
      (fun r => (r.response.getStatus, r.sink)) = some (Status.Ok, []) := by
  decide

/-- C8, the failing input evaluated: the stream
`HTTP/1.1 200 OK\r\nContent-Length: 5\r\n\r\nhello` arriving in one read, and
split in two reads inside the header line.  The header fields and the bytes
written to the sink differ. -/
theorem download_split_header_line :
    str "HTTP/1.1 200 OK\r\nContent-Le" ++ str "ngth: 5\r\n\r\nhello" =
        str "HTTP/1.1 200 OK\r\nContent-Length: 5\r\n\r\nhello" ∧
      ((exampleClient true).downloadRequest
          (scenarioEnv (scriptedPeer [str "HTTP/1.1 200 OK\r\nContent-Length: 5\r\n\r\nhello"]
            SocketStatus.Disconnected)) exampleRequest []).map
        (fun r => (r.response.getStatus, r.response.mFields, r.sink)) =
        some (Status.Ok, [(str "content-length", str "5")],
          str "hello" ++ str "HTTP/1.1 200 OK\r\nContent-Length: 5\r\n\r\nhello") ∧
      ((exampleClient true).downloadRequest
          (scenarioEnv (scriptedPeer
            [str "HTTP/1.1 200 OK\r\nContent-Le", str "ngth: 5\r\n\r\nhello"]
            SocketStatus.Disconnected)) exampleRequest []).map
        (fun r => (r.response.getStatus, r.response.mFields, r.sink)) =
        some (Status.Ok, [(str "ngth", str "5")],
          str "hello" ++ str "ngth: 5\r\n\r\nhello") := by
  refine ⟨by decide, by decide, by decide⟩

theorem splitRead_frame (l l' : Loop) (bol : Nat) (h : splitRead l bol = some l') :
    l'.trace = l.trace ∧ l'.cancel = l.cancel := by
  unfold splitRead at h
  split_ifs at h <;> (simp only [Option.some.injEq] at h; subst h; exact ⟨rfl, rfl⟩)

theorem headerFound_sat (env : Env) (request : Request) (l : Loop) (bol : Nat) :
    (headerFound env request l bol).Sat
      (fun l' => l'.trace = l.trace ∧ l'.cancel = l.cancel) (fun _ => False) := by
  unfold headerFound
  rcases h : splitRead l (skipBreak l.buffer bol) with _ | l1
  · simp [Step.Sat]
  · have hf := splitRead_frame l l1 _ h
    simp only []
    split_ifs
    · exact hf
    · exact hf
    · exact hf

theorem takeChunk_frame (l l' : Loop) (a b : Nat) (h : takeChunk l a b = some l') :
    l'.trace = l.trace ∧ l'.cancel = l.cancel ∧ l'.writeTo = l.writeTo ∧
      l'.compressed = l.compressed := by
  unfold takeChunk at h
  split_ifs at h <;>
    (simp only [Option.some.injEq] at h; subst h; exact ⟨rfl, rfl, rfl, rfl⟩)

theorem decodeChunk_frame (l l' : Loop) (h : decodeChunk l = some l') :
    l'.trace = l.trace ∧ l'.cancel = l.cancel ∧ l'.writeTo = l.writeTo ∧
      l'.compressed = l.compressed := by
  unfold decodeChunk at h
  split at h
  · simp only [Option.some.injEq] at h; subst h; exact ⟨rfl, rfl, rfl, rfl⟩
  · split at h
    · simp only [Option.some.injEq] at h; subst h; exact ⟨rfl, rfl, rfl, rfl⟩
    · split_ifs at h
      · exact takeChunk_frame _ _ _ _ h
      · simp only [Option.some.injEq] at h; subst h; exact ⟨rfl, rfl, rfl, rfl⟩
      · simp only [Option.some.injEq] at h; subst h; exact ⟨rfl, rfl, rfl, rfl⟩

theorem chunkStep_frame (l l' : Loop) (h : chunkStep l = some l') :
    l'.trace = l.trace ∧ l'.cancel = l.cancel ∧ l'.writeTo = l.writeTo ∧
      l'.compressed = l.compressed :=
  decodeChunk_frame (appendChunkData l) l' h

theorem storeRead_frame (l l' : Loop) (h : storeRead l = some l') :
    l'.trace = l.trace ∧ l'.cancel = l.cancel ∧ l'.writeTo = l.writeTo ∧
      l'.compressed = l.compressed := by
  unfold storeRead at h
  split_ifs at h
  · exact chunkStep_frame { l with currentTotalBytes := l.currentTotalBytes + l.readed } l' h
  · simp only [Option.some.injEq] at h; subst h; exact ⟨rfl, rfl, rfl, rfl⟩
  · simp only [Option.some.injEq] at h; subst h; exact ⟨rfl, rfl, rfl, rfl⟩

theorem flushStep_frame (env : Env) (l : Loop) :
    (flushStep env l).trace = l.trace ∧ (flushStep env l).cancel = l.cancel ∧
      (flushStep env l).compressed = l.compressed := by
  unfold flushStep
  split_ifs <;> exact ⟨rfl, rfl, rfl⟩

theorem callbackStep_sat (request : Request) (l : Loop) (h : l.trace.AllTrue) :
    (callbackStep request l).Sat
      (fun l' => l'.trace.AllTrue ∧ l'.cancel = l.cancel) Loop.Stopped := by
  unfold callbackStep
  rcases request.mProgressCallback with _ | cb
  · exact ⟨h, rfl⟩
  · simp only []
    by_cases ha : (callEvent cb l).answer = true
    · simp only [ha, Bool.not_true, Bool.false_eq_true, if_false]
      refine ⟨?_, rfl⟩
      intro e he
      simp only [List.mem_cons] at he
      rcases he with rfl | he
      · exact ha
      · exact h e he
    · have ha' : (callEvent cb l).answer = false := by simpa using ha
      simp only [ha', Bool.not_false, if_true]
      exact ⟨callEvent cb l, l.trace.calls, rfl, ha', h, rfl, rfl, rfl, rfl⟩

theorem bodyPhase_sat (env : Env) (request : Request) (l : Loop) (h : l.trace.AllTrue) :
    (bodyPhase env request l).Sat
      (fun l' => l'.trace.AllTrue ∧ l'.cancel = l.cancel) Loop.Stopped := by
  unfold bodyPhase
  rcases hs : storeRead l with _ | l1
  · simp [Step.Sat]
  · have h1 := storeRead_frame l l1 hs
    have h2 := flushStep_frame env l1
    have h3 := callbackStep_sat request (flushStep env l1) (by rw [h2.1, h1.1]; exact h)
    simp only []
    rcases hc : callbackStep request (flushStep env l1) with l2 | l2 | l2 | _
    · rw [hc] at h3
      exact ⟨h3.1, by rw [h3.2, h2.2.1, h1.2.1]⟩
    · rw [hc] at h3; exact h3
    · rw [hc] at h3
      exact ⟨h3.1, by rw [h3.2, h2.2.1, h1.2.1]⟩
    · trivial

theorem terminateBuffer_frame (l l' : Loop) (h : terminateBuffer l = some l') :
    l'.trace = l.trace ∧ l'.cancel = l.cancel := by
  unfold terminateBuffer at h
  split_ifs at h
  simp only [Option.some.injEq] at h
  subst h
  exact ⟨rfl, rfl⟩

theorem blankFirstLine_frame (l : Loop) (k : Nat) :
    (blankFirstLine l k).trace = l.trace ∧ (blankFirstLine l k).cancel = l.cancel := by
  unfold blankFirstLine
  split_ifs <;> exact ⟨rfl, rfl⟩

theorem headerPhase_sat (env : Env) (request : Request) (l : Loop) (h : l.trace.AllTrue) :
    (headerPhase env request l).Sat
      (fun l' => l'.trace.AllTrue ∧ l'.cancel = l.cancel) Loop.Stopped := by
  unfold headerPhase
  rcases ht : terminateBuffer l with _ | l1
  · simp [Step.Sat]
  · have h1 := terminateBuffer_frame l l1 ht
    simp only []
    split_ifs
    · have hb := blankFirstLine_frame l1 2
      exact ⟨by rw [hb.1, h1.1]; exact h, by rw [hb.2, h1.2]⟩
    · have hb := blankFirstLine_frame l1 1
      exact ⟨by rw [hb.1, h1.1]; exact h, by rw [hb.2, h1.2]⟩
    · have hf := headerFound_sat env request l1
        (headerLoop l1.buffer (PACKET_BUFFER_SIZE + 1) 0).2
      rcases hh : headerFound env request l1
          (headerLoop l1.buffer (PACKET_BUFFER_SIZE + 1) 0).2 with l2 | l2 | l2 | _
      · rw [hh] at hf
        have hb := bodyPhase_sat env request l2 (by rw [hf.1, h1.1]; exact h)
        simp only []
        rcases hbp : bodyPhase env request l2 with l3 | l3 | l3 | _
        · rw [hbp] at hb; exact ⟨hb.1, by rw [hb.2, hf.2, h1.2]⟩
        · rw [hbp] at hb; exact hb
        · rw [hbp] at hb; exact ⟨hb.1, by rw [hb.2, hf.2, h1.2]⟩
        · trivial
      · rw [hh] at hf; exact absurd hf id
      · rw [hh] at hf
        exact ⟨by rw [hf.1, h1.1]; exact h, by rw [hf.2, h1.2]⟩
      · trivial
    · exact ⟨by show l1.trace.AllTrue; rw [h1.1]; exact h, h1.2⟩

theorem iteration_sat (env : Env) (request : Request) (l : Loop) (h : l.trace.AllTrue) :
    (iteration env request l).Sat
      (fun l' => l'.trace.AllTrue ∧ l'.cancel = l.cancel) Loop.Stopped := by
  unfold iteration
  split_ifs
  · exact headerPhase_sat env request l h
  · exact bodyPhase_sat env request l h

theorem recvLoop_sat (env : Env) (request : Request) (final : SocketStatus) (reads : List Bytes) :
    ∀ l : Loop, l.trace.AllTrue →
      match recvLoop env request final l reads with
      | LoopEnd.exit l' _ => l'.trace.AllTrue ∨ l'.Stopped
      | LoopEnd.redirect l' _ => l'.trace.AllTrue
      | LoopEnd.undefined => True := by
  induction reads with
  | nil =>
    intro l h
    unfold recvLoop
    split_ifs
    · exact Or.inl h
    · exact Or.inl h
  | cons d rest ih =>
    intro l h
    unfold recvLoop
    split_ifs
    · exact Or.inl h
    · trivial
    · have hi := iteration_sat env request (l.receive d) h
      rcases hit : iteration env request (l.receive d) with l1 | l1 | l1 | _
      · rw [hit] at hi
        exact ih l1 hi.1
      · rw [hit] at hi
        exact Or.inr hi
      · rw [hit] at hi
        exact hi.1
      · trivial

theorem afterLoop_frame (env : Env) (l : Loop) :
    (afterLoop env l).trace = l.trace ∧ (afterLoop env l).cancel = l.cancel ∧
      (l.compressed = false → (afterLoop env l).writeTo = l.writeTo) := by
  unfold afterLoop noteDisconnect finalFlush trailingFields
  refine ⟨?_, ?_, ?_⟩
  · split_ifs <;> rfl
  · split_ifs <;> rfl
  · intro hc
    split_ifs <;> simp_all [Loop.inflateWrite]

theorem transfer_sat (env : Env) (http : Http) (request toSend : Request)
    (conn : HttpConnection) (sock : TcpSocket) (writeTo : Bytes) (trace : Trace)
    (h : trace.AllTrue) :
    match transfer env http request toSend conn sock writeTo trace with
    | Attempt.done r => r.CancelOk
    | Attempt.redirect r _ => r.trace.AllTrue
    | Attempt.undefined => True := by
  unfold transfer
  split_ifs
  · exact Or.inl h
  · rcases sock.peer with _ | peer
    · exact Or.inl h
    · simp only []
      split_ifs
      · exact Or.inl h
      · have hl := recvLoop_sat env request peer.final peer.reads
          (Loop.start env request { conn with mSocket := some (sock.send (toSend.prepare http)) }
            Response.new writeTo trace) h
        rcases hr : recvLoop env request peer.final
            (Loop.start env request { conn with mSocket := some (sock.send (toSend.prepare http)) }
              Response.new writeTo trace) peer.reads with ⟨l, rest⟩ | ⟨l, rest⟩ | _
        · rw [hr] at hl
          have ha := afterLoop_frame env l
          simp only [finalReturn]
          rcases hl with hl | ⟨e, old, h1, h2, h3, h4, h5, h6, h7⟩
          · left
            show (afterLoop env l).trace.AllTrue
            rw [ha.1]; exact hl
          · right
            refine ⟨e, old, ?_, h2, h3, ?_, ?_, ?_⟩
            · show (afterLoop env l).trace.calls = e :: old
              rw [ha.1]; exact h1
            · show (afterLoop env l).cancel = true
              rw [ha.2.1]; exact h4
            · show e.receivesBefore = (afterLoop env l).trace.receives
              rw [ha.1]; exact h5
            · intro hc
              show e.sinkBefore = (afterLoop env l).writeTo
              rw [ha.2.2 (by rw [← h7]; exact hc)]; exact h6
        · rw [hr] at hl
          simp only [redirectReturn]
          exact hl
        · trivial

theorem tunnel_sat (env : Env) (http : Http) (request toSend : Request)
    (conn : HttpConnection) (sock : TcpSocket) (writeTo : Bytes) (trace : Trace)
    (h : trace.AllTrue) :
    match tunnel env http request toSend conn sock writeTo trace with
    | Attempt.done r => r.CancelOk
    | Attempt.redirect r _ => r.trace.AllTrue
    | Attempt.undefined => True := by
  unfold tunnel
  by_cases h0 : (!sock.ssl) = true
  · rw [if_pos h0]
    trivial
  · rw [if_neg h0]
    rcases sock.peer with _ | p
    · exact transfer_sat env http request toSend conn sock writeTo trace h
    · simp only []
      by_cases h1 : (!p.tunnelSendOk) = true
      · rw [if_pos h1]
        exact transfer_sat env http request toSend conn sock writeTo trace h
      · rw [if_neg h1]
        rcases p.tunnelReply with _ | reply
        · exact Or.inl h
        · simp only []
          by_cases h2 : (Response.new.parse (reply.take PACKET_BUFFER_SIZE)).getStatus = Status.Ok
          · rw [if_pos h2]
            by_cases h3 : (!p.sslConnectOk) = true
            · rw [if_pos h3]
              exact Or.inl h
            · rw [if_neg h3]
              exact transfer_sat env http request toSend _ _ writeTo trace h
          · rw [if_neg h2]
            exact Or.inl h

theorem connected_sat (env : Env) (http : Http) (request toSend : Request)
    (conn : HttpConnection) (sock : TcpSocket) (writeTo : Bytes) (trace : Trace)
    (h : trace.AllTrue) :
    match connected env http request toSend conn sock writeTo trace with
    | Attempt.done r => r.CancelOk
    | Attempt.redirect r _ => r.trace.AllTrue
    | Attempt.undefined => True := by
  unfold connected
  split_ifs
  · exact tunnel_sat env http request toSend conn sock writeTo trace h
  · exact transfer_sat env http request toSend conn sock writeTo trace h

theorem connect_sat (env : Env) (http : Http) (request toSend : Request)
    (conn : HttpConnection) (sock : TcpSocket) (writeTo : Bytes) (trace : Trace)
    (h : trace.AllTrue) :
    match connect env http request toSend conn sock writeTo trace with
    | Attempt.done r => r.CancelOk
    | Attempt.redirect r _ => r.trace.AllTrue
    | Attempt.undefined => True := by
  unfold connect
  split_ifs
  · exact connected_sat env http request toSend conn sock writeTo trace h
  · trivial
  · exact Or.inl h
  · exact connected_sat env http request toSend _ _ writeTo trace h

theorem downloadAttempt_sat (env : Env) (http : Http) (request : Request) (writeTo : Bytes)
    (trace : Trace) (h : trace.AllTrue) :
    match downloadAttempt env http request writeTo trace with
    | Attempt.done r => r.CancelOk
    | Attempt.redirect r _ => r.trace.AllTrue
    | Attempt.undefined => True := by
  unfold downloadAttempt
  split_ifs
  · exact Or.inl h
  · rcases (http.connection env).mSocket with _ | sock
    · trivial
    · exact connect_sat env http request _ _ sock writeTo trace h

theorem downloadRequestFuel_sat (env : Env) (fuel : Nat) :
    ∀ (http : Http) (request : Request) (writeTo : Bytes) (trace : Trace) (res : Result),
      trace.AllTrue → downloadRequestFuel env fuel http request writeTo trace = some res →
      res.CancelOk := by
  induction fuel with
  | zero =>
    intro http request writeTo trace res _ h
    simp [downloadRequestFuel] at h
  | succ n ih =>
    intro http request writeTo trace res ht h
    unfold downloadRequestFuel at h
    have ha := downloadAttempt_sat env http request writeTo trace ht
    rcases hd : downloadAttempt env http request writeTo trace with r | ⟨r, target⟩ | _
    · rw [hd] at h ha
      simp only [Option.some.injEq] at h
      subst h
      exact ha
    · rw [hd] at h ha
      simp only [] at h
      rcases hn : downloadRequestFuel env n target r.request r.sink r.trace with _ | r2
      · rw [hn] at h; cases h
      · rw [hn] at h
        simp only [Option.some.injEq] at h
        subst h
        exact ih target r.request r.sink r.trace r2 ha hn
    · rw [hd] at h; cases h

/-- C10, amended: when a call of `downloadRequest` returns and the progress
callback answered `false` at some invocation, then the cancel flag of the
request is set, that invocation is the last one (the callback is not invoked
again), `receive` is not called again, and, unless the body of the response
goes through the decompressor, the content of the sink at the return is the
content it had at that invocation. -/
theorem cancel_stops_transfer (env : Env) (http : Http) (request : Request) (writeTo : Bytes)
    (res : Result) (e : CallEvent)
    (hres : http.downloadRequest env request writeTo = some res)
    (he : e ∈ res.trace.calls) (hf : e.answer = false) :
    res.request.mCancel = true ∧ res.trace.calls.head? = some e ∧
      res.trace.receives = e.receivesBefore ∧
      (e.compressed = false → res.sink = e.sinkBefore) := by
  have h := downloadRequestFuel_sat env _ http request writeTo Trace.start res
    (by intro x hx; simp [Trace.start] at hx) hres
  rcases h with h | ⟨e0, old, h1, h2, h3, h4, h5, h6⟩
  · have := h e he
    rw [hf] at this
    cases this
  · have hee : e = e0 := by
      rw [h1] at he
      simp only [List.mem_cons] at he
      rcases he with he | he
      · exact he
      · have := h3 e he
        rw [hf] at this
        cases this
    subst hee
    refine ⟨h4, by rw [h1]; rfl, h5.symm, fun hc => (h6 hc).symm⟩

theorem plainRun_isSome : plainRun.isSome = true := by decide

/-- C10, witness: the plain response cancelled at the first invocation of the
callback. -/
theorem cancel_stops_transfer_witness :
    (exampleClient true).downloadRequest
        (scenarioEnv (scriptedPeer
          [str "HTTP/1.1 200 OK\r\n\r\nhello", str "more"] SocketStatus.Disconnected))
        cancelAlways [] = some (plainRun.get plainRun_isSome) ∧
      plainCancelEvent ∈ (plainRun.get plainRun_isSome).trace.calls ∧
      plainCancelEvent.answer = false ∧
      ((plainRun.get plainRun_isSome).request.mCancel = true ∧
        (plainRun.get plainRun_isSome).trace.calls.head? = some plainCancelEvent ∧
        (plainRun.get plainRun_isSome).trace.receives = plainCancelEvent.receivesBefore ∧
        (plainCancelEvent.compressed = false →
          (plainRun.get plainRun_isSome).sink = plainCancelEvent.sinkBefore)) :=
  ⟨(Option.some_get plainRun_isSome).symm, by decide, by decide,
    cancel_stops_transfer _ _ _ _ _ _ (Option.some_get plainRun_isSome).symm (by decide)
      (by decide)⟩

/-- C10, counterexample: a chunked response with `Content-Encoding: gzip` is
cancelled by the callback at its second invocation, when the sink is empty and
5 bytes are staged for the decompressor; when `downloadRequest` returns the
sink holds what the decompressor wrote for those 5 bytes after the
cancellation. -/
theorem cancel_gzip_flushes_after :
    gzipRun.map (fun r => (r.request.mCancel,
        r.trace.calls.map (fun e => (e.answer, e.sinkBefore)), r.sink)) =
      some (true, [(false, []), (true, [])], str "hello") := by
  decide


theorem strchrNl_spec (buf : Nat → Nat) :
    ∀ fuel i e, strchrNl buf fuel i = some e →
      i ≤ e ∧ buf e = 10 ∧ ∀ j, i ≤ j → j < e → buf j ≠ 0 := by
  intro fuel
  induction fuel with
  | zero => intro i e h; simp [strchrNl] at h
  | succ f ih =>
    intro i e h
    unfold strchrNl at h
    by_cases h10 : buf i = 10
    · rw [if_pos h10] at h
      simp only [Option.some.injEq] at h
      subst h
      exact ⟨le_refl _, h10, fun j h1 h2 => absurd h2 (by omega)⟩
    · rw [if_neg h10] at h
      by_cases h0 : buf i = 0
      · rw [if_pos h0] at h; cases h
      · rw [if_neg h0] at h
        obtain ⟨h1, h2, h3⟩ := ih (i + 1) e h
        refine ⟨by omega, h2, ?_⟩
        intro j hj1 hj2
        by_cases hji : j = i
        · subst hji; exact h0
        · exact h3 j (by omega) hj2

theorem strchrNl_lt (buf : Nat → Nat) (n : Nat) (hn : buf n = 0) (fuel i e : Nat)
    (hi : i ≤ n) (h : strchrNl buf fuel i = some e) : e < n := by
  obtain ⟨h1, h2, h3⟩ := strchrNl_spec buf fuel i e h
  by_contra hlt
  have hne : e ≠ n := by
    intro he; subst he; rw [hn] at h2; cases h2
  exact h3 n hi (by omega) hn

theorem headerLoop_bound (buf : Nat → Nat) (n : Nat) (hn : buf n = 0) :
    ∀ fuel bol, bol ≤ n → (headerLoop buf fuel bol).1 = true →
      skipBreak buf (headerLoop buf fuel bol).2 ≤ n := by
  intro fuel
  induction fuel with
  | zero => intro bol _ h; simp [headerLoop] at h
  | succ f ih =>
    intro bol hb h
    unfold headerLoop at h ⊢
    rcases hs : strchrNl buf (PACKET_BUFFER_SIZE + 1 - bol) bol with _ | eol
    · rw [hs] at h; simp at h
    · rw [hs] at h
      simp only [] at h ⊢
      have hlt := strchrNl_lt buf n hn _ bol eol hb hs
      by_cases hc : (buf (eol + 1) = 13 ∧ buf (eol + 1 + 1) = 10) ∨ buf (eol + 1) = 10
      · rw [if_pos hc]
        simp only []
        unfold skipBreak
        have hne1 : eol + 1 ≠ n := by
          intro he
          rw [he, hn] at hc
          simp at hc
        by_cases h10 : buf (eol + 1) = 10
        · simp only [h10, ne_eq, not_true_eq_false, if_false]
          omega
        · simp only [ne_eq, h10, not_false_eq_true, if_true]
          have h2 : buf (eol + 1 + 1) = 10 := by
            rcases hc with hc | hc
            · exact hc.2
            · exact absurd hc h10
          have hne2 : eol + 1 + 1 ≠ n := by
            intro he
            rw [he, hn] at h2
            cases h2
          omega
      · rw [if_neg hc] at h ⊢
        exact ih (eol + 1) (by omega) h

theorem skipBreak_pos (buf : Nat → Nat) (b : Nat) : 1 ≤ skipBreak buf b := by
  unfold skipBreak
  split_ifs <;> omega

theorem bufRange_length (buf : Nat → Nat) (s n : Nat) : (bufRange buf s n).length = n := by
  simp [bufRange]

theorem firstBuffer_end (env : Env) (d : Bytes) : firstBuffer env d d.length = 0 := by
  simp [firstBuffer, bufSet]

theorem prepare_not_empty (r : Request) (http : Http) : (r.prepare http).isEmpty = false := by
  have hm : ∀ m : Method, methodToString m ≠ [] := by
    intro m; cases m <;> decide
  unfold Request.prepare
  simp only [writeFields_eq]
  rcases hmm : methodToString r.mMethod with _ | ⟨c, cs⟩
  · exact absurd hmm (hm _)
  · split_ifs <;> simp

theorem downloadAttempt_direct (env : Env) (http : Http) (request : Request) (writeTo : Bytes)
    (trace : Trace) (hc : http.mConnection = none) (hp : http.mProxy.empty = true)
    (hr : env.resolves http.mHost = true)
    (hco : (env.server http.mHost http.mPort).connectOk = true)
    (hso : (env.server http.mHost http.mPort).sendOk = true) :
    ∃ conn : HttpConnection,
      downloadAttempt env http request writeTo trace =
        match recvLoop env request (env.server http.mHost http.mPort).final
            (Loop.start env request conn Response.new writeTo trace)
            (env.server http.mHost http.mPort).reads with
        | LoopEnd.undefined => Attempt.undefined
        | LoopEnd.redirect l rest => redirectReturn env http request l rest
        | LoopEnd.exit l rest => finalReturn http request (afterLoop env l) rest := by
  have hpx : http.isProxied = false := by simp [Http.isProxied, hp]
  have hport : connectPort env http = http.mPort := by
    simp [connectPort, hpx, hp]
  refine ⟨?c, ?h⟩
  case h =>
    unfold downloadAttempt
    simp only [hr, Bool.not_true, Bool.false_eq_true, if_false, Http.connection, hc,
      newConnection, hpx, Bool.false_and, Bool.not_false, if_true]
    unfold connect
    simp only [HttpConnection.new, Bool.false_eq_true, if_false, hpx, Bool.false_and, hport, hco,
      Bool.not_true]
    unfold connected
    simp only [hpx, Bool.false_and, Bool.false_eq_true, if_false]
    unfold transfer
    simp only [prepare_not_empty, Bool.false_eq_true, if_false, TcpSocket.connectTo, hso,
      Bool.not_true]
    exact rfl

theorem splitRead_inside (l : Loop) (bol : Nat) (hb : bol ≤ l.readed)
    (hr : l.readed ≤ PACKET_BUFFER_SIZE) :
    ∃ l2 : Loop, splitRead l bol = some l2 ∧
      l2.headerBuffer = l.headerBuffer ++ bufRange l.buffer 0 bol ∧
      l2.received = l.received ∧ l2.redirectionCount = l.redirectionCount ∧
      l2.trace = l.trace ∧ l2.cancel = l.cancel := by
  have hlen : (l.readed + 2 ^ 64 - bol) % 2 ^ 64 = l.readed - bol := by
    have h1 : l.readed + 2 ^ 64 - bol = (l.readed - bol) + 2 ^ 64 := by omega
    rw [h1, Nat.add_mod_right]
    apply Nat.mod_eq_of_lt
    have : PACKET_BUFFER_SIZE = 16384 := rfl
    omega
  have hno : ¬ ((l.readed + 2 ^ 64 - bol) % 2 ^ 64 > 0 ∧
      bol + (l.readed + 2 ^ 64 - bol) % 2 ^ 64 > PACKET_BUFFER_SIZE + 1) := by
    rw [hlen]
    omega
  unfold splitRead
  rw [if_neg hno]
  exact ⟨_, rfl, rfl, rfl, rfl, rfl, rfl⟩

theorem headerPhase_first (env : Env) (request : Request) (l : Loop) (d h : Bytes)
    (hlen : l.len = 0) (hrd : l.readed = d.length) (hbuf : l.buffer = bufWrite env.stack d)
    (hhb : l.headerBuffer = []) (hh : headerOfFirstRead env d = some h) :
    ∃ l2 : Loop, l2.headerBuffer = h ∧ l2.received = l.received ∧
      l2.redirectionCount = l.redirectionCount ∧ l2.trace = l.trace ∧ l2.cancel = l.cancel ∧
      headerPhase env request l =
        if redirectWanted request (readHeader env l2) then
          Step.redirect (followRedirect (readHeader env l2))
        else bodyPhase env request (startBody (readHeader env l2)) := by
  unfold headerOfFirstRead at hh
  by_cases h1 : d.length > PACKET_BUFFER_SIZE
  · rw [if_pos h1] at hh; cases hh
  rw [if_neg h1] at hh
  by_cases h2 : firstBuffer env d 0 = 13 ∧ firstBuffer env d 1 = 10
  · rw [if_pos h2] at hh; cases hh
  rw [if_neg h2] at hh
  by_cases h3 : firstBuffer env d 0 = 10
  · rw [if_pos h3] at hh; cases hh
  rw [if_neg h3] at hh
  by_cases h4 : (headerLoop (firstBuffer env d) (PACKET_BUFFER_SIZE + 1) 0).1 = true
  swap
  · rw [if_neg h4] at hh; cases hh
  rw [if_pos h4] at hh
  simp only [Option.some.injEq] at hh
  have ht : terminateBuffer l = some { l with len := d.length, buffer := firstBuffer env d } := by
    unfold terminateBuffer
    rw [hlen, hrd, hbuf]
    simp only [Nat.zero_add, firstBuffer]
    rw [if_neg h1]
  have hbound := headerLoop_bound (firstBuffer env d) d.length (firstBuffer_end env d)
    (PACKET_BUFFER_SIZE + 1) 0 (Nat.zero_le _) h4
  obtain ⟨l2, hs, hb2, hr2, hc2, ht2, hca2⟩ :=
    splitRead_inside { l with len := d.length, buffer := firstBuffer env d }
      (skipBreak (firstBuffer env d) (headerLoop (firstBuffer env d) (PACKET_BUFFER_SIZE + 1) 0).2)
      (by show _ ≤ l.readed; rw [hrd]; exact hbound)
      (by show l.readed ≤ _; rw [hrd]; omega)
  have hb2' : l2.headerBuffer = h := by
    rw [hb2]
    show l.headerBuffer ++ _ = h
    rw [hhb, List.nil_append]
    exact hh
  have hne : l2.headerBuffer.isEmpty = false := by
    rw [hb2', ← hh]
    have hl := bufRange_length (firstBuffer env d) 0
      (skipBreak (firstBuffer env d) (headerLoop (firstBuffer env d) (PACKET_BUFFER_SIZE + 1) 0).2)
    have hp := skipBreak_pos (firstBuffer env d)
      (headerLoop (firstBuffer env d) (PACKET_BUFFER_SIZE + 1) 0).2
    rcases hbr : bufRange (firstBuffer env d) 0 (skipBreak (firstBuffer env d)
        (headerLoop (firstBuffer env d) (PACKET_BUFFER_SIZE + 1) 0).2) with _ | ⟨x, xs⟩
    · rw [hbr] at hl; simp at hl; omega
    · rfl
  refine ⟨l2, hb2', hr2, hc2, ht2, hca2, ?_⟩
  unfold headerPhase
  rw [ht]
  simp only [h2, h3, h4, if_false, if_true]
  unfold headerFound
  simp only [hs, hne, Bool.false_eq_true, if_false]
  split_ifs <;> rfl

theorem headerOfFirstRead_length (env : Env) (d h : Bytes)
    (hh : headerOfFirstRead env d = some h) : ¬ d.length > PACKET_BUFFER_SIZE := by
  intro h1
  unfold headerOfFirstRead at hh
  rw [if_pos h1] at hh
  cases hh

theorem parseFields_status (r : Response) (s : IStream) :
    (r.parseFields s).getStatus = r.getStatus := by
  unfold Response.parseFields
  split_ifs <;> rfl

theorem afterLoop_keeps (env : Env) (l : Loop) :
    (afterLoop env l).received.getStatus = l.received.getStatus ∧
      (afterLoop env l).redirectionCount = l.redirectionCount ∧
      (afterLoop env l).trace = l.trace := by
  unfold afterLoop noteDisconnect finalFlush trailingFields
  refine ⟨?_, ?_, ?_⟩
  · split_ifs <;> simp [Loop.inflateWrite, parseFields_status]
  · split_ifs <;> rfl
  · split_ifs <;> rfl

theorem bodyPhase_plain (env : Env) (request : Request) (l : Loop)
    (h : l.chunked = true → l.readed = 0) :
    ∃ l' : Loop, (bodyPhase env request l = Step.next l' ∨ bodyPhase env request l = Step.stop l') ∧
      l'.received = l.received ∧ l'.redirectionCount = l.redirectionCount ∧
      l'.trace.redirects = l.trace.redirects ∧ l'.trace.receives = l.trace.receives := by
  have hs : storeRead l = some
      { l with currentTotalBytes := l.currentTotalBytes + l.readed,
               fileBuffer := l.fileBuffer ++ bufRange l.buffer 0 l.readed } := by
    unfold storeRead
    by_cases hc : l.chunked = true
    · simp [hc, h hc]
    · simp [hc]
  have hfl : ∀ x : Loop, (flushStep env x).received = x.received ∧
      (flushStep env x).redirectionCount = x.redirectionCount ∧
      (flushStep env x).trace = x.trace := by
    intro x
    unfold flushStep
    split_ifs <;> exact ⟨rfl, rfl, rfl⟩
  have hcb : ∀ x : Loop, ∃ l' : Loop,
      (callbackStep request x = Step.next l' ∨ callbackStep request x = Step.stop l') ∧
      l'.received = x.received ∧ l'.redirectionCount = x.redirectionCount ∧
      l'.trace.redirects = x.trace.redirects ∧ l'.trace.receives = x.trace.receives := by
    intro x
    unfold callbackStep
    rcases request.mProgressCallback with _ | cb
    · exact ⟨x, Or.inl rfl, rfl, rfl, rfl, rfl⟩
    · simp only []
      split_ifs
      · exact ⟨_, Or.inr rfl, rfl, rfl, rfl, rfl⟩
      · exact ⟨_, Or.inl rfl, rfl, rfl, rfl, rfl⟩
  unfold bodyPhase
  rw [hs]
  simp only []
  obtain ⟨l', h1, h2, h3, h4, h5⟩ := hcb (flushStep env
    { l with currentTotalBytes := l.currentTotalBytes + l.readed,
             fileBuffer := l.fileBuffer ++ bufRange l.buffer 0 l.readed })
  have hf := hfl { l with currentTotalBytes := l.currentTotalBytes + l.readed,
                          fileBuffer := l.fileBuffer ++ bufRange l.buffer 0 l.readed }
  refine ⟨l', h1, ?_, ?_, ?_, ?_⟩
  · rw [h2, hf.1]
  · rw [h3, hf.2.1]
  · rw [h4, hf.2.2]
  · rw [h5, hf.2.2]

theorem singleReadAnswer_some (env : Env) (http : Http) (resp : Response)
    (h : singleReadAnswer env http = some resp) :
    http.mConnection = none ∧ http.mProxy.empty = true ∧ env.resolves http.mHost = true ∧
      (env.server http.mHost http.mPort).connectOk = true ∧
      (env.server http.mHost http.mPort).sendOk = true ∧
      ∃ d hd, (env.server http.mHost http.mPort).reads = [d] ∧
        headerOfFirstRead env d = some hd ∧ resp = Response.new.parse hd := by
  unfold singleReadAnswer at h
  split_ifs at h with hc
  simp only [Bool.and_eq_true, Option.isNone_iff_eq_none] at hc
  obtain ⟨⟨⟨⟨h1, h2⟩, h3⟩, h4⟩, h5⟩ := hc
  refine ⟨h1, h2, h3, h4, h5, ?_⟩
  split at h
  · rename_i d hreads
    rcases hh : headerOfFirstRead env d with _ | hd
    · rw [hh] at h; cases h
    · rw [hh] at h
      simp only [Option.map_some', Option.some.injEq] at h
      exact ⟨d, hd, hreads, hh, h.symm⟩
  · cases h

theorem recvLoop_first_redirect (env : Env) (request : Request) (final : SocketStatus)
    (conn : HttpConnection) (writeTo : Bytes) (trace : Trace) (d hd : Bytes)
    (hh : headerOfFirstRead env d = some hd) (hcancel : request.mCancel = false)
    (hst : (Response.new.parse hd).getStatus = Status.MovedPermanently)
    (hf : request.mFollowRedirect = true)
    (hlt : request.mRedirectionCount < request.mMaxRedirections) :
    ∃ l' : Loop,
      recvLoop env request final (Loop.start env request conn Response.new writeTo trace) [d] =
        LoopEnd.redirect l' [] ∧
      l'.received = Response.new.parse hd ∧
      l'.redirectionCount = request.mRedirectionCount + 1 ∧ l'.cancel = false ∧
      l'.trace.redirects = trace.redirects := by
  obtain ⟨l2, hb, hr, hc, ht, hca, hp⟩ := headerPhase_first env request
    ((Loop.start env request conn Response.new writeTo trace).receive d) d hd rfl rfl rfl rfl hh
  have hrec : (readHeader env l2).received = Response.new.parse hd := by
    show l2.received.parse l2.headerBuffer = _
    rw [hr, hb]
    rfl
  have hw : redirectWanted request (readHeader env l2) = true := by
    unfold redirectWanted
    rw [hrec, hst, hf]
    have : (readHeader env l2).redirectionCount = request.mRedirectionCount := by
      show l2.redirectionCount = _
      rw [hc]; rfl
    rw [this]
    simp [hlt]
  rw [if_pos hw] at hp
  refine ⟨followRedirect (readHeader env l2), ?_, hrec, ?_, ?_, ?_⟩
  · unfold recvLoop
    have hc0 : (Loop.start env request conn Response.new writeTo trace).cancel = false := hcancel
    simp only [hc0, Bool.false_eq_true, if_false, headerOfFirstRead_length env d hd hh]
    have hit : iteration env request
        ((Loop.start env request conn Response.new writeTo trace).receive d) =
        Step.redirect (followRedirect (readHeader env l2)) := by
      unfold iteration
      rw [← hp]
      rfl
    rw [hit]
  · show l2.redirectionCount + 1 = _
    rw [hc]; rfl
  · show l2.cancel = false
    rw [hca]; exact hcancel
  · show l2.trace.redirects = _
    rw [ht]; rfl

theorem recvLoop_first_final (env : Env) (request : Request) (final : SocketStatus)
    (conn : HttpConnection) (writeTo : Bytes) (trace : Trace) (d hd : Bytes)
    (hh : headerOfFirstRead env d = some hd) (hcancel : request.mCancel = false)
    (hge : ¬ request.mRedirectionCount < request.mMaxRedirections) :
    ∃ l' : Loop,
      recvLoop env request final (Loop.start env request conn Response.new writeTo trace) [d] =
        LoopEnd.exit l' [] ∧
      l'.received = Response.new.parse hd ∧
      l'.redirectionCount = request.mRedirectionCount ∧
      l'.trace.redirects = trace.redirects := by
  obtain ⟨l2, hb, hr, hc, ht, hca, hp⟩ := headerPhase_first env request
    ((Loop.start env request conn Response.new writeTo trace).receive d) d hd rfl rfl rfl rfl hh
  have hrec : (readHeader env l2).received = Response.new.parse hd := by
    show l2.received.parse l2.headerBuffer = _
    rw [hr, hb]
    rfl
  have hw : redirectWanted request (readHeader env l2) = false := by
    unfold redirectWanted
    have : (readHeader env l2).redirectionCount = request.mRedirectionCount := by
      show l2.redirectionCount = _
      rw [hc]; rfl
    rw [this]
    simp [hge]
  rw [hw] at hp
  simp only [Bool.false_eq_true, if_false] at hp
  obtain ⟨l3, hbp, h3r, h3c, h3t, _⟩ := bodyPhase_plain env request (startBody (readHeader env l2))
    (by
      intro hch
      show (if (readHeader env l2).chunked then 0 else (readHeader env l2).readed) = 0
      have : (readHeader env l2).chunked = true := hch
      rw [this]
      rfl)
  have hc0 : (Loop.start env request conn Response.new writeTo trace).cancel = false := hcancel
  have hit : iteration env request
      ((Loop.start env request conn Response.new writeTo trace).receive d) =
      bodyPhase env request (startBody (readHeader env l2)) := by
    unfold iteration
    rw [← hp]
    rfl
  have e1 : l3.received = Response.new.parse hd := by
    rw [h3r]; exact hrec
  have e2 : l3.redirectionCount = request.mRedirectionCount := by
    rw [h3c]
    show l2.redirectionCount = _
    rw [hc]; rfl
  have e3 : l3.trace.redirects = trace.redirects := by
    rw [h3t]
    show l2.trace.redirects = _
    rw [ht]; rfl
  rcases hbp with hbp | hbp
  · by_cases hcl : l3.cancel = true
    · refine ⟨l3, ?_, e1, e2, e3⟩
      unfold recvLoop
      simp only [hc0, Bool.false_eq_true, if_false, headerOfFirstRead_length env d hd hh]
      rw [hit, hbp]
      simp only []
      unfold recvLoop
      rw [if_pos hcl]
    · refine ⟨l3.receiveEnd final, ?_, e1, e2, e3⟩
      unfold recvLoop
      simp only [hc0, Bool.false_eq_true, if_false, headerOfFirstRead_length env d hd hh]
      rw [hit, hbp]
      simp only []
      unfold recvLoop
      rw [if_neg hcl]
  · refine ⟨l3, ?_, e1, e2, e3⟩
    unfold recvLoop
    simp only [hc0, Bool.false_eq_true, if_false, headerOfFirstRead_length env d hd hh]
    rw [hit, hbp]

theorem attempt_redirect (env : Env) (http : Http) (request : Request) (writeTo : Bytes)
    (trace : Trace) (resp : Response) (ha : singleReadAnswer env http = some resp)
    (hst : resp.getStatus = Status.MovedPermanently) (hcancel : request.mCancel = false)
    (hf : request.mFollowRedirect = true)
    (hlt : request.mRedirectionCount < request.mMaxRedirections) :
    ∃ r : Result,
      downloadAttempt env http request writeTo trace =
        Attempt.redirect r (redirectTarget env resp) ∧
      r.request.mFollowRedirect = true ∧
      r.request.mMaxRedirections = request.mMaxRedirections ∧
      r.request.mRedirectionCount = request.mRedirectionCount + 1 ∧
      r.request.mCancel = false ∧
      r.trace.redirects = (request.mRedirectionCount + 1) :: trace.redirects := by
  obtain ⟨h1, h2, h3, h4, h5, d, hd, hreads, hh, hresp⟩ := singleReadAnswer_some env http resp ha
  obtain ⟨conn, hda⟩ := downloadAttempt_direct env http request writeTo trace h1 h2 h3 h4 h5
  subst hresp
  obtain ⟨l', hl, e1, e2, e3, e4⟩ := recvLoop_first_redirect env request
    (env.server http.mHost http.mPort).final conn writeTo trace d hd hh hcancel hst hf hlt
  rw [hreads, hl] at hda
  simp only [redirectReturn, e1] at hda
  refine ⟨_, hda, hf, rfl, e2, e3, ?_⟩
  show l'.redirectionCount :: l'.trace.redirects = _
  rw [e2, e4]

theorem attempt_final (env : Env) (http : Http) (request : Request) (writeTo : Bytes)
    (trace : Trace) (resp : Response) (ha : singleReadAnswer env http = some resp)
    (hst : resp.getStatus = Status.MovedPermanently) (hcancel : request.mCancel = false)
    (hge : ¬ request.mRedirectionCount < request.mMaxRedirections) :
    ∃ r : Result,
      downloadAttempt env http request writeTo trace = Attempt.done r ∧
      r.response.getStatus = Status.MovedPermanently ∧
      r.request.mMaxRedirections = request.mMaxRedirections ∧
      r.request.mRedirectionCount = request.mRedirectionCount ∧
      r.trace.redirects = trace.redirects := by
  obtain ⟨h1, h2, h3, h4, h5, d, hd, hreads, hh, hresp⟩ := singleReadAnswer_some env http resp ha
  obtain ⟨conn, hda⟩ := downloadAttempt_direct env http request writeTo trace h1 h2 h3 h4 h5
  subst hresp
  obtain ⟨l', hl, e1, e2, e3⟩ := recvLoop_first_final env request
    (env.server http.mHost http.mPort).final conn writeTo trace d hd hh hcancel hge
  rw [hreads, hl] at hda
  simp only [finalReturn] at hda
  have hk := afterLoop_keeps env l'
  refine ⟨_, hda, ?_, rfl, ?_, ?_⟩
  · show (afterLoop env l').received.getStatus = _
    rw [hk.1, e1]; exact hst
  · show (afterLoop env l').redirectionCount = _
    rw [hk.2.1, e2]
  · show (afterLoop env l').trace.redirects = _
    rw [hk.2.2, e3]

theorem redirectsFrom_succ (env : Env) (n : Nat) (http last : Http)
    (h : redirectsFrom env (n + 1) http = some last) :
    ∃ resp, singleReadAnswer env http = some resp ∧
      resp.getStatus = Status.MovedPermanently ∧
      redirectsFrom env n (redirectTarget env resp) = some last := by
  unfold redirectsFrom at h
  rcases hs : singleReadAnswer env http with _ | resp
  · rw [hs] at h; cases h
  · rw [hs] at h
    simp only [] at h
    split_ifs at h with hc
    exact ⟨resp, rfl, hc.1, h⟩

theorem follow_chain (env : Env) (k : Nat) :
    ∀ (fuel : Nat) (http last : Http) (request : Request) (writeTo : Bytes) (trace : Trace),
      k + 1 ≤ fuel → redirectsFrom env (k + 1) http = some last →
      request.mFollowRedirect = true → request.mCancel = false →
      request.mRedirectionCount + k = request.mMaxRedirections →
      ∃ res : Result, downloadRequestFuel env fuel http request writeTo trace = some res ∧
        res.response.getStatus = Status.MovedPermanently ∧
        res.request.mRedirectionCount = request.mMaxRedirections ∧
        res.trace.redirects.length = trace.redirects.length + k ∧
        ∀ c ∈ res.trace.redirects, c ≤ request.mMaxRedirections ∨ c ∈ trace.redirects := by
  induction k with
  | zero =>
    intro fuel http last request writeTo trace hfuel hchain _ hcancel hcount
    obtain ⟨resp, hs, hst, _⟩ := redirectsFrom_succ env 0 http last hchain
    obtain ⟨r, hr, r1, _, r3, r4⟩ := attempt_final env http request writeTo trace resp hs hst
      hcancel (by omega)
    obtain ⟨f, rfl⟩ : ∃ f, fuel = f + 1 := ⟨fuel - 1, by omega⟩
    refine ⟨r, ?_, r1, by rw [r3]; omega, by rw [r4]; rfl, ?_⟩
    · unfold downloadRequestFuel
      rw [hr]
    · intro c hc
      rw [r4] at hc
      exact Or.inr hc
  | succ k ih =>
    intro fuel http last request writeTo trace hfuel hchain hf hcancel hcount
    obtain ⟨resp, hs, hst, hrest⟩ := redirectsFrom_succ env (k + 1) http last hchain
    obtain ⟨r, hr, r1, r2, r3, r4, r5⟩ := attempt_redirect env http request writeTo trace resp
      hs hst hcancel hf (by omega)
    obtain ⟨f, rfl⟩ : ∃ f, fuel = f + 1 := ⟨fuel - 1, by omega⟩
    obtain ⟨res, hres, s1, s2, s3, s4⟩ := ih f (redirectTarget env resp) last r.request r.sink
      r.trace (by omega) hrest r1 r4 (by rw [r3, r2]; omega)
    refine ⟨{ res with http := r.http }, ?_, s1, by rw [← r2]; exact s2, ?_, ?_⟩
    · unfold downloadRequestFuel
      rw [hr]
      simp only [hres]
    · show res.trace.redirects.length = _
      rw [s3, r5]
      simp only [List.length_cons]
      omega
    · intro c hc
      rcases s4 c hc with h1 | h1
      · left; rw [← r2]; exact h1
      · rw [r5] at h1
        simp only [List.mem_cons] at h1
        rcases h1 with h1 | h1
        · left; omega
        · right; exact h1

/-- The redirect budget when every server of the chain answers a new client
without proxy in one read that completes the header block (the delivery for
which the statement of C9 holds): given a chain of `N ≥ 1` such responses with
the status 301, each with a `Location` field, followed by a 200, and a request
that is not cancelled, with `followRedirect` set, `redirectionCount` 0 and
`maxRedirects = N - 1`: `downloadRequest` returns, the status of the response
it returns is 301, it followed exactly `N - 1` redirects, the request's
`redirectionCount` is `N - 1` afterwards, and no value the counter took
exceeds `maxRedirects`. -/
theorem redirect_budget (env : Env) (http : Http) (request : Request) (writeTo : Bytes)
    (N : Nat) (hN : 1 ≤ N) (hchain : redirectChain env N http = true)
    (hf : request.mFollowRedirect = true) (hcount : request.mRedirectionCount = 0)
    (hmax : request.mMaxRedirections = N - 1) (hcancel : request.mCancel = false) :
    ∃ res : Result, http.downloadRequest env request writeTo = some res ∧
      res.response.getStatus = Status.MovedPermanently ∧
      res.request.mRedirectionCount = N - 1 ∧
      res.trace.redirects.length = N - 1 ∧
      ∀ c ∈ res.trace.redirects, c ≤ request.mMaxRedirections := by
  obtain ⟨k, rfl⟩ : ∃ k, N = k + 1 := ⟨N - 1, by omega⟩
  obtain ⟨last, hlast⟩ : ∃ last, redirectsFrom env (k + 1) http = some last := by
    unfold redirectChain at hchain
    rcases hr : redirectsFrom env (k + 1) http with _ | last
    · rw [hr] at hchain; cases hchain
    · exact ⟨last, rfl⟩
  obtain ⟨res, h1, h2, h3, h4, h5⟩ := follow_chain env k
    (request.mMaxRedirections - request.mRedirectionCount + 1) http last request writeTo
    Trace.start (by rw [hmax, hcount]; omega) hlast hf hcancel (by rw [hmax, hcount]; omega)
  refine ⟨res, h1, h2, by rw [h3, hmax], ?_, ?_⟩
  · rw [h4]
    simp [Trace.start]
  · intro c hc
    rcases h5 c hc with h | h
    · exact h
    · simp [Trace.start] at h

/-- An instance of `redirect_budget`: three servers `a`, `b`, `c`; `a` and `b`
answer 301 with the location of the next one, each in one read, `c` answers
200; `maxRedirects` is 1. -/
theorem redirect_budget_witness :
    1 ≤ 2 ∧ redirectChain chainEnv 2 chainClient = true ∧
      chainRequest.mFollowRedirect = true ∧ chainRequest.mRedirectionCount = 0 ∧
      chainRequest.mMaxRedirections = 2 - 1 ∧ chainRequest.mCancel = false ∧
      ∃ res : Result, chainClient.downloadRequest chainEnv chainRequest [] = some res ∧
        res.response.getStatus = Status.MovedPermanently ∧
        res.request.mRedirectionCount = 2 - 1 ∧
        res.trace.redirects.length = 2 - 1 ∧
        ∀ c ∈ res.trace.redirects, c ≤ chainRequest.mMaxRedirections :=
  ⟨by decide, by decide, by decide, by decide, by decide, by decide,
    redirect_budget chainEnv chainClient chainRequest [] 2 (by decide) (by decide) (by decide)
      (by decide) (by decide) (by decide)⟩

theorem strLt_irrefl (a : Bytes) : strLt a a = false := by
  induction a with
  | nil => rfl
  | cons x xs ih => simp [strLt, ih]

theorem strLt_trans : ∀ (a b c : Bytes), strLt a b = true → strLt b c = true →
    strLt a c = true := by
  intro a
  induction a with
  | nil =>
    intro b c h1 h2
    cases b with
    | nil => simp [strLt] at h1
    | cons y ys =>
      cases c with
      | nil => simp [strLt] at h2
      | cons z zs => simp [strLt]
  | cons x xs ih =>
    intro b c h1 h2
    cases b with
    | nil => simp [strLt] at h1
    | cons y ys =>
      cases c with
      | nil => simp [strLt] at h2
      | cons z zs =>
        simp only [strLt] at h1 h2 ⊢
        by_cases hxy : x < y
        · by_cases hyz : y < z
          · have : x < z := by omega
            simp [this]
          · by_cases hzy : z < y
            · simp [hyz, hzy] at h2
            · have : x < z := by omega
              simp [this]
        · by_cases hyx : y < x
          · simp [hxy, hyx] at h1
          · have hxy' : x = y := by omega
            subst hxy'
            simp only [hxy, if_false] at h1
            by_cases hxz : x < z
            · simp [hxz]
            · by_cases hzx : z < x
              · simp [hxz, hzx] at h2
              · simp only [hxz, hzx, if_false] at h2 ⊢
                exact ih ys zs h1 h2

theorem strLt_total : ∀ (a b : Bytes), a ≠ b → strLt a b = false → strLt b a = true := by
  intro a
  induction a with
  | nil =>
    intro b h1 h2
    cases b with
    | nil => exact absurd rfl h1
    | cons y ys => simp [strLt] at h2
  | cons x xs ih =>
    intro b h1 h2
    cases b with
    | nil => simp [strLt]
    | cons y ys =>
      simp only [strLt] at h2 ⊢
      by_cases hxy : x < y
      · simp [hxy] at h2
      · by_cases hyx : y < x
        · simp [hyx]
        · have hxy' : x = y := by omega
          subst hxy'
          simp only [hxy, if_false] at h2 ⊢
          exact ih ys (fun h => h1 (by rw [h])) h2

theorem find_assign_self (t : FieldTable) (k v : Bytes) : (t.assign k v).find k = some v := by
  induction t with
  | nil => simp [FieldTable.assign, FieldTable.find]
  | cons e rest ih =>
    obtain ⟨k', v'⟩ := e
    unfold FieldTable.assign
    by_cases h1 : k = k'
    · simp [h1, FieldTable.find]
    · simp only [h1, if_false]
      by_cases h2 : strLt k k' = true
      · simp [h2, FieldTable.find]
      · simp only [h2, Bool.false_eq_true, if_false, FieldTable.find, h1]
        exact ih

theorem find_assign_other (t : FieldTable) (k v k2 : Bytes) (h : k2 ≠ k) :
    (t.assign k v).find k2 = t.find k2 := by
  induction t with
  | nil => simp [FieldTable.assign, FieldTable.find, h]
  | cons e rest ih =>
    obtain ⟨k', v'⟩ := e
    unfold FieldTable.assign
    by_cases h1 : k = k'
    · subst h1
      simp [FieldTable.find, h]
    · simp only [h1, if_false]
      by_cases h2 : strLt k k' = true
      · simp [h2, FieldTable.find, h]
      · simp only [h2, Bool.false_eq_true, if_false, FieldTable.find]
        rw [ih]

theorem mem_assign (t : FieldTable) (k v : Bytes) (e : Bytes × Bytes)
    (h : e ∈ t.assign k v) : e = (k, v) ∨ e ∈ t := by
  induction t with
  | nil => simpa [FieldTable.assign] using h
  | cons e0 rest ih =>
    obtain ⟨k', v'⟩ := e0
    unfold FieldTable.assign at h
    by_cases h1 : k = k'
    · simp only [h1, if_true, List.mem_cons] at h
      rcases h with h | h
      · left; rw [h, h1]
      · right; exact List.mem_cons_of_mem _ h
    · simp only [h1, if_false] at h
      by_cases h2 : strLt k k' = true
      · simp only [h2, if_true, List.mem_cons] at h
        rcases h with h | h | h
        · left; exact h
        · right; rw [h]; exact List.mem_cons_self _ _
        · right; exact List.mem_cons_of_mem _ h
      · simp only [h2, Bool.false_eq_true, if_false, List.mem_cons] at h
        rcases h with h | h
        · right; rw [h]; exact List.mem_cons_self _ _
        · rcases ih h with h | h
          · left; exact h
          · right; exact List.mem_cons_of_mem _ h

theorem assign_sorted (t : FieldTable) (k v : Bytes) (hs : t.Sorted) :
    (t.assign k v).Sorted := by
  induction t with
  | nil => simp [FieldTable.assign, FieldTable.Sorted]
  | cons e0 rest ih =>
    obtain ⟨k', v'⟩ := e0
    unfold FieldTable.Sorted at hs ⊢
    rw [List.pairwise_cons] at hs
    unfold FieldTable.assign
    by_cases h1 : k = k'
    · subst h1
      simp only [if_true]
      rw [List.pairwise_cons]
      exact ⟨hs.1, hs.2⟩
    · simp only [h1, if_false]
      by_cases h2 : strLt k k' = true
      · simp only [h2, if_true]
        rw [List.pairwise_cons, List.pairwise_cons]
        refine ⟨?_, hs.1, hs.2⟩
        intro e he
        simp only [List.mem_cons] at he
        rcases he with he | he
        · rw [he]; exact h2
        · exact strLt_trans _ _ _ h2 (hs.1 e he)
      · simp only [h2, Bool.false_eq_true, if_false]
        rw [List.pairwise_cons]
        refine ⟨?_, ih hs.2⟩
        intro e he
        rcases mem_assign rest k v e he with he | he
        · rw [he]
          exact strLt_total k k' h1 (by simpa using h2)
        · exact hs.1 e he

theorem count_zero_of_lt (t : FieldTable) (k : Bytes)
    (h : ∀ e ∈ t, strLt k e.1 = true) : t.count k = 0 := by
  unfold FieldTable.count
  rw [List.countP_eq_zero]
  intro e he
  have := h e he
  intro heq
  simp only [beq_iff_eq] at heq
  rw [heq, strLt_irrefl] at this
  cases this

theorem count_assign (t : FieldTable) (k v : Bytes) (hs : t.Sorted) :
    (t.assign k v).count k = 1 := by
  induction t with
  | nil => simp [FieldTable.assign, FieldTable.count]
  | cons e0 rest ih =>
    obtain ⟨k', v'⟩ := e0
    unfold FieldTable.Sorted at hs
    rw [List.pairwise_cons] at hs
    unfold FieldTable.assign
    by_cases h1 : k = k'
    · subst h1
      simp only [if_true]
      have := count_zero_of_lt rest k hs.1
      unfold FieldTable.count at this ⊢
      simp [List.countP_cons, this]
    · simp only [h1, if_false]
      by_cases h2 : strLt k k' = true
      · simp only [h2, if_true]
        have h0 := count_zero_of_lt rest k
          (fun e he => strLt_trans _ _ _ h2 (hs.1 e he))
        unfold FieldTable.count at h0 ⊢
        have hne : (k' == k) = false := by
          simp only [beq_eq_false_iff_ne, ne_eq]
          exact fun h => h1 h.symm
        simp [List.countP_cons, h0, hne]
      · simp only [h2, Bool.false_eq_true, if_false]
        have := ih hs.2
        unfold FieldTable.count at this ⊢
        have hne : (k' == k) = false := by
          simp only [beq_eq_false_iff_ne, ne_eq]
          exact fun h => h1 h.symm
        simp [List.countP_cons, this, hne]

/-- C12: after constructing a `Request` with uri `u` or calling `setUri(u)`, the
path is not empty and begins with `/`; it is `u` when `u` begins with `/` and
`"/" ++ u` otherwise; `setUri(getUri())` leaves the path unchanged. -/
theorem setUri_path_invariant (r : Request) (u body : Bytes) (m : Method)
    (b1 b2 b3 b4 : Bool) :
    (r.setUri u).mUri ≠ [] ∧
    (r.setUri u).mUri.head? = some 47 ∧
    (r.setUri u).mUri = (if u.head? = some 47 then u else str "/" ++ u) ∧
    (r.setUri []).mUri = str "/" ∧
    (Request.new u m body b1 b2 b3 b4).mUri = (r.setUri u).mUri ∧
    ((r.setUri u).setUri (r.setUri u).mUri).mUri = (r.setUri u).mUri := by
  have hstr : str "/" = [47] := by decide
  rw [hstr]
  cases u with
  | nil => simp [Request.setUri, Request.new, Request.setMethod, Request.setHttpVersion,
      Request.setBody]
  | cons c cs =>
    by_cases hc : c = 47
    · subst hc
      simp [Request.setUri, Request.new, Request.setMethod, Request.setHttpVersion,
        Request.setBody]
    · simp [Request.setUri, Request.new, Request.setMethod, Request.setHttpVersion,
        Request.setBody, hc]

/-- C17: for the request `Request("/", Get)` with `setHttpVersion(0, 11)` and no
`Connection` field, whose version 0.11 is lower than 1.1, `prepareFields` adds
the field `connection: close`. -/
theorem prepareFields_old_version_close :
    oldVersionRequest.mMajorVersion = 0 ∧ oldVersionRequest.mMinorVersion = 11 ∧
    oldVersionRequest.hasField (str "Connection") = false ∧
    ((exampleClient true).prepareFields oldVersionRequest).hasField (str "Connection") = true ∧
    ((exampleClient true).prepareFields oldVersionRequest).getField (str "Connection") =
      str "close" := by
  refine ⟨by decide, by decide, by decide, by decide, by decide⟩

/-- C20: the client `Http("a//", 80)` holds a connection after a request and has
the host name `a/`; the call `setHost("a/", 80, false, URI())` changes the host
name to `a`, so the triple differs, and the client still holds the connection. -/
theorem setHost_keeps_connection :
    (hostScenarioClient.map (fun h => (h.triple, h.mConnection.isSome))) =
      some ((str "a/", 80, false), true) ∧
    (hostScenarioClient.map (fun h =>
      ((Http.setHost true h (str "a/") 80 false URI.none).triple,
       (Http.setHost true h (str "a/") 80 false URI.none).mConnection.isSome))) =
      some ((str "a", 80, false), true) := by
  refine ⟨by decide, by decide⟩

theorem toLowerByte_idem (c : Nat) : toLowerByte (toLowerByte c) = toLowerByte c := by
  unfold toLowerByte
  split_ifs <;> first | rfl | omega

theorem toLower_idem (s : Bytes) : toLower (toLower s) = toLower s := by
  unfold toLower
  rw [List.map_map]
  apply List.map_congr_left
  intro c _
  exact toLowerByte_idem c

theorem find_assign (t : FieldTable) (k v k2 : Bytes) :
    (t.assign k v).find k2 = if k2 = k then some v else t.find k2 := by
  by_cases h : k2 = k
  · rw [if_pos h, h]; exact find_assign_self t k v
  · rw [if_neg h]; exact find_assign_other t k v k2 h

theorem assign_lowerKeys (t : FieldTable) (k v : Bytes) (hl : t.LowerKeys)
    (hk : toLower k = k) : (t.assign k v).LowerKeys := by
  intro e he
  rcases mem_assign t k v e he with h | h
  · rw [h]; exact hk
  · exact hl e h

theorem setField_sorted (r : Request) (f v : Bytes) (hs : r.mFields.Sorted) :
    (r.setField f v).mFields.Sorted :=
  assign_sorted r.mFields (toLower f) v hs

theorem setField_lowerKeys (r : Request) (f v : Bytes) (hl : r.mFields.LowerKeys) :
    (r.setField f v).mFields.LowerKeys :=
  assign_lowerKeys r.mFields (toLower f) v hl (toLower_idem f)

theorem new_fields_valid (u body : Bytes) (m : Method) (b1 b2 b3 b4 : Bool) :
    (Request.new u m body b1 b2 b3 b4).mFields.Sorted ∧
    (Request.new u m body b1 b2 b3 b4).mFields.LowerKeys := by
  constructor
  · simp [Request.new, Request.setMethod, Request.setUri, Request.setHttpVersion,
      Request.setBody, FieldTable.Sorted]
  · intro e he
    simp [Request.new, Request.setMethod, Request.setUri, Request.setHttpVersion,
      Request.setBody] at he

theorem countName_eq_count (t : FieldTable) (f : Bytes) (hl : t.LowerKeys) :
    t.countName f = t.count (toLower f) := by
  unfold FieldTable.countName FieldTable.count
  apply List.countP_congr
  intro e he
  rw [hl e he]

theorem getField_setField (r : Request) (f v n : Bytes) :
    (r.setField f v).getField n = if toLower n = toLower f then v else r.getField n := by
  unfold Request.getField Request.setField
  simp only [find_assign]
  split_ifs <;> rfl

theorem hasField_setField (r : Request) (f v n : Bytes) :
    (r.setField f v).hasField n = if toLower n = toLower f then true else r.hasField n := by
  unfold Request.hasField Request.setField
  simp only [find_assign]
  split_ifs <;> rfl

/-- C11: the fields of a request are a case-insensitive, last-write-wins map.
After `setField(f, v1)` and `setField(g, v2)` with `g` equal to `f` ignoring
case, every name `h` equal to `f` ignoring case is present with the value `v2`,
the table holds exactly one entry for that name, and the presence and value of
every other name are as before. -/
theorem setField_last_write_wins (r : Request) (f g v1 v2 : Bytes)
    (hs : r.mFields.Sorted) (hl : r.mFields.LowerKeys) (hfg : toLower g = toLower f) :
    (∀ h, toLower h = toLower f →
      ((r.setField f v1).setField g v2).hasField h = true ∧
      ((r.setField f v1).setField g v2).getField h = v2) ∧
    ((r.setField f v1).setField g v2).mFields.countName f = 1 ∧
    (∀ h, toLower h ≠ toLower f →
      ((r.setField f v1).setField g v2).hasField h = r.hasField h ∧
      ((r.setField f v1).setField g v2).getField h = r.getField h) := by
  refine ⟨?_, ?_, ?_⟩
  · intro h hh
    rw [hasField_setField, getField_setField, hfg, if_pos hh, if_pos hh]
    exact ⟨rfl, rfl⟩
  · rw [countName_eq_count _ _
      (setField_lowerKeys _ g v2 (setField_lowerKeys r f v1 hl))]
    show ((r.mFields.assign (toLower f) v1).assign (toLower g) v2).count (toLower f) = 1
    rw [hfg]
    exact count_assign _ _ _ (assign_sorted _ _ _ hs)
  · intro h hh
    rw [hasField_setField, getField_setField, hfg, if_neg hh, if_neg hh,
      hasField_setField, getField_setField, if_neg hh, if_neg hh]
    exact ⟨rfl, rfl⟩

/-- Witness for C11 (`setField_last_write_wins`): the request `Request("/", Get)`
with `setField("Host", "a")` followed by `setField("HOST", "b")`. -/
theorem setField_last_write_wins_witness :
    (exampleRequest.setField (str "User-Agent") (str "x")).mFields.Sorted ∧
    ((∀ h, toLower h = toLower (str "Host") →
      (((exampleRequest.setField (str "User-Agent") (str "x")).setField (str "Host")
          (str "a")).setField (str "HOST") (str "b")).hasField h = true ∧
      (((exampleRequest.setField (str "User-Agent") (str "x")).setField (str "Host")
          (str "a")).setField (str "HOST") (str "b")).getField h = str "b") ∧
    (((exampleRequest.setField (str "User-Agent") (str "x")).setField (str "Host")
          (str "a")).setField (str "HOST") (str "b")).mFields.countName (str "Host") = 1 ∧
    (∀ h, toLower h ≠ toLower (str "Host") →
      (((exampleRequest.setField (str "User-Agent") (str "x")).setField (str "Host")
          (str "a")).setField (str "HOST") (str "b")).hasField h =
        (exampleRequest.setField (str "User-Agent") (str "x")).hasField h ∧
      (((exampleRequest.setField (str "User-Agent") (str "x")).setField (str "Host")
          (str "a")).setField (str "HOST") (str "b")).getField h =
        (exampleRequest.setField (str "User-Agent") (str "x")).getField h)) :=
  ⟨setField_sorted _ _ _ (new_fields_valid _ _ _ _ _ _ _).1,
   setField_last_write_wins (exampleRequest.setField (str "User-Agent") (str "x"))
    (str "Host") (str "HOST") (str "a") (str "b")
    (setField_sorted _ _ _ (new_fields_valid _ _ _ _ _ _ _).1)
    (setField_lowerKeys _ _ _ (new_fields_valid _ _ _ _ _ _ _).2)
    (by decide)⟩

theorem ite_setField_find (c : Prop) [Decidable c] (r : Request) (f v k : Bytes) :
    (if c then r.setField f v else r).mFields.find k =
      if c ∧ k = toLower f then some v else r.mFields.find k := by
  by_cases hc : c
  · simp only [hc, if_true, true_and, Request.setField, find_assign]
  · simp only [hc, if_false, false_and]

theorem ite_setField_members (c : Prop) [Decidable c] (r : Request) (f v : Bytes) :
    (if c then r.setField f v else r).mMethod = r.mMethod ∧
    (if c then r.setField f v else r).mUri = r.mUri ∧
    (if c then r.setField f v else r).mMajorVersion = r.mMajorVersion ∧
    (if c then r.setField f v else r).mMinorVersion = r.mMinorVersion ∧
    (if c then r.setField f v else r).mBody = r.mBody := by
  by_cases hc : c
  · rw [if_pos hc]; exact ⟨rfl, rfl, rfl, rfl, rfl⟩
  · rw [if_neg hc]; exact ⟨rfl, rfl, rfl, rfl, rfl⟩

theorem ite_setField_mMethod (c : Prop) [Decidable c] (r : Request) (f v : Bytes) :
    (if c then r.setField f v else r).mMethod = r.mMethod :=
  (ite_setField_members c r f v).1

theorem ite_setField_mUri (c : Prop) [Decidable c] (r : Request) (f v : Bytes) :
    (if c then r.setField f v else r).mUri = r.mUri :=
  (ite_setField_members c r f v).2.1

theorem ite_setField_mMajorVersion (c : Prop) [Decidable c] (r : Request) (f v : Bytes) :
    (if c then r.setField f v else r).mMajorVersion = r.mMajorVersion :=
  (ite_setField_members c r f v).2.2.1

theorem ite_setField_mMinorVersion (c : Prop) [Decidable c] (r : Request) (f v : Bytes) :
    (if c then r.setField f v else r).mMinorVersion = r.mMinorVersion :=
  (ite_setField_members c r f v).2.2.2.1

theorem ite_setField_mBody (c : Prop) [Decidable c] (r : Request) (f v : Bytes) :
    (if c then r.setField f v else r).mBody = r.mBody :=
  (ite_setField_members c r f v).2.2.2.2

theorem prepareFields_members (h : Http) (r : Request) (hp : h.mProxy.empty = true) :
    (h.prepareFields r).mMethod = r.mMethod ∧ (h.prepareFields r).mUri = r.mUri ∧
    (h.prepareFields r).mMajorVersion = r.mMajorVersion ∧
    (h.prepareFields r).mMinorVersion = r.mMinorVersion ∧
    (h.prepareFields r).mBody = r.mBody := by
  unfold Http.prepareFields
  simp only [hp, Bool.not_true, Bool.false_eq_true, if_false, ite_setField_mMethod,
    ite_setField_mUri, ite_setField_mMajorVersion, ite_setField_mMinorVersion,
    ite_setField_mBody, and_self]

theorem prepareFields_find (h : Http) (r : Request) (hp : h.mProxy.empty = true)
    (k : Bytes) :
    (h.prepareFields r).mFields.find k =
      if r.mCompressedResponse = true ∧ k = str "accept-encoding" then some (str "gzip, deflate")
      else if ((r.mMajorVersion * 10 + r.mMinorVersion) % 2 ^ 32 ≥ 11 ∧
          (r.mFields.find (str "connection")).isSome = false) ∧ k = str "connection" then
        some (str "close")
      else if (r.mMethod = Method.Post ∧
          (r.mFields.find (str "content-type")).isSome = false) ∧ k = str "content-type" then
        some (str "application/x-www-form-urlencoded")
      else if (r.mFields.find (str "content-length")).isSome = false ∧
          k = str "content-length" then some (decimal r.mBody.length)
      else if (r.mFields.find (str "host")).isSome = false ∧ k = str "host" then
        some h.mHostName
      else if (r.mFields.find (str "user-agent")).isSome = false ∧ k = str "user-agent" then
        some (str "eepp-network")
      else r.mFields.find k := by
  have e1 : toLower (str "User-Agent") = str "user-agent" := by decide
  have e2 : toLower (str "Host") = str "host" := by decide
  have e3 : toLower (str "Content-Length") = str "content-length" := by decide
  have e4 : toLower (str "Content-Type") = str "content-type" := by decide
  have e5 : toLower (str "Connection") = str "connection" := by decide
  have e6 : toLower (str "Accept-Encoding") = str "accept-encoding" := by decide
  have n1 : ¬ (str "host" = str "user-agent") := by decide
  have n2 : ¬ (str "content-length" = str "user-agent") := by decide
  have n3 : ¬ (str "content-length" = str "host") := by decide
  have n4 : ¬ (str "content-type" = str "user-agent") := by decide
  have n5 : ¬ (str "content-type" = str "host") := by decide
  have n6 : ¬ (str "content-type" = str "content-length") := by decide
  have n7 : ¬ (str "connection" = str "user-agent") := by decide
  have n8 : ¬ (str "connection" = str "host") := by decide
  have n9 : ¬ (str "connection" = str "content-length") := by decide
  have n10 : ¬ (str "connection" = str "content-type") := by decide
  unfold Http.prepareFields
  simp only [hp, Bool.not_true, Bool.false_eq_true, if_false, Request.hasField,
    ite_setField_find, ite_setField_mMethod, ite_setField_mMajorVersion,
    ite_setField_mMinorVersion, ite_setField_mBody, e1, e2, e3, e4, e5, e6, n1, n2, n3, n4,
    n5, n6, n7, n8, n9, n10, and_false, Bool.and_eq_true, Bool.not_eq_true', decide_eq_true_eq]

theorem hasField_find (r : Request) (n : Bytes) :
    r.hasField n = (r.mFields.find (toLower n)).isSome := rfl

theorem getField_find (r : Request) (n : Bytes) :
    r.getField n = (r.mFields.find (toLower n)).getD [] := by
  unfold Request.getField
  cases r.mFields.find (toLower n) <;> rfl

/-- C16: on a client without proxy, `prepareFields` keeps the method, path,
version and body; `User-Agent`, `Host`, `Content-Length` and `Content-Type`
keep the value the caller set under any letter case, and are otherwise
`eepp-network`, the host name of the client, the decimal length of the body,
and (for the method POST only, absent otherwise) the form-encoded type;
`Accept-Encoding` is `gzip, deflate` when compression is requested. -/
theorem prepareFields_defaults (h : Http) (r : Request) (hp : h.mProxy.empty = true) :
    ((h.prepareFields r).mMethod = r.mMethod ∧ (h.prepareFields r).mUri = r.mUri ∧
      (h.prepareFields r).mMajorVersion = r.mMajorVersion ∧
      (h.prepareFields r).mMinorVersion = r.mMinorVersion ∧
      (h.prepareFields r).mBody = r.mBody) ∧
    (∀ n, toLower n = toLower (str "User-Agent") →
      (h.prepareFields r).hasField n = true ∧
      (h.prepareFields r).getField n =
        if r.hasField n then r.getField n else str "eepp-network") ∧
    (∀ n, toLower n = toLower (str "Host") →
      (h.prepareFields r).hasField n = true ∧
      (h.prepareFields r).getField n = if r.hasField n then r.getField n else h.mHostName) ∧
    (∀ n, toLower n = toLower (str "Content-Length") →
      (h.prepareFields r).hasField n = true ∧
      (h.prepareFields r).getField n =
        if r.hasField n then r.getField n else decimal r.mBody.length) ∧
    (∀ n, toLower n = toLower (str "Content-Type") →
      (h.prepareFields r).hasField n = (r.hasField n || decide (r.mMethod = Method.Post)) ∧
      (h.prepareFields r).getField n =
        if r.hasField n then r.getField n
        else if r.mMethod = Method.Post then str "application/x-www-form-urlencoded"
        else []) ∧
    (r.mCompressedResponse = true →
      (h.prepareFields r).hasField (str "Accept-Encoding") = true ∧
      (h.prepareFields r).getField (str "Accept-Encoding") = str "gzip, deflate") := by
  have e1 : toLower (str "User-Agent") = str "user-agent" := by decide
  have e2 : toLower (str "Host") = str "host" := by decide
  have e3 : toLower (str "Content-Length") = str "content-length" := by decide
  have e4 : toLower (str "Content-Type") = str "content-type" := by decide
  have e6 : toLower (str "Accept-Encoding") = str "accept-encoding" := by decide
  have m1 : ¬ (str "user-agent" = str "accept-encoding") := by decide
  have m2 : ¬ (str "user-agent" = str "connection") := by decide
  have m3 : ¬ (str "user-agent" = str "content-type") := by decide
  have m4 : ¬ (str "user-agent" = str "content-length") := by decide
  have m5 : ¬ (str "user-agent" = str "host") := by decide
  have m6 : ¬ (str "host" = str "accept-encoding") := by decide
  have m7 : ¬ (str "host" = str "connection") := by decide
  have m8 : ¬ (str "host" = str "content-type") := by decide
  have m9 : ¬ (str "host" = str "content-length") := by decide
  have m10 : ¬ (str "content-length" = str "accept-encoding") := by decide
  have m11 : ¬ (str "content-length" = str "connection") := by decide
  have m12 : ¬ (str "content-length" = str "content-type") := by decide
  have m13 : ¬ (str "content-type" = str "accept-encoding") := by decide
  have m14 : ¬ (str "content-type" = str "connection") := by decide
  have m15 : ¬ (str "host" = str "user-agent") := by decide
  have m16 : ¬ (str "content-length" = str "user-agent") := by decide
  have m17 : ¬ (str "content-length" = str "host") := by decide
  have m18 : ¬ (str "content-type" = str "user-agent") := by decide
  have m19 : ¬ (str "content-type" = str "host") := by decide
  have m20 : ¬ (str "content-type" = str "content-length") := by decide
  refine ⟨prepareFields_members h r hp, ?_, ?_, ?_, ?_, ?_⟩
  · intro n hn
    rw [e1] at hn
    simp only [hasField_find, getField_find, prepareFields_find h r hp, hn, m1, m2, m3, m4,
      m5, and_false, if_false, and_true]
    cases r.mFields.find (str "user-agent") <;> simp
  · intro n hn
    rw [e2] at hn
    simp only [hasField_find, getField_find, prepareFields_find h r hp, hn, m6, m7, m8, m9,
      m15, and_false, if_false, and_true]
    cases r.mFields.find (str "host") <;> simp
  · intro n hn
    rw [e3] at hn
    simp only [hasField_find, getField_find, prepareFields_find h r hp, hn, m10, m11, m12,
      m16, m17, and_false, if_false, and_true]
    cases r.mFields.find (str "content-length") <;> simp
  · intro n hn
    rw [e4] at hn
    simp only [hasField_find, getField_find, prepareFields_find h r hp, hn, m13, m14, m18,
      m19, m20, and_false, if_false, and_true]
    cases r.mFields.find (str "content-type") <;> by_cases hm : r.mMethod = Method.Post <;>
      simp [hm]
  · intro hc
    simp only [hasField_find, getField_find, prepareFields_find h r hp, hc, e6, and_self,
      if_true]
    exact ⟨rfl, rfl⟩

/-- Witness for C16 (`prepareFields_defaults`): the client `Http("example.com",
80)` without proxy and the request `Request("/", Get)`. -/
theorem prepareFields_defaults_witness :
    (exampleClient true).mProxy.empty = true ∧
    ((exampleClient true).prepareFields exampleRequest).getField (str "HOST") =
      str "example.com" :=
  ⟨by decide,
   by
    have h := ((prepareFields_defaults (exampleClient true) exampleRequest (by decide)).2.2.1
      (str "HOST") (by decide)).2
    rw [h]
    decide⟩

theorem getlines_line (l rest : Bytes) (h : 10 ∉ l) :
    getlines (l ++ 10 :: rest) = l :: getlines rest := by
  induction l with
  | nil => simp [getlines]
  | cons c cs ih =>
    have hc : c ≠ 10 := fun e => h (by rw [e]; exact List.mem_cons_self _ _)
    have hcs : 10 ∉ cs := fun e => h (List.mem_cons_of_mem _ e)
    show getlines (c :: (cs ++ 10 :: rest)) = _
    rw [getlines, if_neg hc, ih hcs]

theorem getlines_last (l : Bytes) (h : 10 ∉ l) (hne : l ≠ []) : getlines l = [l] := by
  induction l with
  | nil => exact absurd rfl hne
  | cons c cs ih =>
    have hc : c ≠ 10 := fun e => h (by rw [e]; exact List.mem_cons_self _ _)
    have hcs : 10 ∉ cs := fun e => h (List.mem_cons_of_mem _ e)
    rw [getlines, if_neg hc]
    cases cs with
    | nil => simp [getlines]
    | cons d ds => rw [ih hcs (by simp)]

theorem getlines_joinLines_append (ls : List Bytes) (rest : Bytes)
    (h : ∀ l ∈ ls, 10 ∉ l) :
    getlines (joinLines true ls ++ rest) = ls ++ getlines rest := by
  induction ls with
  | nil => simp [joinLines]
  | cons l ls ih =>
    have h1 : 10 ∉ l := h l (List.mem_cons_self _ _)
    have h2 : ∀ x ∈ ls, 10 ∉ x := fun x hx => h x (List.mem_cons_of_mem _ hx)
    simp only [joinLines, Bool.not_true, Bool.and_false, Bool.false_eq_true, if_false,
      List.append_assoc, List.cons_append]
    rw [getlines_line _ _ h1, ih h2]

theorem getlines_nil : getlines [] = [] := by simp [getlines]

theorem getlines_joinLines (t : Bool) (ls : List Bytes)
    (h : ∀ l ∈ ls, 10 ∉ l) (hne : ∀ l ∈ ls, l ≠ []) :
    getlines (joinLines t ls) = ls := by
  induction ls with
  | nil => simp [joinLines, getlines]
  | cons l ls ih =>
    have h1 : 10 ∉ l := h l (List.mem_cons_self _ _)
    have h2 : ∀ x ∈ ls, 10 ∉ x := fun x hx => h x (List.mem_cons_of_mem _ hx)
    have h3 : ∀ x ∈ ls, x ≠ [] := fun x hx => hne x (List.mem_cons_of_mem _ hx)
    unfold joinLines
    by_cases hc : (ls.isEmpty && !t) = true
    · rw [if_pos hc]
      simp only [Bool.and_eq_true, List.isEmpty_iff] at hc
      rw [hc.1]
      exact getlines_last l h1 (hne l (List.mem_cons_self _ _))
    · rw [if_neg hc, getlines_line _ _ h1, ih h2 h3]

theorem findSub_sep (a b : Bytes) (h : containsBytes fieldSep a = false) :
    findSub fieldSep (a ++ fieldSep ++ b) = some a.length := by
  induction a with
  | nil => simp [findSub, fieldSep, List.isPrefixOf]
  | cons c cs ih =>
    simp only [containsBytes, Bool.or_eq_false_iff] at h
    have ih2 := ih h.2
    show findSub fieldSep (c :: (cs ++ fieldSep ++ b)) = _
    have hp : fieldSep.isPrefixOf (c :: (cs ++ fieldSep ++ b)) = false := by
      have h1 := h.1
      cases cs with
      | nil =>
        simp only [fieldSep, List.isPrefixOf, List.nil_append, List.cons_append]
        simp
      | cons d ds =>
        simp only [fieldSep, List.isPrefixOf, List.cons_append] at h1 ⊢
        simpa using h1
    rw [findSub, if_neg (by rw [hp]; simp), ih2]
    simp

theorem findSub_none (l : Bytes) (h : containsBytes fieldSep l = false) :
    findSub fieldSep l = none := by
  induction l with
  | nil => simp [findSub, fieldSep]
  | cons c cs ih =>
    simp only [containsBytes, Bool.or_eq_false_iff] at h
    rw [findSub, if_neg (by rw [h.1]; simp), ih h.2]
    rfl

theorem fieldSep_eq : str ": " = fieldSep := by decide

theorem parseFieldLine_field (t : FieldTable) (a b : Bytes)
    (h : containsBytes fieldSep a = false) :
    parseFieldLine t (a ++ fieldSep ++ b) = t.assign (toLower a) (stripCr b) := by
  unfold parseFieldLine
  rw [fieldSep_eq, findSub_sep a b h]
  have h1 : (a ++ fieldSep ++ b).take a.length = a := by
    rw [List.append_assoc, List.take_left]
  have h2 : (a ++ fieldSep ++ b).drop (a.length + 2) = b := by
    have : a.length + 2 = (a ++ fieldSep).length := by simp [fieldSep]
    rw [this, List.drop_left]
  simp only [h1, h2]
  unfold stripCr
  cases hb : b.getLast? with
  | none =>
    have : b = [] := by simpa using hb
    subst this
    simp
  | some x =>
    have hne : b ≠ [] := by
      intro e
      rw [e] at hb
      simp at hb
    by_cases hx : x = 13
    · subst hx
      simp [hne]
    · simp [hx]

theorem parseFieldLine_other (t : FieldTable) (l : Bytes)
    (h : containsBytes fieldSep l = false) : parseFieldLine t l = t := by
  unfold parseFieldLine
  rw [fieldSep_eq, findSub_none l h]

theorem parseFieldLines_long (t : FieldTable) (ls : List Bytes)
    (h : ∀ l ∈ ls, 2 < l.length) : parseFieldLines t ls = ls.foldl parseFieldLine t := by
  induction ls generalizing t with
  | nil => rfl
  | cons l ls ih =>
    have h1 : l.length > 2 := h l (List.mem_cons_self _ _)
    rw [parseFieldLines, if_pos h1, List.foldl_cons]
    exact ih _ (fun x hx => h x (List.mem_cons_of_mem _ hx))

theorem parseFieldLines_stop (t : FieldTable) (ls : List Bytes) (stop : Bytes)
    (rest : List Bytes) (h : ∀ l ∈ ls, 2 < l.length) (hs : stop.length ≤ 2) :
    parseFieldLines t (ls ++ stop :: rest) = ls.foldl parseFieldLine t := by
  induction ls generalizing t with
  | nil =>
    have : ¬ stop.length > 2 := by omega
    simp [parseFieldLines, this]
  | cons l ls ih =>
    have h1 : l.length > 2 := h l (List.mem_cons_self _ _)
    rw [List.cons_append, parseFieldLines, if_pos h1, List.foldl_cons]
    exact ih _ (fun x hx => h x (List.mem_cons_of_mem _ hx))

theorem foldl_specLookup (items : List InputLine) (t : FieldTable) (k : Bytes)
    (hw : ∀ i ∈ items, i.FirstSplit) :
    ((items.map InputLine.text).foldl parseFieldLine t).find k =
      specLookup items (t.find k) k := by
  induction items generalizing t with
  | nil => rfl
  | cons i items ih =>
    have h1 := hw i (List.mem_cons_self _ _)
    have h2 : ∀ x ∈ items, x.FirstSplit := fun x hx => hw x (List.mem_cons_of_mem _ hx)
    rw [List.map_cons, List.foldl_cons, ih _ h2]
    cases i with
    | field a b =>
      simp only [InputLine.text, specLookup]
      rw [parseFieldLine_field t a b h1, find_assign]
      by_cases hk : k = toLower a
      · rw [if_pos hk, if_pos hk.symm]
      · rw [if_neg hk, if_neg (fun e => hk e.symm)]
    | other l =>
      simp only [InputLine.text, specLookup]
      rw [parseFieldLine_other t l h1]

/-- C14: for every sequence of input lines longer than 2 characters, each
split at the first occurrence of `": "` when it has one, the table
`parseFields` leaves holds under every key the value of the last line with
that lower-cased name, one trailing `\r` removed; lines without `": "` add
nothing, and a key no line names keeps the entry it had. -/
theorem parseFields_lines (r : Response) (items : List InputLine) (terminated : Bool)
    (k : Bytes) (hw : ∀ i ∈ items, i.FirstSplit) (hlen : ∀ i ∈ items, 2 < i.text.length)
    (hnl : ∀ i ∈ items, 10 ∉ i.text) :
    (r.parseFields ⟨joinLines terminated (items.map InputLine.text), false⟩).mFields.find k =
      specLookup items (r.mFields.find k) k := by
  unfold Response.parseFields
  simp only [Bool.false_eq_true, if_false]
  rw [getlines_joinLines, parseFieldLines_long, foldl_specLookup items _ k hw]
  · intro l hl
    obtain ⟨i, hi, rfl⟩ := List.mem_map.mp hl
    exact hlen i hi
  · intro l hl
    obtain ⟨i, hi, rfl⟩ := List.mem_map.mp hl
    exact hnl i hi
  · intro l hl
    obtain ⟨i, hi, rfl⟩ := List.mem_map.mp hl
    intro e
    have := hlen i hi
    rw [e] at this
    simp at this

/-- C15: `parseFields` stops at the first line of length at most 2, or at the
end of the input: the result is the one for the lines before it alone,
whatever follows, and every line before it went through the body of the
loop. -/
theorem parseFields_stops (r : Response) (before : List Bytes) (stop after : Bytes)
    (hb : ∀ l ∈ before, 2 < l.length ∧ 10 ∉ l) (hs : stop.length ≤ 2) (hn : 10 ∉ stop) :
    r.parseFields ⟨joinLines true before ++ (stop ++ 10 :: after), false⟩ =
      r.parseFields ⟨joinLines true before, false⟩ ∧
    r.parseFields ⟨joinLines true before ++ stop, false⟩ =
      r.parseFields ⟨joinLines true before, false⟩ ∧
    (r.parseFields ⟨joinLines true before, false⟩).mFields =
      before.foldl parseFieldLine r.mFields := by
  have h10 : ∀ l ∈ before, 10 ∉ l := fun l hl => (hb l hl).2
  have hlen : ∀ l ∈ before, 2 < l.length := fun l hl => (hb l hl).1
  have hne : ∀ l ∈ before, l ≠ [] := by
    intro l hl e
    have := hlen l hl
    rw [e] at this
    simp at this
  have base : parseFieldLines r.mFields (getlines (joinLines true before)) =
      before.foldl parseFieldLine r.mFields := by
    rw [getlines_joinLines true before h10 hne, parseFieldLines_long _ _ hlen]
  unfold Response.parseFields
  simp only [Bool.false_eq_true, if_false]
  refine ⟨?_, ?_, base⟩
  · rw [base, getlines_joinLines_append _ _ h10, getlines_line _ _ hn,
      parseFieldLines_stop _ _ _ _ hlen hs]
  · rw [base, getlines_joinLines_append _ _ h10]
    by_cases he : stop = []
    · rw [he, getlines_nil, List.append_nil, parseFieldLines_long _ _ hlen]
    · rw [getlines_last stop hn he, parseFieldLines_stop _ _ _ _ hlen hs]

/-- Witness for C14 (`parseFields_lines`): the lines `Host: a: b\r`, `junk\r`
and `HOST: c\r` read into the table of a new response leave `c` under the key
`host`. -/
theorem parseFields_lines_witness :
    (∀ i ∈ exampleLines, i.FirstSplit) ∧ (∀ i ∈ exampleLines, 2 < i.text.length) ∧
    (∀ i ∈ exampleLines, 10 ∉ i.text) ∧
    (Response.new.parseFields
      ⟨joinLines true (exampleLines.map InputLine.text), false⟩).mFields.find (str "host") =
      some (str "c") := by
  have hw : ∀ i ∈ exampleLines, i.FirstSplit := by
    intro i hi
    simp only [exampleLines, List.mem_cons, List.mem_singleton, List.not_mem_nil,
      or_false] at hi
    rcases hi with rfl | rfl | rfl
    · show containsBytes fieldSep (str "Host") = false
      decide
    · show containsBytes fieldSep (str "junk\r") = false
      decide
    · show containsBytes fieldSep (str "HOST") = false
      decide
  have hlen : ∀ i ∈ exampleLines, 2 < i.text.length := by decide
  have hnl : ∀ i ∈ exampleLines, 10 ∉ i.text := by decide
  refine ⟨hw, hlen, hnl, ?_⟩
  rw [parseFields_lines Response.new exampleLines true (str "host") hw hlen hnl]
  decide

/-- Witness for C15 (`parseFields_stops`): after the line `Host: a\r` the line
`\r` stops the loop, and the line `X: y\r` after it stores nothing. -/
theorem parseFields_stops_witness :
    (∀ l ∈ [str "Host: a\r"], 2 < l.length ∧ 10 ∉ l) ∧
    (Response.new.parseFields
      ⟨joinLines true [str "Host: a\r"] ++ (str "\r" ++ 10 :: str "X: y\r\n"), false⟩).mFields =
      [(str "host", str "a")] := by
  have hb : ∀ l ∈ [str "Host: a\r"], 2 < l.length ∧ 10 ∉ l := by decide
  refine ⟨hb, ?_⟩
  rw [(parseFields_stops Response.new [str "Host: a\r"] (str "\r") (str "X: y\r\n") hb
    (by decide) (by decide)).1]
  decide

theorem downloadRequest_done (env : Env) (http : Http) (request : Request) (writeTo : Bytes)
    (r : Result) (h : downloadAttempt env http request writeTo Trace.start = Attempt.done r) :
    http.downloadRequest env request writeTo = some r := by
  unfold Http.downloadRequest
  rw [downloadRequestFuel, h]

theorem transfer_send_fails (env : Env) (http : Http) (request toSend : Request)
    (conn : HttpConnection) (sock : TcpSocket) (writeTo : Bytes) (trace : Trace) (p : Peer)
    (hp : sock.peer = some p) (hs : p.sendOk = false) :
    ∃ c, transfer env http request toSend conn sock writeTo trace =
      earlyReturn http request writeTo trace (some c) Response.new := by
  unfold transfer
  by_cases he : (toSend.prepare http).isEmpty = true
  · rw [if_pos he]
    exact ⟨_, rfl⟩
  · rw [if_neg he, hp]
    simp only [hs, Bool.not_false, if_true]
    exact ⟨_, rfl⟩

theorem sentTunnel_peer (sock : TcpSocket) (http : Http) :
    (sock.sentTunnel http).peer = sock.peer := rfl

theorem connected_send_fails (env : Env) (http : Http) (request toSend : Request)
    (conn : HttpConnection) (sock : TcpSocket) (writeTo : Bytes) (trace : Trace) (p : Peer)
    (hp : sock.peer = some p) (hs : p.sendOk = false)
    (ht : (http.isProxied && http.mIsSSL && !conn.mIsTunneled) = false ∨
      (sock.ssl = true ∧ (p.tunnelSendOk = false ∨
        ∃ reply, p.tunnelReply = some reply ∧ (tunnelResponse reply).getStatus = Status.Ok ∧
          p.sslConnectOk = true))) :
    ∃ c, connected env http request toSend conn sock writeTo trace =
      earlyReturn http request writeTo trace (some c) Response.new := by
  unfold connected
  by_cases hn : (http.isProxied && http.mIsSSL && !conn.mIsTunneled) = true
  · rw [if_pos hn]
    rcases ht with ht | ⟨hssl, ht⟩
    · rw [ht] at hn
      cases hn
    · unfold tunnel
      simp only [hssl, Bool.not_true, Bool.false_eq_true, if_false, hp]
      rcases ht with ht | ⟨reply, hr, hst, hc⟩
      · simp only [ht, Bool.not_false, if_true]
        exact transfer_send_fails env http request toSend conn sock writeTo trace p hp hs
      · by_cases hts : p.tunnelSendOk = true
        · simp only [hts, Bool.not_true, Bool.false_eq_true, if_false, hr]
          unfold tunnelResponse at hst
          simp only [hst, if_true, hc, Bool.not_true, Bool.false_eq_true, if_false]
          exact transfer_send_fails env http request toSend _ _ writeTo trace p
            (by rw [sentTunnel_peer]; exact hp) hs
        · simp only [hts, Bool.not_false, if_true]
          exact transfer_send_fails env http request toSend conn sock writeTo trace p hp hs
  · rw [if_neg hn]
    exact transfer_send_fails env http request toSend conn sock writeTo trace p hp hs

theorem downloadAttempt_connect (env : Env) (http : Http) (request : Request)
    (writeTo : Bytes) (trace : Trace) (sock : TcpSocket) (p : Peer)
    (hres : env.resolves http.mHost = true)
    (hsock : (http.connection env).mSocket = some sock)
    (hcast : (http.isProxied && http.mIsSSL && env.sslSocketSupported && !sock.ssl) = false)
    (hpeer : peerAfterConnect env http sock = some p)
    (hconn : (http.connection env).mIsConnected = false → p.connectOk = true) :
    downloadAttempt env http request writeTo trace =
      connected env http request (http.prepareFields request)
        (connectionAfterConnect env http sock) (socketAfterConnect env http sock) writeTo
        trace ∧
    (socketAfterConnect env http sock).peer = some p := by
  unfold downloadAttempt
  simp only [hres, Bool.not_true, Bool.false_eq_true, if_false, hsock]
  unfold connect peerAfterConnect at *
  unfold connectionAfterConnect socketAfterConnect
  by_cases hc : (http.connection env).mIsConnected = true
  · simp only [hc, if_true] at hpeer ⊢
    exact ⟨trivial, hpeer⟩
  · simp only [hc, Bool.false_eq_true, if_false, hcast] at hpeer ⊢
    have hc2 : (http.connection env).mIsConnected = false := by simpa using hc
    have := hconn hc2
    simp only [Option.some.injEq] at hpeer
    rw [hpeer]
    simp only [this, Bool.not_true, Bool.false_eq_true, if_false]
    exact ⟨trivial, rfl⟩

/-- C18: a failure of the transport gives the default response and leaves the
sink as it was: (a) when the address of the client does not resolve, and then
the client is unchanged (no connection is created, nothing is sent); (b) when
`connect` does not return `Done`, and then the connection is as it was before
the attempt; (c) when the `send` of the request does not return `Done`. -/
theorem transport_failure_default (env : Env) (http : Http) (request : Request)
    (writeTo : Bytes) :
    (env.resolves http.mHost = false →
      ∃ r, http.downloadRequest env request writeTo = some r ∧ r.response = Response.new ∧
        r.sink = writeTo ∧ r.http = http) ∧
    (∀ sock, env.resolves http.mHost = true →
      (http.connection env).mSocket = some sock →
      (http.connection env).mIsConnected = false →
      (http.isProxied && http.mIsSSL && env.sslSocketSupported && !sock.ssl) = false →
      (env.server http.mHost (connectPort env http)).connectOk = false →
      ∃ r, http.downloadRequest env request writeTo = some r ∧ r.response = Response.new ∧
        r.sink = writeTo ∧ r.http.mConnection = some (http.connection env)) ∧
    (∀ sock p, env.resolves http.mHost = true →
      (http.connection env).mSocket = some sock →
      (http.isProxied && http.mIsSSL && env.sslSocketSupported && !sock.ssl) = false →
      peerAfterConnect env http sock = some p →
      ((http.connection env).mIsConnected = false → p.connectOk = true) →
      ((http.isProxied && http.mIsSSL && !(http.connection env).mIsTunneled) = false ∨
        (sock.ssl = true ∧ (p.tunnelSendOk = false ∨
          ∃ reply, p.tunnelReply = some reply ∧
            (tunnelResponse reply).getStatus = Status.Ok ∧ p.sslConnectOk = true))) →
      p.sendOk = false →
      ∃ r, http.downloadRequest env request writeTo = some r ∧ r.response = Response.new ∧
        r.sink = writeTo) := by
  refine ⟨?_, ?_, ?_⟩
  · intro hres
    refine ⟨{ response := Response.new, http := http, request := request, sink := writeTo,
              trace := Trace.start },
      downloadRequest_done env http request writeTo _ ?_, rfl, rfl, rfl⟩
    unfold downloadAttempt
    simp only [hres, Bool.not_false, if_true]
    rfl
  · intro sock hres hsock hnc hcast hfail
    refine ⟨{ response := Response.new,
              http := { http with mConnection := some (http.connection env) },
              request := request, sink := writeTo, trace := Trace.start },
      downloadRequest_done env http request writeTo _ ?_, rfl, rfl, rfl⟩
    unfold downloadAttempt
    simp only [hres, Bool.not_true, Bool.false_eq_true, if_false, hsock]
    unfold connect
    simp only [hnc, Bool.false_eq_true, if_false, hcast, hfail, Bool.not_false, if_true]
    rfl
  · intro sock p hres hsock hcast hpeer hconn ht hsend
    obtain ⟨hd, hp⟩ := downloadAttempt_connect env http request writeTo Trace.start sock p
      hres hsock hcast hpeer hconn
    have ht2 : (http.isProxied && http.mIsSSL &&
          !(connectionAfterConnect env http sock).mIsTunneled) = false ∨
        ((socketAfterConnect env http sock).ssl = true ∧ (p.tunnelSendOk = false ∨
          ∃ reply, p.tunnelReply = some reply ∧
            (tunnelResponse reply).getStatus = Status.Ok ∧ p.sslConnectOk = true)) := by
      have e1 : (connectionAfterConnect env http sock).mIsTunneled =
          (http.connection env).mIsTunneled := by
        unfold connectionAfterConnect
        split_ifs <;> rfl
      have e2 : (socketAfterConnect env http sock).ssl = sock.ssl := by
        unfold socketAfterConnect
        split_ifs <;> rfl
      rw [e1, e2]
      exact ht
    obtain ⟨c, hc⟩ := connected_send_fails env http request (http.prepareFields request)
      (connectionAfterConnect env http sock) (socketAfterConnect env http sock) writeTo
      Trace.start p hp hsend ht2
    exact ⟨{ response := Response.new, http := { http with mConnection := some c },
             request := request, sink := writeTo, trace := Trace.start },
      downloadRequest_done env http request writeTo _ (hd.trans hc), rfl, rfl⟩

/-- Witness for C18 (`transport_failure_default`): the client
`Http("example.com", 80)` when no name resolves, when the peer refuses the
connection, and when the peer refuses the request. -/
theorem transport_failure_default_witness :
    (∃ r, (exampleClient true).downloadRequest unresolvedEnv exampleRequest (str "kept") =
        some r ∧ r.response = Response.new ∧ r.sink = str "kept" ∧
        r.http = exampleClient true) ∧
    (∃ r, (exampleClient true).downloadRequest (scenarioEnv (failingPeer false true))
        exampleRequest (str "kept") = some r ∧ r.response = Response.new ∧
        r.sink = str "kept" ∧
        r.http.mConnection =
          some ((exampleClient true).connection (scenarioEnv (failingPeer false true)))) ∧
    (∃ r, (exampleClient true).downloadRequest (scenarioEnv (failingPeer true false))
        exampleRequest (str "kept") = some r ∧ r.response = Response.new ∧
        r.sink = str "kept") :=
  ⟨(transport_failure_default unresolvedEnv (exampleClient true) exampleRequest
      (str "kept")).1 rfl,
   (transport_failure_default (scenarioEnv (failingPeer false true)) (exampleClient true)
      exampleRequest (str "kept")).2.1
      { ssl := false, peer := none, sent := [] } rfl rfl rfl rfl rfl,
   (transport_failure_default (scenarioEnv (failingPeer true false)) (exampleClient true)
      exampleRequest (str "kept")).2.2
      { ssl := false, peer := none, sent := [] } (failingPeer true false) rfl rfl rfl rfl
      (fun _ => rfl) (Or.inl rfl) rfl⟩

/-- C19 (counterexample): the proxy answers the tunnel request with
`HTTP/1.1 204 No Content`, a status within 200..299; `downloadRequest` returns
that response, the connection is not marked tunneled or keep-alive, and the
tunnel request is the only text sent: the real request is not. -/
theorem tunnel_204_rejected :
    (tunnelResponse noContentReply).getStatus = 204 ∧
    (tunnelRun noContentReply).map Result.tunnelView =
      some (204, some (false, false,
        some [(Request.default.prepareTunnel tunnelClient).1])) := by
  refine ⟨by decide, ?_⟩
  rfl

/-- C19: when a TLS destination is reached through a proxy over a connection
that is not tunneled yet, and the proxy answered the tunnel request: for the
status 200 and a successful TLS handshake the connection is marked tunneled and
keep-alive and the request is sent over it (the rest of the call is the
transfer on that connection); for the status 200 and a failed handshake the
default response is returned; for every other status the response parsed from
the reply of the proxy is returned, the sink is as it was, the connection is
not marked, and the tunnel request is the last text sent. -/
theorem tunnel_decision (env : Env) (http : Http) (request : Request) (writeTo : Bytes)
    (sock : TcpSocket) (p : Peer) (reply : Bytes)
    (hres : env.resolves http.mHost = true)
    (hsock : (http.connection env).mSocket = some sock)
    (hprox : http.isProxied = true) (hssl : http.mIsSSL = true)
    (htun : (http.connection env).mIsTunneled = false)
    (hsslsock : sock.ssl = true)
    (hpeer : peerAfterConnect env http sock = some p)
    (hconn : (http.connection env).mIsConnected = false → p.connectOk = true)
    (hsend : p.tunnelSendOk = true) (hreply : p.tunnelReply = some reply) :
    ((tunnelResponse reply).getStatus = Status.Ok → p.sslConnectOk = true →
      downloadAttempt env http request writeTo Trace.start =
        transfer env http request (http.prepareFields request)
          (tunneledConnection env http sock)
          ((socketAfterConnect env http sock).sentTunnel http) writeTo Trace.start) ∧
    ((tunnelResponse reply).getStatus = Status.Ok → p.sslConnectOk = false →
      ∃ r, http.downloadRequest env request writeTo = some r ∧ r.response = Response.new ∧
        r.sink = writeTo) ∧
    ((tunnelResponse reply).getStatus ≠ Status.Ok →
      ∃ r, http.downloadRequest env request writeTo = some r ∧
        r.response = tunnelResponse reply ∧ r.sink = writeTo ∧
        r.http.mConnection = some (tunnelSentConnection env http sock) ∧
        (tunnelSentConnection env http sock).mIsTunneled = false ∧
        (tunnelSentConnection env http sock).mSocket =
          some ((socketAfterConnect env http sock).sentTunnel http) ∧
        ((socketAfterConnect env http sock).sentTunnel http).sent =
          sock.sent ++ [(Request.default.prepareTunnel http).1]) := by
  have hcast : (http.isProxied && http.mIsSSL && env.sslSocketSupported && !sock.ssl) =
      false := by
    rw [hsslsock]
    simp
  obtain ⟨hd, hp⟩ := downloadAttempt_connect env http request writeTo Trace.start sock p
    hres hsock hcast hpeer hconn
  have e1 : (connectionAfterConnect env http sock).mIsTunneled = false := by
    unfold connectionAfterConnect
    split_ifs
    · exact htun
    · exact htun
  have e2 : (socketAfterConnect env http sock).ssl = true := by
    unfold socketAfterConnect
    split_ifs
    · exact hsslsock
    · exact hsslsock
  have e3 : (socketAfterConnect env http sock).sent = sock.sent := by
    unfold socketAfterConnect
    split_ifs <;> rfl
  have hd2 : downloadAttempt env http request writeTo Trace.start =
      tunnel env http request (http.prepareFields request)
        (connectionAfterConnect env http sock) (socketAfterConnect env http sock) writeTo
        Trace.start := by
    rw [hd]
    unfold connected
    rw [hprox, hssl, e1]
    rfl
  refine ⟨?_, ?_, ?_⟩
  · intro hst hc
    rw [hd2]
    unfold tunnel
    unfold tunnelResponse at hst
    simp only [e2, Bool.not_true, Bool.false_eq_true, if_false, hp, hsend, hreply, hst,
      if_true, hc]
    rfl
  · intro hst hc
    refine ⟨{ response := Response.new,
              http := { http with mConnection := some (tunnelSentConnection env http sock) },
              request := request, sink := writeTo, trace := Trace.start },
      downloadRequest_done env http request writeTo _ ?_, rfl, rfl⟩
    rw [hd2]
    unfold tunnel
    unfold tunnelResponse at hst
    simp only [e2, Bool.not_true, Bool.false_eq_true, if_false, hp, hsend, hreply, hst,
      if_true, hc, Bool.not_false]
    rfl
  · intro hst
    refine ⟨{ response := tunnelResponse reply,
              http := { http with mConnection := some (tunnelSentConnection env http sock) },
              request := request, sink := writeTo, trace := Trace.start },
      downloadRequest_done env http request writeTo _ ?_, rfl, rfl, rfl, e1, rfl, ?_⟩
    · rw [hd2]
      unfold tunnel
      unfold tunnelResponse at hst
      simp only [e2, Bool.not_true, Bool.false_eq_true, if_false, hp, hsend, hreply, hst]
      rfl
    · show (socketAfterConnect env http sock).sent ++ _ = _
      rw [e3]

/-- Witness for C19 (`tunnel_decision`): the client of the tunnel scenarios
with a proxy answering 204 (the response of the proxy is returned) and with a
proxy answering 200 (the transfer goes on over the tunneled connection). -/
theorem tunnel_decision_witness :
    (∃ r, tunnelClient.downloadRequest (scenarioEnv (tunnelPeer noContentReply))
        exampleRequest [] = some r ∧ r.response = tunnelResponse noContentReply ∧
        r.sink = []) ∧
    downloadAttempt (scenarioEnv (tunnelPeer establishedReply)) tunnelClient exampleRequest []
        Trace.start =
      transfer (scenarioEnv (tunnelPeer establishedReply)) tunnelClient exampleRequest
        (tunnelClient.prepareFields exampleRequest)
        (tunneledConnection (scenarioEnv (tunnelPeer establishedReply)) tunnelClient
          { ssl := true, peer := none, sent := [] })
        ((socketAfterConnect (scenarioEnv (tunnelPeer establishedReply)) tunnelClient
          { ssl := true, peer := none, sent := [] }).sentTunnel tunnelClient) []
        Trace.start := by
  constructor
  · obtain ⟨r, h1, h2, h3, _⟩ := (tunnel_decision (scenarioEnv (tunnelPeer noContentReply))
      tunnelClient exampleRequest [] { ssl := true, peer := none, sent := [] }
      (tunnelPeer noContentReply) noContentReply rfl rfl (by decide) (by decide) rfl rfl rfl
      (fun _ => rfl) rfl rfl).2.2 (by decide)
    exact ⟨r, h1, h2, h3⟩
  · exact (tunnel_decision (scenarioEnv (tunnelPeer establishedReply))
      tunnelClient exampleRequest [] { ssl := true, peer := none, sent := [] }
      (tunnelPeer establishedReply) establishedReply rfl rfl (by decide) (by decide) rfl rfl
      rfl (fun _ => rfl) rfl rfl).1 (by decide) rfl

theorem digitChar_toNat (d : Nat) (h : d < 10) : (Nat.digitChar d).toNat = 48 + d := by
  interval_cases d <;> rfl

theorem toDigitsCore_spec : ∀ (fuel n : Nat) (acc : List Char), n < fuel →
    ∃ ds : List Char, Nat.toDigitsCore 10 fuel n acc = ds ++ acc ∧
      (∀ c ∈ ds, 48 ≤ c.toNat ∧ c.toNat ≤ 57) ∧
      ∀ a, (ds.map Char.toNat).foldl (fun a d => 10 * a + (d - 48)) a =
        a * 10 ^ ds.length + n := by
  intro fuel
  induction fuel with
  | zero => intro n acc h; omega
  | succ fuel ih =>
    intro n acc h
    have hd : (Nat.digitChar (n % 10)).toNat = 48 + n % 10 :=
      digitChar_toNat _ (Nat.mod_lt _ (by decide))
    rw [Nat.toDigitsCore]
    by_cases h0 : n / 10 = 0
    · simp only [h0, if_true]
      refine ⟨[Nat.digitChar (n % 10)], rfl, ?_, ?_⟩
      · intro c hc
        simp only [List.mem_singleton] at hc
        rw [hc, hd]
        have := Nat.mod_lt n (show 10 > 0 by decide)
        omega
      · intro a
        simp only [List.map_cons, List.map_nil, List.foldl_cons, List.foldl_nil, hd,
          List.length_singleton]
        omega
    · simp only [h0, if_false]
      have hlt : n / 10 < fuel := by omega
      obtain ⟨ds, e, hdig, hval⟩ := ih (n / 10) (Nat.digitChar (n % 10) :: acc) hlt
      refine ⟨ds ++ [Nat.digitChar (n % 10)], ?_, ?_, ?_⟩
      · rw [e]; simp
      · intro c hc
        simp only [List.mem_append, List.mem_singleton] at hc
        rcases hc with hc | hc
        · exact hdig c hc
        · rw [hc, hd]
          have := Nat.mod_lt n (show 10 > 0 by decide)
          omega
      · intro a
        simp only [List.map_append, List.foldl_append, hval, List.map_cons, List.map_nil,
          List.foldl_cons, List.foldl_nil, hd, List.length_append, List.length_singleton,
          pow_succ]
        have := Nat.div_add_mod n 10
        ring_nf
        omega

theorem decimal_spec (n : Nat) :
    (∀ c ∈ decimal n, isDigit c = true) ∧ digitsValue (decimal n) = n := by
  obtain ⟨ds, e, hdig, hval⟩ := toDigitsCore_spec (n + 1) n [] (Nat.lt_succ_self n)
  have hd : decimal n = ds.map Char.toNat := by
    unfold decimal Nat.toDigits
    rw [e, List.append_nil]
  rw [hd]
  constructor
  · intro c hc
    obtain ⟨x, hx, rfl⟩ := List.mem_map.mp hc
    have := hdig x hx
    simp [isDigit, this.1, this.2]
  · unfold digitsValue
    rw [hval 0]
    simp

theorem methodFromString_toString (m : Method) : methodFromString (methodToString m) = m := by
  cases m <;> decide

theorem method_chars (m : Method) :
    methodToString m ≠ [] ∧ ∀ c ∈ methodToString m, isSpace c = false := by
  cases m <;> exact ⟨by decide, by decide⟩

theorem dropWhile_append_stop {p : Nat → Bool} (l : Bytes) (a : Nat) (r : Bytes)
    (hl : ∀ x ∈ l, p x = true) (ha : p a = false) : (l ++ a :: r).dropWhile p = a :: r := by
  rw [List.dropWhile_append_of_pos hl, List.dropWhile_cons_of_neg (by simp [ha])]

theorem firstWord_word (w rest : Bytes) (hne : w ≠ []) (hw : ∀ c ∈ w, isSpace c = false) :
    firstWord (w ++ 32 :: rest) = w ∧ afterFirstWord (w ++ 32 :: rest) = 32 :: rest := by
  have hd : (w ++ 32 :: rest).dropWhile isSpace = w ++ 32 :: rest := by
    cases w with
    | nil => exact absurd rfl hne
    | cons c cs =>
      have := hw c (List.mem_cons_self _ _)
      rw [List.cons_append, List.dropWhile_cons_of_neg (by simp [this])]
  have hp : ∀ x ∈ w, (fun c => !isSpace c) x = true := by
    intro x hx
    simp [hw x hx]
  have h32 : (fun c => !isSpace c) 32 = false := by decide
  unfold firstWord afterFirstWord
  rw [hd]
  exact ⟨takeWhile_append_stop w 32 rest hp h32, dropWhile_append_stop w 32 rest hp h32⟩

theorem firstWord_skip (x : Bytes) : firstWord (32 :: x) = firstWord x := by
  unfold firstWord
  rw [List.dropWhile_cons_of_pos (by decide)]

theorem lastWord_line (a v : Bytes) (hne : v ≠ []) (hv : ∀ c ∈ v, isSpace c = false) :
    lastWord (a ++ 32 :: (v ++ [13])) = v := by
  unfold lastWord
  have hr : (a ++ 32 :: (v ++ [13])).reverse = 13 :: (v.reverse ++ 32 :: a.reverse) := by
    simp
  rw [hr, List.dropWhile_cons_of_pos (by decide)]
  have hvr : ∀ c ∈ v.reverse, isSpace c = false := fun c hc => hv c (List.mem_reverse.mp hc)
  have hd : (v.reverse ++ 32 :: a.reverse).dropWhile isSpace = v.reverse ++ 32 :: a.reverse := by
    rcases hrv : v.reverse with _ | ⟨c, cs⟩
    · exact absurd (List.reverse_eq_nil_iff.mp hrv) hne
    · have := hvr c (by rw [hrv]; exact List.mem_cons_self _ _)
      rw [List.cons_append, List.dropWhile_cons_of_neg (by simp [this])]
  rw [hd, takeWhile_append_stop v.reverse 32 a.reverse (fun x hx => by simp [hvr x hx])
    (by decide), List.reverse_reverse]

theorem versionDigits_token (major minor : Nat) :
    versionDigits (str "HTTP/" ++ decimal major ++ str "." ++ decimal minor) =
      (major, minor) := by
  have e1 : str "HTTP/" = [72, 84, 84, 80, 47] := by decide
  have e2 : str "." = [46] := by decide
  unfold versionDigits
  rw [e1, e2]
  simp only [List.cons_append, List.nil_append, List.drop_succ_cons, List.drop_zero,
    List.append_assoc]
  rw [takeWhile_append_stop (decimal major) 46 (decimal minor) (decimal_spec major).1
      (by decide),
    dropWhile_append_stop (decimal major) 46 (decimal minor) (decimal_spec major).1
      (by decide)]
  simp only [List.drop_succ_cons, List.drop_zero, (decimal_spec major).2,
    (decimal_spec minor).2]

theorem assign_append_last (p : FieldTable) (k v : Bytes)
    (h : ∀ e ∈ p, strLt e.1 k = true) : p.assign k v = p ++ [(k, v)] := by
  induction p with
  | nil => rfl
  | cons e rest ih =>
    obtain ⟨k', v'⟩ := e
    have h1 : strLt k' k = true := h (k', v') (List.mem_cons_self _ _)
    have hne : k ≠ k' := by
      intro e
      rw [e, strLt_irrefl] at h1
      cases h1
    have hlt : ¬ strLt k k' = true := by
      intro h2
      have := strLt_trans _ _ _ h2 h1
      rw [strLt_irrefl] at this
      cases this
    rw [FieldTable.assign, if_neg hne, if_neg hlt,
      ih (fun x hx => h x (List.mem_cons_of_mem _ hx))]
    rfl

theorem foldl_assign_sorted (s p : FieldTable) (h : FieldTable.Sorted (p ++ s)) :
    s.foldl (fun t f => t.assign f.1 f.2) p = p ++ s := by
  induction s generalizing p with
  | nil => simp
  | cons e s ih =>
    have hp : ∀ x ∈ p, strLt x.1 e.1 = true := by
      intro x hx
      unfold FieldTable.Sorted at h
      rw [List.pairwise_append] at h
      exact h.2.2 x hx e (List.mem_cons_self _ _)
    rw [List.foldl_cons, assign_append_last p e.1 e.2 hp]
    have h2 : FieldTable.Sorted ((p ++ [(e.1, e.2)]) ++ s) := by
      simpa using h
    rw [ih _ h2]
    simp

theorem stripCr_snoc (v : Bytes) : stripCr (v ++ [13]) = v := by
  unfold stripCr
  simp

theorem fields_text (fields : FieldTable) :
    (fields.map (fun f => f.1 ++ str ": " ++ f.2 ++ str "\r\n")).flatten =
      joinLines true (fields.map (fun f => f.1 ++ fieldSep ++ (f.2 ++ [13]))) := by
  have e1 : str "\r\n" = [13, 10] := by decide
  induction fields with
  | nil => rfl
  | cons f fs ih =>
    rw [List.map_cons, List.flatten_cons, ih, List.map_cons, joinLines]
    simp only [Bool.not_true, Bool.and_false, Bool.false_eq_true, if_false, fieldSep_eq, e1]
    simp

theorem foldl_field_lines (fs : FieldTable) (t : FieldTable)
    (hl : FieldTable.LowerKeys fs) (hn : ∀ e ∈ fs, containsBytes fieldSep e.1 = false) :
    (fs.map (fun f => f.1 ++ fieldSep ++ (f.2 ++ [13]))).foldl parseFieldLine t =
      fs.foldl (fun t f => t.assign f.1 f.2) t := by
  induction fs generalizing t with
  | nil => rfl
  | cons f fs ih =>
    have h1 := hn f (List.mem_cons_self _ _)
    have h2 := hl f (List.mem_cons_self _ _)
    rw [List.map_cons, List.foldl_cons, List.foldl_cons, parseFieldLine_field t _ _ h1,
      stripCr_snoc, h2]
    exact ih _ (fun x hx => hl x (List.mem_cons_of_mem _ hx))
      (fun x hx => hn x (List.mem_cons_of_mem _ hx))

theorem prepare_text (r : Request) (http : Http) (h : http.getProxy.empty = true) :
    r.prepare http =
      (methodToString r.mMethod ++ 32 :: (r.mUri ++ 32 ::
        ((str "HTTP/" ++ decimal r.mMajorVersion ++ str "." ++ decimal r.mMinorVersion) ++
          [13]))) ++ 10 ::
        (joinLines true (r.mFields.map (fun f => f.1 ++ fieldSep ++ (f.2 ++ [13]))) ++
          ([13] ++ 10 :: r.mBody)) := by
  have e0 : str " " = [32] := by decide
  have e1 : str "\r\n" = [13, 10] := by decide
  unfold Request.prepare
  simp only [h, if_true, writeFields_eq, fields_text]
  rw [e0, e1]
  simp only [List.append_assoc, List.cons_append, List.nil_append, List.singleton_append]

theorem version_chars (major minor : Nat) :
    str "HTTP/" ++ decimal major ++ str "." ++ decimal minor ≠ [] ∧
    ∀ c ∈ str "HTTP/" ++ decimal major ++ str "." ++ decimal minor, isSpace c = false := by
  have e1 : str "HTTP/" = [72, 84, 84, 80, 47] := by decide
  have e2 : str "." = [46] := by decide
  rw [e1, e2]
  constructor
  · simp
  · intro c hc
    simp only [List.cons_append, List.nil_append, List.append_assoc, List.mem_cons,
      List.mem_append, List.singleton_append] at hc
    rcases hc with rfl | rfl | rfl | rfl | rfl | hc | rfl | hc
    · decide
    · decide
    · decide
    · decide
    · decide
    · exact isDigit_not_space c ((decimal_spec major).1 c hc)
    · decide
    · exact isDigit_not_space c ((decimal_spec minor).1 c hc)

theorem space_of_newline (l : Bytes) (h : ∀ c ∈ l, isSpace c = false) : 10 ∉ l := by
  intro h10
  have := h 10 h10
  revert this
  decide

theorem request_line_no_newline (r : Request) (hpath : 10 ∉ r.mUri) :
    ∀ x ∈ methodToString r.mMethod ++ 32 :: (r.mUri ++ 32 ::
        ((str "HTTP/" ++ decimal r.mMajorVersion ++ str "." ++ decimal r.mMinorVersion) ++
          [13])), (fun c => c != 10) x = true := by
  intro x hx
  have hm := space_of_newline _ (method_chars r.mMethod).2
  have hv := space_of_newline _ (version_chars r.mMajorVersion r.mMinorVersion).2
  have hne : x ≠ 10 := by
    intro e
    subst e
    rcases List.mem_append.mp hx with hx | hx
    · exact hm hx
    · rcases List.mem_cons.mp hx with hx | hx
      · cases hx
      · rcases List.mem_append.mp hx with hx | hx
        · exact hpath hx
        · rcases List.mem_cons.mp hx with hx | hx
          · cases hx
          · rcases List.mem_append.mp hx with hx | hx
            · exact hv hx
            · simp at hx
  simp [hne]

/-- C13 (counterexample): the request `Request("/a\nx: y", Get)` has no field,
no proxy is set, and the lines after the first line of the output of `prepare`
give `parseFields` the field `x` with the value `y HTTP/1.1`. -/
theorem prepare_path_line_break :
    (exampleClient true).getProxy.empty = true ∧ splitPathRequest.mFields = [] ∧
    fieldsAfterFirstLine (splitPathRequest.prepare (exampleClient true)) =
      [(str "x", str "y HTTP/1.1")] := by
  refine ⟨by decide, by decide, by decide⟩

/-- C13: on a client without proxy, for a request whose path holds no line
break, whose field names hold no `": "` and no line break and whose field
values hold no line break (the table being that of a `Request`: keys
increasing and in lower case), the output of `prepare` reads back: the first
word gives the method, the second word is the path when the path is not empty
and free of white space, the last word of the first line holds the two version
numbers, and `parseFields` on the lines after the first line gives the field
table of the request. -/
theorem prepare_round_trip (http : Http) (r : Request) (hp : http.getProxy.empty = true)
    (hs : r.mFields.Sorted) (hl : r.mFields.LowerKeys)
    (hn : ∀ e ∈ r.mFields, containsBytes fieldSep e.1 = false ∧ 10 ∉ e.1 ∧ 10 ∉ e.2)
    (hpath : 10 ∉ r.mUri) :
    methodFromString (firstWord (r.prepare http)) = r.mMethod ∧
    ((r.mUri ≠ [] ∧ ∀ c ∈ r.mUri, isSpace c = false) →
      firstWord (afterFirstWord (r.prepare http)) = r.mUri) ∧
    versionDigits (lastWord (firstLine (r.prepare http))) =
      (r.mMajorVersion, r.mMinorVersion) ∧
    fieldsAfterFirstLine (r.prepare http) = r.mFields := by
  rw [prepare_text r http hp]
  have hm := method_chars r.mMethod
  have hv := version_chars r.mMajorVersion r.mMinorVersion
  have hline := request_line_no_newline r hpath
  refine ⟨?_, ?_, ?_, ?_⟩
  · rw [List.append_assoc, List.cons_append, (firstWord_word _ _ hm.1 hm.2).1,
      methodFromString_toString]
  · intro hu
    rw [List.append_assoc, List.cons_append, (firstWord_word _ _ hm.1 hm.2).2, firstWord_skip,
      List.append_assoc, List.cons_append, (firstWord_word _ _ hu.1 hu.2).1]
  · unfold firstLine
    rw [takeWhile_append_stop _ 10 _ hline (by decide)]
    have e : methodToString r.mMethod ++ 32 :: (r.mUri ++ 32 ::
        ((str "HTTP/" ++ decimal r.mMajorVersion ++ str "." ++ decimal r.mMinorVersion) ++
          [13])) =
        (methodToString r.mMethod ++ 32 :: r.mUri) ++ 32 ::
        ((str "HTTP/" ++ decimal r.mMajorVersion ++ str "." ++ decimal r.mMinorVersion) ++
          [13]) := by
      simp
    rw [e, lastWord_line _ _ hv.1 hv.2, versionDigits_token]
  · unfold fieldsAfterFirstLine IStream.ignoreLine Response.parseFields
    simp only [Bool.false_eq_true, if_false]
    rw [dropWhile_append_stop _ 10 _ hline (by decide), List.drop_succ_cons, List.drop_zero]
    have h10 : ∀ l ∈ r.mFields.map (fun f => f.1 ++ fieldSep ++ (f.2 ++ [13])), 10 ∉ l := by
      intro l hl2
      obtain ⟨f, hf, rfl⟩ := List.mem_map.mp hl2
      have := hn f hf
      simp [fieldSep, this.2.1, this.2.2]
    have hlen : ∀ l ∈ r.mFields.map (fun f => f.1 ++ fieldSep ++ (f.2 ++ [13])),
        2 < l.length := by
      intro l hl2
      obtain ⟨f, hf, rfl⟩ := List.mem_map.mp hl2
      simp [fieldSep]
      omega
    rw [getlines_joinLines_append _ _ h10, getlines_line [13] _ (by decide),
      parseFieldLines_stop _ _ _ _ hlen (by decide),
      foldl_field_lines _ _ hl (fun e he => (hn e he).1)]
    exact foldl_assign_sorted r.mFields [] hs

/-- Witness for C13 (`prepare_round_trip`): the normalized request `GET /` of
the scenarios on the client `Http("example.com", 80)`. -/
theorem prepare_round_trip_witness :
    (exampleClient true).getProxy.empty = true ∧
    (∀ e ∈ ((exampleClient true).prepareFields exampleRequest).mFields,
      containsBytes fieldSep e.1 = false ∧ 10 ∉ e.1 ∧ 10 ∉ e.2) ∧
    10 ∉ ((exampleClient true).prepareFields exampleRequest).mUri ∧
    (methodFromString (firstWord
        (((exampleClient true).prepareFields exampleRequest).prepare (exampleClient true))) =
      Method.Get ∧
    fieldsAfterFirstLine
        (((exampleClient true).prepareFields exampleRequest).prepare (exampleClient true)) =
      ((exampleClient true).prepareFields exampleRequest).mFields) := by
  have h1 : (exampleClient true).getProxy.empty = true := by decide
  have h2 : ∀ e ∈ ((exampleClient true).prepareFields exampleRequest).mFields,
      containsBytes fieldSep e.1 = false ∧ 10 ∉ e.1 ∧ 10 ∉ e.2 := by decide
  have h3 : 10 ∉ ((exampleClient true).prepareFields exampleRequest).mUri := by decide
  have h4 : ((exampleClient true).prepareFields exampleRequest).mFields.Sorted := by
    unfold FieldTable.Sorted
    decide
  have h5 : ((exampleClient true).prepareFields exampleRequest).mFields.LowerKeys := by
    unfold FieldTable.LowerKeys
    decide
  have h := prepare_round_trip (exampleClient true)
    ((exampleClient true).prepareFields exampleRequest) h1 h4 h5 h2 h3
  exact ⟨h1, h2, h3, h.1, h.2.2.2⟩

/-- C23: the header lines `HTTP/1.1 200 OK` and `Content-Length: 5` arrive in a
first read and the blank line with the body `hello` in a second one, which so
begins with `\r\n`.  The response returned has the status `ConnectionFailed`
of a response that was never parsed, and an empty body: the end of the headers
was not noticed. -/
theorem blank_first_line_not_header_end :
    (answerRun [str "HTTP/1.1 200 OK\r\nContent-Length: 5\r\n", str "\r\nhello"]).map
      Result.answerView = some (Status.ConnectionFailed, []) := by
  decide

/-- C24: the zero-length chunk and the trailer line `X-Trailer: v` arrive in
one read: the response returned has no field `X-Trailer`.  When the trailer
line arrives in the read after the zero-length chunk, the field is there. -/
theorem trailer_same_read_lost :
    (answerRun [chunkedHeader, str "0\r\nX-Trailer: v\r\n\r\n"]).map
      (fun r => r.response.mFields.find (str "x-trailer")) = some none ∧
    (answerRun [chunkedHeader, str "0\r\n", str "X-Trailer: v\r\n\r\n"]).map
      (fun r => r.response.mFields.find (str "x-trailer")) = some (some (str "v")) := by
  refine ⟨by decide, by decide⟩

/-- C25: a response with `Content-Length: 5` arrives whole in one read of 43
bytes, 5 of them after the headers; the progress callback is invoked once,
with the total 5 and 48 bytes received so far. -/
theorem progress_counts_header_read :
    (str "HTTP/1.1 200 OK\r\nContent-Length: 5\r\n\r\nhello").length = 43 ∧
    (watchedRun [str "HTTP/1.1 200 OK\r\nContent-Length: 5\r\n\r\nhello"]).map
      Result.progressView = some [(5, 48)] := by
  refine ⟨by decide, by decide⟩

/-- C26: a response with `Content-Encoding: gzip` that is not chunked arrives
whole in one read, with the body `DATA`; the decompressor of the scenarios
hands on what it is fed, and the sink ends with `DATA` followed by the whole
read, headers included: these are the bytes that were fed. -/
theorem inflate_fed_header_bytes :
    ((exampleClient true).downloadRequest
      (scenarioEnv (scriptedPeer [gzipAnswer] SocketStatus.Disconnected)) exampleRequest []).map
      (fun r => r.sink) = some (str "DATA" ++ gzipAnswer) := by
  decide

/-- C28: after the headers of a chunked response a read delivers `5\r`, the
length line of a chunk up to its first line-break character: the test
`chunkBuffer.size() - firstCharPos >= length` is `2 - 3 >= 5` in 64-bit
unsigned arithmetic and holds, and the chunk is taken from outside the buffer
(the run is undefined).  With `5\r\nhe` the test fails as it should and
nothing is written. -/
theorem chunk_length_underflow :
    (2 + 2 ^ 64 - (1 + 2)) % 2 ^ 64 ≥ 5 ∧
    (answerRun [chunkedHeader, str "5\r"]).map Result.answerView = none ∧
    (answerRun [chunkedHeader, str "5\r\nhe"]).map Result.answerView = some (200, []) := by
  refine ⟨by decide, by decide, by decide⟩

theorem strchrNl_none (buf : Nat → Nat) (n : Nat) (hn : buf n = 0) :
    ∀ fuel i, i ≤ n → n - i < fuel → (∀ j, i ≤ j → j < n → buf j ≠ 10) →
      strchrNl buf fuel i = none := by
  intro fuel
  induction fuel with
  | zero => intro i _ h; omega
  | succ f ih =>
    intro i hi hf hb
    unfold strchrNl
    by_cases hin : i = n
    · subst hin
      rw [hn]
      simp
    · have h10 : buf i ≠ 10 := hb i (le_refl _) (by omega)
      rw [if_neg h10]
      by_cases h0 : buf i = 0
      · rw [if_pos h0]
      · rw [if_neg h0]
        exact ih (i + 1) (by omega) (by omega) (fun j h1 h2 => hb j (by omega) h2)

theorem terminateBuffer_ok (l : Loop) (h : l.len + l.readed ≤ PACKET_BUFFER_SIZE) :
    ∃ l1 : Loop, terminateBuffer l = some l1 ∧
      l1.buffer = bufSet l.buffer (l.len + l.readed) 0 ∧ l1.len = l.len + l.readed ∧
      l1.isnheader = l.isnheader ∧ l1.cancel = l.cancel := by
  unfold terminateBuffer
  rw [if_neg (by omega)]
  exact ⟨_, rfl, rfl, rfl, rfl, rfl⟩

theorem iteration_noBreak (env : Env) (request : Request) (l : Loop) (d : Bytes)
    (hh : l.isnheader = false) (hlen : l.len = 0) (hle : d.length ≤ PACKET_BUFFER_SIZE)
    (hpos : 0 < d.length) (hd : ∀ j, j < d.length → d.getD j 0 = 97) :
    ∃ l2 : Loop, iteration env request (l.receive d) = Step.next l2 ∧
      l2.len = d.length ∧ l2.isnheader = false ∧ l2.cancel = l.cancel := by
  have e1 : (l.receive d).len = 0 := hlen
  have e2 : (l.receive d).readed = d.length := rfl
  have e3 : (l.receive d).buffer = bufWrite l.buffer d := rfl
  have e4 : (l.receive d).isnheader = false := hh
  have e5 : (l.receive d).cancel = l.cancel := rfl
  obtain ⟨l1, ht, hbuf, hl1, hi1, hc1⟩ := terminateBuffer_ok (l.receive d)
    (by rw [e1, e2]; omega)
  rw [e1, e2, e3, Nat.zero_add] at hbuf
  rw [e1, e2, Nat.zero_add] at hl1
  have hB : ∀ j, j < d.length → l1.buffer j = 97 := by
    intro j hj
    rw [hbuf]
    unfold bufSet bufWrite
    rw [if_neg (by omega), if_pos hj]
    exact hd j hj
  have hend : l1.buffer d.length = 0 := by
    rw [hbuf]
    simp [bufSet]
  have hnone : strchrNl l1.buffer (PACKET_BUFFER_SIZE + 1 - 0) 0 = none := by
    apply strchrNl_none _ d.length hend
    · omega
    · omega
    · intro j _ hj
      rw [hB j hj]
      decide
  have hloop : headerLoop l1.buffer (PACKET_BUFFER_SIZE + 1) 0 = (false, 0) := by
    rw [headerLoop, hnone]
  have hb0 : l1.buffer 0 = 97 := hB 0 hpos
  have n1 : ¬ (l1.buffer 0 = 13 ∧ l1.buffer 1 = 10) := by
    intro h
    rw [hb0] at h
    exact absurd h.1 (by decide)
  have n2 : ¬ (l1.buffer 0 = 10) := by
    rw [hb0]
    decide
  refine ⟨{ l1 with headerBuffer := l1.headerBuffer ++ bufRange l1.buffer 0 0 }, ?_, hl1, ?_, ?_⟩
  · unfold iteration
    rw [e4]
    simp only [Bool.not_false, if_true]
    unfold headerPhase
    rw [ht]
    simp only []
    rw [if_neg n1, if_neg n2, hloop]
    simp only [Bool.false_eq_true, if_false]
  · show l1.isnheader = false
    rw [hi1, e4]
  · show l1.cancel = l.cancel
    rw [hc1, e5]

theorem iteration_overflow (env : Env) (request : Request) (l : Loop) (d : Bytes)
    (hh : l.isnheader = false) (hlen : l.len + d.length > PACKET_BUFFER_SIZE) :
    iteration env request (l.receive d) = Step.undefined := by
  unfold iteration
  have hh2 : (l.receive d).isnheader = false := hh
  rw [hh2]
  simp only [Bool.not_false, if_true]
  unfold headerPhase terminateBuffer
  have e1 : (l.receive d).len = l.len := rfl
  have e2 : (l.receive d).readed = d.length := rfl
  rw [e1, e2, if_pos hlen]

theorem recvLoop_overflow (env : Env) (request : Request) (final : SocketStatus) (l : Loop)
    (d1 d2 : Bytes) (hh : l.isnheader = false) (hlen : l.len = 0) (hc : l.cancel = false)
    (h1 : d1.length = PACKET_BUFFER_SIZE) (hd : ∀ j, j < d1.length → d1.getD j 0 = 97)
    (h2 : d2.length = 1) :
    recvLoop env request final l [d1, d2] = LoopEnd.undefined := by
  have hpos : 0 < PACKET_BUFFER_SIZE := by decide
  obtain ⟨l2, s1, s2, s3, s4⟩ := iteration_noBreak env request l d1 hh hlen (by omega)
    (by omega) hd
  rw [recvLoop, if_neg (by rw [hc]; simp), if_neg (by omega), s1]
  simp only []
  rw [recvLoop, if_neg (by rw [s4, hc]; simp), if_neg (by omega),
    iteration_overflow env request l2 d2 s3 (by omega)]

theorem sendRequest_overflow (d1 d2 : Bytes) (h1 : d1.length = PACKET_BUFFER_SIZE)
    (hd : ∀ j, j < d1.length → d1.getD j 0 = 97) (h2 : d2.length = 1) :
    (exampleClient true).sendRequest
      (scenarioEnv (scriptedPeer [d1, d2] SocketStatus.Disconnected)) exampleRequest = none := by
  obtain ⟨conn, hda⟩ := downloadAttempt_direct
    (scenarioEnv (scriptedPeer [d1, d2] SocketStatus.Disconnected))
    (exampleClient true) exampleRequest [] Trace.start rfl rfl rfl rfl rfl
  have hr : recvLoop (scenarioEnv (scriptedPeer [d1, d2] SocketStatus.Disconnected))
      exampleRequest
      (((scenarioEnv (scriptedPeer [d1, d2] SocketStatus.Disconnected)).server
        (exampleClient true).mHost (exampleClient true).mPort).final)
      (Loop.start (scenarioEnv (scriptedPeer [d1, d2] SocketStatus.Disconnected))
        exampleRequest conn Response.new [] Trace.start)
      (((scenarioEnv (scriptedPeer [d1, d2] SocketStatus.Disconnected)).server
        (exampleClient true).mHost (exampleClient true).mPort).reads) = LoopEnd.undefined :=
    recvLoop_overflow _ _ _ _ d1 d2 rfl rfl rfl h1 hd h2
  rw [hr] at hda
  unfold Http.sendRequest Http.downloadRequest
  rw [downloadRequestFuel, hda]

/-- C27: the socket delivers a first read of `PACKET_BUFFER_SIZE` bytes without
a line break and a second read of one byte.  The header is not complete after
the first read, `len` stays at `PACKET_BUFFER_SIZE`, and in the second
iteration `len += readed` makes it `PACKET_BUFFER_SIZE + 1`: the write
`buffer[len] = 0` is outside the array, and the call has no defined result. -/
theorem header_length_overflow :
    (∀ d ∈ longHeaderReads, d.length ≤ PACKET_BUFFER_SIZE) ∧
    answerRun longHeaderReads = none := by
  constructor
  · intro d hd
    unfold longHeaderReads at hd
    simp only [List.mem_cons, List.mem_singleton, List.not_mem_nil, or_false] at hd
    rcases hd with rfl | rfl
    · rw [List.length_replicate]
    · rw [List.length_singleton]
      exact Nat.succ_le_of_lt (by decide)
  · unfold answerRun longHeaderReads
    apply sendRequest_overflow
    · rw [List.length_replicate]
    · intro j hj
      rw [List.length_replicate] at hj
      rw [List.getD_eq_getElem?_getD, List.getElem?_replicate_of_lt hj]
      rfl
    · rfl

theorem splitRead_keeps (l l2 : Loop) (bol : Nat) (h : splitRead l bol = some l2) :
    l2.redirectionCount = l.redirectionCount ∧ l2.cancel = l.cancel := by
  unfold splitRead at h
  split_ifs at h <;> (simp only [Option.some.injEq] at h; subst h; exact ⟨rfl, rfl⟩)

theorem headerFound_keeps (env : Env) (request : Request) (l : Loop) (bol : Nat) :
    (headerFound env request l bol).Keeps l := by
  unfold headerFound
  rcases h : splitRead l (skipBreak l.buffer bol) with _ | l1
  · trivial
  · have hf := splitRead_keeps l l1 _ h
    simp only []
    split_ifs
    · exact hf
    · show (followRedirect (readHeader env l1)).redirectionCount = l.redirectionCount + 1 ∧
        (followRedirect (readHeader env l1)).cancel = l.cancel
      exact ⟨by rw [← hf.1]; rfl, by rw [← hf.2]; rfl⟩
    · show (startBody (readHeader env l1)).redirectionCount = l.redirectionCount ∧
        (startBody (readHeader env l1)).cancel = l.cancel
      exact ⟨by rw [← hf.1]; rfl, by rw [← hf.2]; rfl⟩

theorem takeChunk_keeps (l l2 : Loop) (a b : Nat) (h : takeChunk l a b = some l2) :
    l2.redirectionCount = l.redirectionCount ∧ l2.cancel = l.cancel := by
  unfold takeChunk at h
  split_ifs at h <;> (simp only [Option.some.injEq] at h; subst h; exact ⟨rfl, rfl⟩)

theorem decodeChunk_keeps (l l2 : Loop) (h : decodeChunk l = some l2) :
    l2.redirectionCount = l.redirectionCount ∧ l2.cancel = l.cancel := by
  unfold decodeChunk at h
  split at h
  · simp only [Option.some.injEq] at h; subst h; exact ⟨rfl, rfl⟩
  · split at h
    · simp only [Option.some.injEq] at h; subst h; exact ⟨rfl, rfl⟩
    · split_ifs at h
      · exact takeChunk_keeps _ _ _ _ h
      · simp only [Option.some.injEq] at h; subst h; exact ⟨rfl, rfl⟩
      · simp only [Option.some.injEq] at h; subst h; exact ⟨rfl, rfl⟩

theorem storeRead_keeps (l l2 : Loop) (h : storeRead l = some l2) :
    l2.redirectionCount = l.redirectionCount ∧ l2.cancel = l.cancel := by
  unfold storeRead at h
  split_ifs at h
  · exact decodeChunk_keeps
      (appendChunkData { l with currentTotalBytes := l.currentTotalBytes + l.readed }) l2 h
  · simp only [Option.some.injEq] at h; subst h; exact ⟨rfl, rfl⟩
  · simp only [Option.some.injEq] at h; subst h; exact ⟨rfl, rfl⟩

theorem flushStep_keeps (env : Env) (l : Loop) :
    (flushStep env l).redirectionCount = l.redirectionCount ∧
      (flushStep env l).cancel = l.cancel := by
  unfold flushStep
  split_ifs <;> exact ⟨rfl, rfl⟩

theorem callbackStep_keeps (request : Request) (l : Loop) :
    (callbackStep request l).Keeps l := by
  unfold callbackStep
  rcases request.mProgressCallback with _ | cb
  · exact ⟨rfl, rfl⟩
  · simp only []
    split_ifs
    · trivial
    · exact ⟨rfl, rfl⟩

theorem bodyPhase_keeps (env : Env) (request : Request) (l : Loop) :
    (bodyPhase env request l).Keeps l := by
  unfold bodyPhase
  rcases hs : storeRead l with _ | l1
  · trivial
  · have h1 := storeRead_keeps l l1 hs
    have h2 := flushStep_keeps env l1
    have h3 := callbackStep_keeps request (flushStep env l1)
    simp only []
    rcases hc : callbackStep request (flushStep env l1) with l2 | l2 | l2 | _
    · rw [hc] at h3
      exact ⟨by rw [h3.1, h2.1, h1.1], by rw [h3.2, h2.2, h1.2]⟩
    · trivial
    · rw [hc] at h3
      exact ⟨by rw [h3.1, h2.1, h1.1], by rw [h3.2, h2.2, h1.2]⟩
    · trivial

theorem terminateBuffer_keeps (l l2 : Loop) (h : terminateBuffer l = some l2) :
    l2.redirectionCount = l.redirectionCount ∧ l2.cancel = l.cancel := by
  unfold terminateBuffer at h
  split_ifs at h
  simp only [Option.some.injEq] at h
  subst h
  exact ⟨rfl, rfl⟩

theorem blankFirstLine_keeps (l : Loop) (k : Nat) :
    (blankFirstLine l k).redirectionCount = l.redirectionCount ∧
      (blankFirstLine l k).cancel = l.cancel := by
  unfold blankFirstLine
  split_ifs <;> exact ⟨rfl, rfl⟩

theorem headerPhase_keeps (env : Env) (request : Request) (l : Loop) :
    (headerPhase env request l).Keeps l := by
  unfold headerPhase
  rcases ht : terminateBuffer l with _ | l1
  · trivial
  · have h1 := terminateBuffer_keeps l l1 ht
    simp only []
    split_ifs
    · have hb := blankFirstLine_keeps l1 2
      exact ⟨by rw [hb.1, h1.1], by rw [hb.2, h1.2]⟩
    · have hb := blankFirstLine_keeps l1 1
      exact ⟨by rw [hb.1, h1.1], by rw [hb.2, h1.2]⟩
    · have hf := headerFound_keeps env request l1
        (headerLoop l1.buffer (PACKET_BUFFER_SIZE + 1) 0).2
      rcases hh : headerFound env request l1
          (headerLoop l1.buffer (PACKET_BUFFER_SIZE + 1) 0).2 with l2 | l2 | l2 | _
      · rw [hh] at hf
        simp only []
        have hbp := bodyPhase_keeps env request l2
        rcases hb : bodyPhase env request l2 with l3 | l3 | l3 | _
        · rw [hb] at hbp
          exact ⟨by rw [hbp.1, hf.1, h1.1], by rw [hbp.2, hf.2, h1.2]⟩
        · trivial
        · rw [hb] at hbp
          exact ⟨by rw [hbp.1, hf.1, h1.1], by rw [hbp.2, hf.2, h1.2]⟩
        · trivial
      · trivial
      · rw [hh] at hf
        exact ⟨by rw [hf.1, h1.1], by rw [hf.2, h1.2]⟩
      · trivial
    · exact ⟨h1.1, h1.2⟩

theorem iteration_keeps (env : Env) (request : Request) (l : Loop) :
    (iteration env request l).Keeps l := by
  unfold iteration
  split_ifs
  · exact headerPhase_keeps env request l
  · exact bodyPhase_keeps env request l

theorem recvLoop_keeps (env : Env) (request : Request) (final : SocketStatus)
    (reads : List Bytes) :
    ∀ l : Loop,
      match recvLoop env request final l reads with
      | LoopEnd.redirect l2 _ =>
        l2.redirectionCount = l.redirectionCount + 1 ∧ l2.cancel = l.cancel
      | LoopEnd.exit _ _ => True
      | LoopEnd.undefined => True := by
  induction reads with
  | nil =>
    intro l
    unfold recvLoop
    split_ifs <;> trivial
  | cons d rest ih =>
    intro l
    unfold recvLoop
    by_cases hc : l.cancel = true
    · rw [if_pos hc]
      trivial
    · rw [if_neg hc]
      by_cases hd : d.length > PACKET_BUFFER_SIZE
      · rw [if_pos hd]
        trivial
      · rw [if_neg hd]
        have hk := iteration_keeps env request (l.receive d)
        rcases hi : iteration env request (l.receive d) with l1 | l1 | l1 | _
        · rw [hi] at hk
          simp only []
          have h2 := ih l1
          rcases hr : recvLoop env request final l1 rest with ⟨l2, r2⟩ | ⟨l2, r2⟩ | _
          · trivial
          · rw [hr] at h2
            exact ⟨by rw [h2.1, hk.1]; rfl, by rw [h2.2, hk.2]; rfl⟩
          · trivial
        · trivial
        · rw [hi] at hk
          exact ⟨hk.1, hk.2⟩
        · trivial

theorem redirectTarget_direct (env : Env) (received : Response) :
    (redirectTarget env received).getProxy.empty = true := rfl

theorem transfer_forwards (env : Env) (http : Http) (request toSend : Request)
    (conn : HttpConnection) (sock : TcpSocket) (writeTo : Bytes) (trace : Trace) :
    (transfer env http request toSend conn sock writeTo trace).Forwards request := by
  unfold transfer
  split_ifs
  · trivial
  · rcases sock.peer with _ | peer
    · trivial
    · simp only []
      split_ifs
      · trivial
      · have hl := recvLoop_keeps env request peer.final peer.reads
          (Loop.start env request { conn with mSocket := some (sock.send (toSend.prepare http)) }
            Response.new writeTo trace)
        rcases hr : recvLoop env request peer.final
            (Loop.start env request { conn with mSocket := some (sock.send (toSend.prepare http)) }
              Response.new writeTo trace) peer.reads with ⟨l, rest⟩ | ⟨l, rest⟩ | _
        · trivial
        · rw [hr] at hl
          refine ⟨?_, redirectTarget_direct env l.received⟩
          show ({ request with mCancel := l.cancel, mRedirectionCount := l.redirectionCount } :
            Request) = _
          rw [hl.1, hl.2]
          rfl
        · trivial

theorem tunnel_forwards (env : Env) (http : Http) (request toSend : Request)
    (conn : HttpConnection) (sock : TcpSocket) (writeTo : Bytes) (trace : Trace) :
    (tunnel env http request toSend conn sock writeTo trace).Forwards request := by
  unfold tunnel
  by_cases h0 : (!sock.ssl) = true
  · rw [if_pos h0]
    trivial
  · rw [if_neg h0]
    rcases sock.peer with _ | p
    · exact transfer_forwards env http request toSend conn sock writeTo trace
    · simp only []
      by_cases h1 : (!p.tunnelSendOk) = true
      · rw [if_pos h1]
        exact transfer_forwards env http request toSend conn sock writeTo trace
      · rw [if_neg h1]
        rcases p.tunnelReply with _ | reply
        · trivial
        · simp only []
          by_cases h2 : (Response.new.parse (reply.take PACKET_BUFFER_SIZE)).getStatus = Status.Ok
          · rw [if_pos h2]
            by_cases h3 : (!p.sslConnectOk) = true
            · rw [if_pos h3]
              trivial
            · rw [if_neg h3]
              exact transfer_forwards env http request toSend _ _ writeTo trace
          · rw [if_neg h2]
            trivial

theorem connected_forwards (env : Env) (http : Http) (request toSend : Request)
    (conn : HttpConnection) (sock : TcpSocket) (writeTo : Bytes) (trace : Trace) :
    (connected env http request toSend conn sock writeTo trace).Forwards request := by
  unfold connected
  split_ifs
  · exact tunnel_forwards env http request toSend conn sock writeTo trace
  · exact transfer_forwards env http request toSend conn sock writeTo trace

theorem connect_forwards (env : Env) (http : Http) (request toSend : Request)
    (conn : HttpConnection) (sock : TcpSocket) (writeTo : Bytes) (trace : Trace) :
    (connect env http request toSend conn sock writeTo trace).Forwards request := by
  unfold connect
  split_ifs
  · exact connected_forwards env http request toSend conn sock writeTo trace
  · trivial
  · trivial
  · exact connected_forwards env http request toSend _ _ writeTo trace

theorem downloadAttempt_forwards (env : Env) (http : Http) (request : Request)
    (writeTo : Bytes) (trace : Trace) :
    (downloadAttempt env http request writeTo trace).Forwards request := by
  unfold downloadAttempt
  split_ifs
  · trivial
  · rcases (http.connection env).mSocket with _ | sock
    · trivial
    · exact connect_forwards env http request _ _ sock writeTo trace

/-- C29: when an attempt ends with the call on the client made for a redirect,
the request handed to that call is the request given, with its redirection
counter one more: path, method, fields and body are the original ones; the
call made is `downloadRequest` of the new client on that request, and the text
that client prepares for it begins with the method and the original path. -/
theorem redirect_keeps_request (env : Env) (http : Http) (request : Request)
    (writeTo : Bytes) (trace : Trace) (r : Result) (target : Http)
    (h : downloadAttempt env http request writeTo trace = Attempt.redirect r target) :
    r.request = { request with mRedirectionCount := request.mRedirectionCount + 1 } ∧
    (r.request.mUri = request.mUri ∧ r.request.mMethod = request.mMethod ∧
      r.request.mFields = request.mFields ∧ r.request.mBody = request.mBody) ∧
    (∀ fuel, downloadRequestFuel env (fuel + 1) http request writeTo trace =
      (downloadRequestFuel env fuel target
        { request with mRedirectionCount := request.mRedirectionCount + 1 } r.sink
        r.trace).map (fun r2 => { r2 with http := r.http })) ∧
    ∃ rest, (target.prepareFields r.request).prepare target =
      methodToString request.mMethod ++ str " " ++ request.mUri ++ str " " ++ rest := by
  have hf := downloadAttempt_forwards env http request writeTo trace
  rw [h] at hf
  obtain ⟨hreq, hp⟩ := hf
  refine ⟨hreq, ?_, ?_, ?_⟩
  · rw [hreq]
    exact ⟨rfl, rfl, rfl, rfl⟩
  · intro fuel
    rw [downloadRequestFuel, h]
    simp only []
    rw [hreq]
    rcases downloadRequestFuel env fuel target
      { request with mRedirectionCount := request.mRedirectionCount + 1 } r.sink r.trace with
      _ | r2
    · rfl
    · rfl
  · have hm := prepareFields_members target r.request hp
    have hrq : r.request.mMethod = request.mMethod ∧ r.request.mUri = request.mUri := by
      rw [hreq]
      exact ⟨rfl, rfl⟩
    refine ⟨str "HTTP/" ++ decimal (target.prepareFields r.request).mMajorVersion ++ str "." ++
      decimal (target.prepareFields r.request).mMinorVersion ++ str "\r\n" ++
      ((target.prepareFields r.request).mFields.map
        (fun f => f.1 ++ str ": " ++ f.2 ++ str "\r\n")).flatten ++ str "\r\n" ++
      (target.prepareFields r.request).mBody, ?_⟩
    simp only [Request.prepare, hp, if_true, writeFields_eq, List.append_assoc]
    rw [hm.1, hm.2.1, hrq.1, hrq.2]

/-- Witness for C29 (`redirect_keeps_request`): the client `Http("a", 80)` of
the chain of redirects, whose server answers 301; the request handed on has the
path `/` of the original request and the counter 1. -/
theorem redirect_keeps_request_witness :
    ∃ r target, downloadAttempt chainEnv chainClient chainRequest [] Trace.start =
        Attempt.redirect r target ∧
      r.request.mUri = str "/" ∧ r.request.mRedirectionCount = 1 := by
  rcases hs : singleReadAnswer chainEnv chainClient with _ | resp
  · exact absurd hs (by decide)
  · have hst : resp.getStatus = Status.MovedPermanently := by
      have h0 : (singleReadAnswer chainEnv chainClient).map Response.getStatus =
          some Status.MovedPermanently := by decide
      rw [hs] at h0
      simpa using h0
    obtain ⟨r, hr, _⟩ := attempt_redirect chainEnv chainClient chainRequest [] Trace.start
      resp hs hst rfl rfl (by decide)
    have h := redirect_keeps_request chainEnv chainClient chainRequest [] Trace.start r _ hr
    refine ⟨r, _, hr, ?_, ?_⟩
    · rw [h.2.1.1]
      decide
    · rw [h.1]
      rfl

theorem find_some_mem (t : FieldTable) (k v : Bytes) (h : t.find k = some v) : (k, v) ∈ t := by
  induction t with
  | nil => simp [FieldTable.find] at h
  | cons e rest ih =>
    obtain ⟨k2, v2⟩ := e
    unfold FieldTable.find at h
    by_cases hk : k = k2
    · rw [if_pos hk] at h
      simp only [Option.some.injEq] at h
      rw [hk, h]
      exact List.mem_cons_self _ _
    · rw [if_neg hk] at h
      exact List.mem_cons_of_mem _ (ih h)

theorem assign_same (t : FieldTable) (k v : Bytes) (hs : t.Sorted) (h : t.find k = some v) :
    t.assign k v = t := by
  induction t with
  | nil => simp [FieldTable.find] at h
  | cons e rest ih =>
    obtain ⟨k2, v2⟩ := e
    unfold FieldTable.Sorted at hs
    rw [List.pairwise_cons] at hs
    unfold FieldTable.find at h
    unfold FieldTable.assign
    by_cases hk : k = k2
    · rw [if_pos hk] at h
      simp only [Option.some.injEq] at h
      rw [if_pos hk, hk, h]
    · rw [if_neg hk] at h
      have hm := find_some_mem rest k v h
      have hlt : strLt k2 k = true := hs.1 (k, v) hm
      have hn : ¬ strLt k k2 = true := by
        intro h2
        have := strLt_trans _ _ _ h2 hlt
        rw [strLt_irrefl] at this
        cases this
      rw [if_neg hk, if_neg hn, ih hs.2 h]

theorem setField_same (q : Request) (f v : Bytes) (hs : q.mFields.Sorted)
    (h : q.mFields.find (toLower f) = some v) : q.setField f v = q := by
  unfold Request.setField
  rw [assign_same q.mFields (toLower f) v hs h]

theorem ite_setField_sorted (c : Prop) [Decidable c] (r : Request) (f v : Bytes)
    (hs : r.mFields.Sorted) : (if c then r.setField f v else r).mFields.Sorted := by
  by_cases hc : c
  · rw [if_pos hc]
    exact setField_sorted r f v hs
  · rw [if_neg hc]
    exact hs

theorem setField_find (r : Request) (f v k : Bytes) :
    (r.setField f v).mFields.find k = if k = toLower f then some v else r.mFields.find k := by
  unfold Request.setField
  exact find_assign r.mFields (toLower f) v k

theorem prepareFields_filled (h : Http) (q : Request) (hs : q.mFields.Sorted)
    (h1 : (q.mFields.find (str "user-agent")).isSome = true)
    (h2 : (q.mFields.find (str "host")).isSome = true)
    (h3 : (q.mFields.find (str "content-length")).isSome = true)
    (h4 : q.mMethod = Method.Post → (q.mFields.find (str "content-type")).isSome = true)
    (h5 : (q.mMajorVersion * 10 + q.mMinorVersion) % 2 ^ 32 ≥ 11 →
      (q.mFields.find (str "connection")).isSome = true)
    (h6 : h.mProxy.empty = false →
      q.mFields.find (str "accept") = some (str "*/*") ∧
      q.mFields.find (str "proxy-connection") =
        some (if h.mIsSSL then str "keep-alive" else str "close"))
    (h7 : q.mCompressedResponse = true →
      q.mFields.find (str "accept-encoding") = some (str "gzip, deflate")) :
    h.prepareFields q = q := by
  have e1 : toLower (str "User-Agent") = str "user-agent" := by decide
  have e2 : toLower (str "Host") = str "host" := by decide
  have e3 : toLower (str "Content-Length") = str "content-length" := by decide
  have e4 : toLower (str "Content-Type") = str "content-type" := by decide
  have e5 : toLower (str "Connection") = str "connection" := by decide
  have e6 : toLower (str "Accept-Encoding") = str "accept-encoding" := by decide
  have e7 : toLower (str "Accept") = str "accept" := by decide
  have e8 : toLower (str "Proxy-connection") = str "proxy-connection" := by decide
  have c1 : (!q.hasField (str "User-Agent")) = false := by
    unfold Request.hasField
    rw [e1, h1]
    rfl
  have c2 : (!q.hasField (str "Host")) = false := by
    unfold Request.hasField
    rw [e2, h2]
    rfl
  have c3 : (!q.hasField (str "Content-Length")) = false := by
    unfold Request.hasField
    rw [e3, h3]
    rfl
  have c4 : (decide (q.mMethod = Method.Post) && !q.hasField (str "Content-Type")) = false := by
    by_cases hp : q.mMethod = Method.Post
    · unfold Request.hasField
      rw [e4, h4 hp]
      simp
    · rw [decide_eq_false hp]
      rfl
  have c5 : (decide ((q.mMajorVersion * 10 + q.mMinorVersion) % 2 ^ 32 ≥ 11) &&
      !q.hasField (str "Connection")) = false := by
    by_cases hv : (q.mMajorVersion * 10 + q.mMinorVersion) % 2 ^ 32 ≥ 11
    · unfold Request.hasField
      rw [e5, h5 hv]
      simp
    · rw [decide_eq_false hv]
      rfl
  unfold Http.prepareFields
  simp only [c1, c2, c3, c4, c5, Bool.false_eq_true, if_false]
  have s7 : (if q.mCompressedResponse = true then
      q.setField (str "Accept-Encoding") (str "gzip, deflate") else q) = q := by
    by_cases hc : q.mCompressedResponse = true
    · rw [if_pos hc]
      exact setField_same q _ _ hs (by rw [e6]; exact h7 hc)
    · rw [if_neg hc]
  by_cases hp : h.mProxy.empty = true
  · simp only [hp, Bool.not_true, Bool.false_eq_true, if_false]
    exact s7
  · have hp2 : h.mProxy.empty = false := by simpa using hp
    obtain ⟨ha, hb⟩ := h6 hp2
    have sa : q.setField (str "Accept") (str "*/*") = q :=
      setField_same q _ _ hs (by rw [e7]; exact ha)
    simp only [hp2, Bool.not_false, if_true, sa]
    by_cases hssl : h.mIsSSL = true
    · rw [hssl] at hb
      simp only [if_true] at hb
      have sb : q.setField (str "Proxy-connection") (str "keep-alive") = q :=
        setField_same q _ _ hs (by rw [e8]; exact hb)
      simp only [hssl, if_true, sb]
      exact s7
    · have hssl2 : h.mIsSSL = false := by simpa using hssl
      rw [hssl2] at hb
      simp only [Bool.false_eq_true, if_false] at hb
      have sb : q.setField (str "Proxy-connection") (str "close") = q :=
        setField_same q _ _ hs (by rw [e8]; exact hb)
      simp only [hssl2, Bool.false_eq_true, if_false, sb]
      exact s7

theorem shape_step (r q : Request) (c : Prop) [Decidable c] (f v : Bytes)
    (hq : ∃ t, q = { r with mFields := t }) :
    ∃ t, (if c then q.setField f v else q) = { r with mFields := t } := by
  obtain ⟨t, rfl⟩ := hq
  by_cases hc : c
  · rw [if_pos hc]
    exact ⟨_, rfl⟩
  · rw [if_neg hc]
    exact ⟨_, rfl⟩

theorem shape_proxy (r q : Request) (c1 c2 : Prop) [Decidable c1] [Decidable c2]
    (a v b w1 w2 : Bytes) (hq : ∃ t, q = { r with mFields := t }) :
    ∃ t, (if c1 then
        (if c2 then (q.setField a v).setField b w1 else (q.setField a v).setField b w2)
      else q) = { r with mFields := t } := by
  obtain ⟨t, rfl⟩ := hq
  by_cases h1 : c1
  · rw [if_pos h1]
    by_cases h2 : c2
    · rw [if_pos h2]
      exact ⟨_, rfl⟩
    · rw [if_neg h2]
      exact ⟨_, rfl⟩
  · rw [if_neg h1]
    exact ⟨_, rfl⟩

theorem prepareFields_shape (h : Http) (r : Request) :
    ∃ t, h.prepareFields r = { r with mFields := t } := by
  unfold Http.prepareFields
  simp only []
  apply shape_step
  apply shape_proxy
  apply shape_step
  apply shape_step
  apply shape_step
  apply shape_step
  apply shape_step
  exact ⟨r.mFields, rfl⟩

theorem sorted_proxy (q : Request) (c1 c2 : Prop) [Decidable c1] [Decidable c2]
    (a v b w1 w2 : Bytes) (hs : q.mFields.Sorted) :
    (if c1 then
        (if c2 then (q.setField a v).setField b w1 else (q.setField a v).setField b w2)
      else q).mFields.Sorted := by
  by_cases h1 : c1
  · rw [if_pos h1]
    by_cases h2 : c2
    · rw [if_pos h2]
      exact setField_sorted _ _ _ (setField_sorted _ _ _ hs)
    · rw [if_neg h2]
      exact setField_sorted _ _ _ (setField_sorted _ _ _ hs)
  · rw [if_neg h1]
    exact hs

theorem prepareFields_sorted (h : Http) (r : Request) (hs : r.mFields.Sorted) :
    (h.prepareFields r).mFields.Sorted := by
  unfold Http.prepareFields
  simp only []
  apply ite_setField_sorted
  apply sorted_proxy
  apply ite_setField_sorted
  apply ite_setField_sorted
  apply ite_setField_sorted
  apply ite_setField_sorted
  apply ite_setField_sorted
  exact hs

theorem ite_proxy_find (c1 c2 : Prop) [Decidable c1] [Decidable c2] (q : Request)
    (a v b w1 w2 k : Bytes) :
    (if c1 then
        (if c2 then (q.setField a v).setField b w1 else (q.setField a v).setField b w2)
      else q).mFields.find k =
      if c1 ∧ k = toLower b then some (if c2 then w1 else w2)
      else if c1 ∧ k = toLower a then some v
      else q.mFields.find k := by
  by_cases h1 : c1
  · by_cases h2 : c2
    · simp only [h1, h2, if_true, true_and, setField_find]
    · simp only [h1, h2, if_true, if_false, true_and, setField_find]
  · simp only [h1, if_false, false_and]

theorem ite_proxy_members (c1 c2 : Prop) [Decidable c1] [Decidable c2] (q : Request)
    (a v b w1 w2 : Bytes) :
    (if c1 then
        (if c2 then (q.setField a v).setField b w1 else (q.setField a v).setField b w2)
      else q).mMethod = q.mMethod ∧
    (if c1 then
        (if c2 then (q.setField a v).setField b w1 else (q.setField a v).setField b w2)
      else q).mMajorVersion = q.mMajorVersion ∧
    (if c1 then
        (if c2 then (q.setField a v).setField b w1 else (q.setField a v).setField b w2)
      else q).mMinorVersion = q.mMinorVersion := by
  by_cases h1 : c1
  · by_cases h2 : c2
    · rw [if_pos h1, if_pos h2]; exact ⟨rfl, rfl, rfl⟩
    · rw [if_pos h1, if_neg h2]; exact ⟨rfl, rfl, rfl⟩
  · rw [if_neg h1]; exact ⟨rfl, rfl, rfl⟩

theorem prepareFields_find_all (h : Http) (r : Request) (k : Bytes) :
    (h.prepareFields r).mFields.find k =
      if r.mCompressedResponse = true ∧ k = str "accept-encoding" then some (str "gzip, deflate")
      else if h.mProxy.empty = false ∧ k = str "proxy-connection" then
        some (if h.mIsSSL = true then str "keep-alive" else str "close")
      else if h.mProxy.empty = false ∧ k = str "accept" then some (str "*/*")
      else if ((r.mMajorVersion * 10 + r.mMinorVersion) % 2 ^ 32 ≥ 11 ∧
          (r.mFields.find (str "connection")).isSome = false) ∧ k = str "connection" then
        some (str "close")
      else if (r.mMethod = Method.Post ∧
          (r.mFields.find (str "content-type")).isSome = false) ∧ k = str "content-type" then
        some (str "application/x-www-form-urlencoded")
      else if (r.mFields.find (str "content-length")).isSome = false ∧
          k = str "content-length" then some (decimal r.mBody.length)
      else if (r.mFields.find (str "host")).isSome = false ∧ k = str "host" then
        some h.mHostName
      else if (r.mFields.find (str "user-agent")).isSome = false ∧ k = str "user-agent" then
        some (str "eepp-network")
      else r.mFields.find k := by
  have e1 : toLower (str "User-Agent") = str "user-agent" := by decide
  have e2 : toLower (str "Host") = str "host" := by decide
  have e3 : toLower (str "Content-Length") = str "content-length" := by decide
  have e4 : toLower (str "Content-Type") = str "content-type" := by decide
  have e5 : toLower (str "Connection") = str "connection" := by decide
  have e6 : toLower (str "Accept-Encoding") = str "accept-encoding" := by decide
  have e7 : toLower (str "Accept") = str "accept" := by decide
  have e8 : toLower (str "Proxy-connection") = str "proxy-connection" := by decide
  have n1 : ¬ (str "host" = str "user-agent") := by decide
  have n2 : ¬ (str "content-length" = str "user-agent") := by decide
  have n3 : ¬ (str "content-length" = str "host") := by decide
  have n4 : ¬ (str "content-type" = str "user-agent") := by decide
  have n5 : ¬ (str "content-type" = str "host") := by decide
  have n6 : ¬ (str "content-type" = str "content-length") := by decide
  have n7 : ¬ (str "connection" = str "user-agent") := by decide
  have n8 : ¬ (str "connection" = str "host") := by decide
  have n9 : ¬ (str "connection" = str "content-length") := by decide
  have n10 : ¬ (str "connection" = str "content-type") := by decide
  unfold Http.prepareFields
  simp only [Request.hasField, ite_setField_find, ite_proxy_find, ite_setField_mMethod,
    ite_setField_mMajorVersion, ite_setField_mMinorVersion, ite_setField_mBody, e1, e2, e3, e4,
    e5, e6, e7, e8, n1, n2, n3, n4, n5, n6, n7, n8, n9, n10, and_false, Bool.and_eq_true,
    Bool.not_eq_true', decide_eq_true_eq, if_false]

/-- C30: `prepareFields` is idempotent: applied to its own result, on any
client, it gives that result again, in every member and in the whole field
table.  The table of the request is that of a `Request`: its keys increase. -/
theorem prepareFields_idempotent (h : Http) (r : Request) (hs : r.mFields.Sorted) :
    h.prepareFields (h.prepareFields r) = h.prepareFields r := by
  obtain ⟨t, ht⟩ := prepareFields_shape h r
  have m1 : (h.prepareFields r).mMethod = r.mMethod := by rw [ht]
  have m2 : (h.prepareFields r).mMajorVersion = r.mMajorVersion := by rw [ht]
  have m3 : (h.prepareFields r).mMinorVersion = r.mMinorVersion := by rw [ht]
  have m4 : (h.prepareFields r).mCompressedResponse = r.mCompressedResponse := by rw [ht]
  apply prepareFields_filled h (h.prepareFields r) (prepareFields_sorted h r hs)
  · rw [prepareFields_find_all]
    simp +decide only [and_false, and_true, if_false]
    cases r.mFields.find (str "user-agent") <;> simp
  · rw [prepareFields_find_all]
    simp +decide only [and_false, and_true, if_false]
    cases r.mFields.find (str "host") <;> simp
  · rw [prepareFields_find_all]
    simp +decide only [and_false, and_true, if_false]
    cases r.mFields.find (str "content-length") <;> simp
  · intro hp
    rw [m1] at hp
    rw [prepareFields_find_all]
    simp +decide only [and_false, and_true, if_false, hp, true_and]
    cases r.mFields.find (str "content-type") <;> simp
  · intro hv
    rw [m2, m3] at hv
    rw [prepareFields_find_all]
    simp +decide only [and_false, and_true, if_false, hv, true_and]
    cases r.mFields.find (str "connection") <;> simp
  · intro hp
    constructor
    · rw [prepareFields_find_all]
      simp +decide only [and_false, and_true, if_false, if_true, hp]
    · rw [prepareFields_find_all]
      simp +decide only [and_false, and_true, if_false, if_true, hp]
  · intro hc
    rw [m4] at hc
    rw [prepareFields_find_all]
    simp only [hc, and_self, if_true]

/-- Witness for C30 (`prepareFields_idempotent`): the request `Request("/",
Get)` on the client with a proxy and an SSL destination. -/
theorem prepareFields_idempotent_witness :
    exampleRequest.mFields.Sorted ∧
    tunnelClient.prepareFields (tunnelClient.prepareFields exampleRequest) =
      tunnelClient.prepareFields exampleRequest :=
  ⟨(new_fields_valid _ _ _ _ _ _ _).1,
   prepareFields_idempotent tunnelClient exampleRequest (new_fields_valid _ _ _ _ _ _ _).1⟩

/-- C9: the servers `a` and `b` answer 301 with the location of the next server
and `c` answers 200, a chain of `N = 2`; the request has `maxRedirects` 1.  When
`a` delivers its answer in one read, the response returned is the 301 of `b`
and the counter is 1.  When the same answer arrives in two reads that split
the `Location` line, the start of that line is lost, the response of `a` has no
`Location` field, the redirect is followed to an empty host, and the response
returned is the default one, with the status `ConnectionFailed`. -/
theorem redirect_split_location :
    str "HTTP/1.1 301 Moved Permanently\r\nLoca" ++ str "tion: http://b/\r\n\r\n" =
      str "HTTP/1.1 301 Moved Permanently\r\nLocation: http://b/\r\n\r\n" ∧
    chainRequest.mMaxRedirections = 1 ∧ chainRequest.mRedirectionCount = 0 ∧
    chainRequest.mFollowRedirect = true ∧
    (splitChainRun [str "HTTP/1.1 301 Moved Permanently\r\nLocation: http://b/\r\n\r\n"]).map
      Result.redirectView = some (Status.MovedPermanently, 1) ∧
    (splitChainRun
      [str "HTTP/1.1 301 Moved Permanently\r\nLoca", str "tion: http://b/\r\n\r\n"]).map
      Result.redirectView = some (Status.ConnectionFailed, 1) := by
  refine ⟨by decide, by decide, by decide, by decide, by decide, by decide⟩

end EE.Network
